import Mathlib

/-!
# cloud01-wu/scheduler: the job scheduling and dispatch bridge

A shallow embedding of `helper/jobUtils.go`, `controllers/v1/jobController.go`,
`controllers/v1/misc.go`, `orm/scheduleJob.go` and `main.go`.

* The relational table `schedule_jobs` is a list of rows.
* The process-wide go-quartz scheduler (`global.Scheduler`) is the list of its
  queue items.
* Go's `error` is an `Option Err` (`none` is `nil`); a Go result pair
  `(value, err)` is a Lean pair.
* Everything the code obtains from outside (clock, random UUID, the key of a
  freshly allocated job, failures of storage statements and of the scheduler)
  is an explicit argument.
-/

namespace Scheduler

/-! ## Data model (`orm/scheduleJob.go`) -/

/-- Row of the table `schedule_jobs` (`orm.ScheduleJob`). -/
structure ScheduleJob where
  JobID : String
  JobKey : Int
  Status : Int
  Name : String
  TriggerType : String
  Expression : String
  HttpMethod : String
  HttpTargetUrl : String
  HttpRequestBody : String
  JsonWebToken : String
  CreationTime : Int
  UpdateTime : Int
deriving DecidableEq, Repr

def JobStatusEnable : Int := 1

def JobStatusDisable : Int := 2

def JobStatusDone : Int := 3

/-! ## Errors -/

/-- Kinds of Go `error` values that occur in the program; the message text is
not modelled, only where the error comes from. -/
inductive Err where
  /-- The error of `quartz.NewCronTrigger`. -/
  | cronParse
  /-- The `strconv.ErrSyntax` error of `strconv.ParseInt`. -/
  | notANumber
  /-- The `strconv.ErrRange` error of `strconv.ParseInt`. -/
  | outOfRange
  /-- The error of `Scheduler.ScheduleJob`. -/
  | scheduleFailed
  /-- The error of `GetScheduledJob` / `DeleteJob`: no job with the given key. -/
  | jobNotFound
  /-- The error of a `Prepare`, `Exec`, `Query` or row scan of the storage layer. -/
  | storage
  /-- The error `sql.ErrNoRows` of `scan.Row` on an empty result set. -/
  | noRows
  /-- The error of `io.ReadAll` on the request body. -/
  | readBody
  /-- The error of `json.Unmarshal`. -/
  | unmarshal
  /-- The error `errors.New("unexpected request data")`. -/
  | unexpectedData
  /-- The error of `govalidator.ValidateStruct`. -/
  | validation
  /-- The error `errors.New("invalid job UUID")`. -/
  | invalidUUID
  /-- The error `errors.New("invalid argument(s): " + err.Error())`. -/
  | invalidArguments (cause : Err)
  /-- The error of `url.Parse`. -/
  | urlParse
  /-- The error of `client.New`. -/
  | clientInit
  /-- The error of `httpClient.ExecuteMethod`. -/
  | transport
deriving DecidableEq, Repr

/-! ## `strconv.ParseInt(s, 10, 64)` and `time.Duration` arithmetic -/

/-- Value of a string of decimal digits. -/
def digitsValue (cs : List Char) : Nat :=
  cs.foldl (fun n c => 10 * n + (c.toNat - 48)) 0

/-- Model of the Go standard library function `strconv.ParseInt(s, 10, 64)`
(not part of the repository), after its documentation: an optional leading `+`
or `-`, then at least one decimal digit and nothing else (base 10 admits no
underscore); the value must lie in `[-2^63, 2^63 - 1]`. The result is the Go
pair `(i, err)`. -/
def ParseInt (s : String) : Int × Option Err :=
  match s.data with
  | [] => (0, some .notANumber)
  | c :: rest =>
    let neg := c = '-'
    let ds := if c = '+' ∨ c = '-' then rest else c :: rest
    if ds = [] ∨ ¬ ds.all Char.isDigit = true then (0, some .notANumber)
    else
      let un := digitsValue ds
      if ¬ neg ∧ un ≥ 2 ^ 63 then (2 ^ 63 - 1, some .outOfRange)
      else if neg ∧ un > 2 ^ 63 then (-2 ^ 63, some .outOfRange)
      else (if neg then -(un : Int) else (un : Int), none)

/-- The strings that denote a signed 64-bit integer in base 10: at least one
decimal digit, after an optional `+` for a value below `2^63` or after a `-`
for a value of at most `2^63`. -/
def IsInt64Literal (e : String) : Prop :=
  ∃ ds : List Char, ds ≠ [] ∧ (∀ c ∈ ds, c.isDigit = true) ∧
    (((e.data = ds ∨ e.data = '+' :: ds) ∧ digitsValue ds < 2 ^ 63) ∨
      (e.data = '-' :: ds ∧ digitsValue ds ≤ 2 ^ 63))

/-- Two's complement wrap-around of a mathematical integer into `int64`. -/
def wrapInt64 (x : Int) : Int :=
  (x + 2 ^ 63) % 2 ^ 64 - 2 ^ 63

/-- The constant `time.Second`, in nanoseconds. -/
def Second : Int := 1000000000

/-- The `int64` product `time.Second * time.Duration(seconds)`. -/
def secondsToDuration (seconds : Int) : Int :=
  wrapInt64 (Second * seconds)

/-! ## Triggers, jobs and the scheduler (`github.com/reugn/go-quartz/quartz`) -/

/-- Trigger values the program builds. -/
inductive Trigger where
  /-- Result of `quartz.NewCronTrigger(expression)`. -/
  | cron (expression : String)
  /-- Result of `quartz.NewSimpleTrigger(interval)`, interval in nanoseconds. -/
  | simple (interval : Int)
  /-- Result of `quartz.NewRunOnceTrigger(delay)`, delay in nanoseconds. -/
  | runOnce (delay : Int)
deriving DecidableEq, Repr

/-- The function job built by `NewJob`: the variables captured by the closure
passed to `quartz.NewFunctionJob`, and the key the library gives the job
(`job.Key()`, a 32-bit hash code, hence a natural number). -/
structure FunctionJob where
  key : Nat
  jobID : String
  name : String
  triggerType : String
  httpMethod : String
  httpTargetUrl : String
  httpRequestPayload : String
  headers : List (String × String)
deriving DecidableEq, Repr

/-- One entry of the scheduler queue: a job with its trigger. -/
structure Item where
  Job : FunctionJob
  Trigger : Trigger
deriving DecidableEq, Repr

/-- Calls that change the table, the scheduler or the network, in the order
they are made. -/
inductive Effect where
  | dbInsert (jobID : String)
  | dbUpdate (jobID : String)
  | dbUpdateKey (jobID : String)
  | dbUpdateStatus (jobID : String)
  | dbDelete (jobID : String)
  | dbTruncate
  | schedSchedule (key : Nat)
  | schedDelete (key : Int)
  | schedClear
  | httpCall (method : String) (url : String)
deriving DecidableEq, Repr

/-- State of the system: the rows of `schedule_jobs`, the queue of
`global.Scheduler`, and the history of effects (most recent last). -/
structure State where
  db : List ScheduleJob
  queue : List Item
  log : List Effect
deriving DecidableEq, Repr

/-- The empty system: empty table, empty scheduler. -/
def State.empty : State := ⟨[], [], []⟩

/-- Behaviour of the libraries that depends only on the argument. -/
structure Lib where
  /-- `quartz.NewCronTrigger(expression)` returns a nil error. -/
  cronValid : String → Bool
  /-- The `requrl` validator of govalidator. -/
  isRequestURL : String → Bool
  /-- The function `govalidator.IsUUIDv4`. -/
  isUUIDv4 : String → Bool
  /-- The rendering `datetime.FromUnixTime(t).String()`. -/
  formatTime : Int → String
  /-- `url.Parse(rawURL)` returns a nil error. -/
  urlParses : String → Bool

/-- What one call obtains from outside. -/
structure Env where
  /-- `datetime.Now().EpochInSecond()`. -/
  now : Int
  /-- `utils.RandomUUIDString()`. -/
  uuid : String
  /-- Key of the function job allocated in this call. -/
  key : Nat
  /-- `ScheduleJob` returns an error. -/
  scheduleErr : Bool
  /-- The first `Prepare` fails. -/
  prepare1Err : Bool
  /-- The `Query`/`Exec` of the first statement fails. -/
  run1Err : Bool
  /-- Scanning the rows of the first statement fails. -/
  scan1Err : Bool
  /-- The second `Prepare` fails. -/
  prepare2Err : Bool
  /-- The `Query`/`Exec` of the second statement fails. -/
  run2Err : Bool
  /-- Scanning the rows of the second statement fails. -/
  scan2Err : Bool

/-- An environment in which nothing fails. -/
def Env.ok (now : Int) (uuid : String) (key : Nat) : Env :=
  ⟨now, uuid, key, false, false, false, false, false, false, false⟩

/-- An environment in which only the `Exec` of the second statement fails. -/
def Env.failRun2 (now : Int) (uuid : String) (key : Nat) : Env :=
  ⟨now, uuid, key, false, false, false, false, false, true, false⟩

/-- An environment in which only the `Exec` of the first statement fails. -/
def Env.failRun1 (now : Int) (uuid : String) (key : Nat) : Env :=
  ⟨now, uuid, key, false, false, true, false, false, false, false⟩

/-! ### Scheduler operations -/

/-- Modelled from the spec: `StdScheduler.ScheduleJob` of go-quartz, which is
not part of the repository: "registers a new LiveSchedule", unless computing the
first fire time fails. -/
def SchedulerScheduleJob (env : Env) (job : FunctionJob) (trigger : Trigger) (s : State) :
    Option Err × State :=
  if env.scheduleErr then
    (some .scheduleFailed, { s with log := s.log ++ [.schedSchedule job.key] })
  else
    (none, { s with queue := s.queue ++ [⟨job, trigger⟩],
                    log := s.log ++ [.schedSchedule job.key] })

/-- Modelled from the spec: `StdScheduler.GetScheduledJob(key)` of go-quartz:
`lookup(handle) -> LiveSchedule | NotFound`. -/
def GetScheduledJob (key : Int) (s : State) : Option Item × Option Err :=
  match s.queue.find? (fun it => (it.Job.key : Int) = key) with
  | some it => (some it, none)
  | none => (none, some .jobNotFound)

/-- Queue without the first item of the given key. -/
def removeKey (key : Int) : List Item → List Item
  | [] => []
  | it :: rest => if (it.Job.key : Int) = key then rest else it :: removeKey key rest

/-- Modelled from the spec: `StdScheduler.DeleteJob(key)` of go-quartz:
`unschedule(handle) -> ok | NotFound`, removing the schedule. -/
def SchedulerDeleteJob (key : Int) (s : State) : Option Err × State :=
  if s.queue.any (fun it => (it.Job.key : Int) = key) then
    (none, { s with queue := removeKey key s.queue, log := s.log ++ [.schedDelete key] })
  else
    (some .jobNotFound, { s with log := s.log ++ [.schedDelete key] })

/-- Modelled from the spec: `StdScheduler.Clear()` of go-quartz: "unschedules
everything". -/
def SchedulerClear (s : State) : State :=
  { s with queue := [], log := s.log ++ [.schedClear] }

/-! ## `helper/jobUtils.go` -/

/-- Outcome of the `switch triggerType` of `NewJob` (lines 36-58): either the
trigger is set, or the function returns `nil, err` at once. -/
inductive SwitchResult where
  | trigger (t : Trigger)
  | ret (err : Option Err)
deriving DecidableEq, Repr

/-- The `switch triggerType` statement of `NewJob`. In the default case the
returned `err` is the function-level variable, which is still nil. -/
def buildTrigger (lib : Lib) (triggerType expression : String) : SwitchResult :=
  let err : Option Err := none
  if triggerType = "cron" then
    if lib.cronValid expression then .trigger (.cron expression)
    else .ret (some .cronParse)
  else if triggerType = "interval" then
    match ParseInt expression with
    | (_, some err) => .ret (some err)
    | (seconds, none) => .trigger (.simple (secondsToDuration seconds))
  else if triggerType = "once" then
    match ParseInt expression with
    | (_, some err) => .ret (some err)
    | (seconds, none) => .trigger (.runOnce (secondsToDuration seconds))
  else .ret err

/-- The function `helper.NewJob`: the Go result pair `(job, err)` and the next
state. The job is registered on `global.Scheduler`. -/
def NewJob (lib : Lib) (env : Env) (s : State)
    (jobID name triggerType expression httpMethod httpTargetUrl httpRequestPayload
      jsonWebToken : String) : (Option FunctionJob × Option Err) × State :=
  match buildTrigger lib triggerType expression with
  | .ret err => ((none, err), s)
  | .trigger trigger =>
    let headers : List (String × String) :=
      if jsonWebToken ≠ "" then [("Authorization", "Bearer " ++ jsonWebToken)] else []
    let job : FunctionJob :=
      ⟨env.key, jobID, name, triggerType, httpMethod, httpTargetUrl, httpRequestPayload, headers⟩
    match SchedulerScheduleJob env job trigger s with
    | (some err, s1) => ((none, some err), s1)
    | (none, s1) => ((some job, none), s1)

/-- What one firing obtains from outside. -/
structure FireEnv where
  /-- The `Prepare` of the status statement fails. -/
  prepareErr : Bool
  /-- The `Exec` of the status statement fails. -/
  execErr : Bool
  /-- `client.New` fails. -/
  clientErr : Bool
  /-- Result of `httpClient.ExecuteMethod`: `none` for a transport error,
  otherwise the status code of the response. -/
  response : Option Int

/-- The statement `UPDATE schedule_jobs SET Status=? WHERE JobID=?`. -/
def updateStatus (status : Int) (jobID : String) (db : List ScheduleJob) : List ScheduleJob :=
  db.map (fun r => if r.JobID = jobID then { r with Status := status } else r)

/-- The dispatch action: the closure given to `quartz.NewFunctionJob` in
`NewJob` (lines 65-132), run by the scheduler at each firing. The result is the
Go pair `(status code, err)` and the next state. -/
def FunctionJob.run (lib : Lib) (env : FireEnv) (job : FunctionJob) (s : State) :
    (Int × Option Err) × State :=
  -- update job status
  let written : Option Err × State :=
    if job.triggerType = "once" then
      if env.prepareErr then (some .storage, s)
      else if env.execErr then (some .storage, s)
      else (none, { s with db := updateStatus JobStatusDone job.jobID s.db,
                           log := s.log ++ [.dbUpdateStatus job.jobID] })
    else (none, s)
  match written with
  | (some err, s1) => ((-1, some err), s1)
  | (none, s1) =>
    -- exec job
    if ¬ lib.urlParses job.httpTargetUrl = true then ((-1, some .urlParse), s1)
    else if env.clientErr then ((-1, some .clientInit), s1)
    else
      let s2 := { s1 with log := s1.log ++ [.httpCall job.httpMethod job.httpTargetUrl] }
      match env.response with
      | none => ((-1, some .transport), s2)
      | some statusCode => ((statusCode, none), s2)

/-- Modelled from the spec: one firing of the live schedule `it` by the
scheduler bridge of go-quartz, which is not part of the repository (spec 4.3,
firing algorithm): the bridge invokes the dispatch action and the trigger
computes its next fire time; a cron or interval schedule stays live, whereas a
once trigger "returns no further fire after its single firing", so its
schedule is no longer on the scheduler. The result of the action goes to the
log of the bridge only. A schedule that is not live does not fire. -/
def fire (lib : Lib) (env : FireEnv) (it : Item) (s : State) : State :=
  if it ∈ s.queue then
    let s1 : State :=
      match it.Trigger with
      | .runOnce _ => { s with queue := s.queue.erase it }
      | _ => s
    (FunctionJob.run lib env it.Job s1).2
  else s

/-- A sequence of firings, each with its own environment, in order. -/
def fires (lib : Lib) (fs : List (FireEnv × Item)) (s : State) : State :=
  fs.foldl (fun st f => fire lib f.1 f.2 st) s

/-! ## `controllers/v1` -/

/-- The request type `PostJobRequest`. -/
structure PostJobRequest where
  Name : String
  TriggerType : String
  Expression : String
  HttpMethod : String
  HttpTargetUrl : String
  HttpRequestBody : String
  JsonWebToken : String
deriving DecidableEq, Repr

/-- The request type `PutJobRequest`. -/
structure PutJobRequest where
  Status : Int
  Name : String
  TriggerType : String
  Expression : String
  HttpMethod : String
  HttpTargetUrl : String
  HttpRequestBody : String
  JsonWebToken : String
deriving DecidableEq, Repr

/-- The response type `GetJobResult`. -/
structure GetJobResult where
  JobID : String
  JobKey : Int
  Status : Int
  Name : String
  TriggerType : String
  Expression : String
  HttpMethod : String
  HttpTargetUrl : String
  HttpRequestBody : String
  JsonWebToken : String
  CreationTime : String
  UpdateTime : String
deriving DecidableEq, Repr

/-- An entry of `model.Response.Errors`. -/
structure ResponseError where
  Status : Int
  Detail : Err
deriving DecidableEq, Repr

/-- The paging record `model.Meta`. -/
structure Paging where
  From : Int
  Size : Int
  Total : Int
deriving DecidableEq, Repr

/-- The payload of a response: nothing, one job view, or a list of them. -/
inductive Payload where
  | empty
  | job (r : GetJobResult)
  | jobs (rs : List GetJobResult)
deriving DecidableEq, Repr

/-- The response object `model.Response` written to the client. -/
structure Response where
  Errors : List ResponseError
  Paging : Option Paging
  Data : Payload
deriving DecidableEq, Repr

/-- What a handler does to its connection: it writes a response, or it panics
on a nil job. -/
inductive Outcome where
  | written (r : Response)
  | panicked
deriving DecidableEq, Repr

def StatusBadRequest : Int := 400

def StatusInternalServerError : Int := 500

/-- The function `responseError` of `misc.go`, applied to the fresh
`model.Response{}` of a handler. -/
def responseError (statusCode : Int) (err : Err) : Outcome :=
  .written ⟨[⟨statusCode, err⟩], none, .empty⟩

/-- What reading and decoding the request body yields. -/
inductive Body (α : Type) where
  /-- `io.ReadAll` fails. -/
  | unreadable
  /-- `json.Unmarshal` fails. -/
  | malformed
  /-- The type assertion on the decoded payload fails. -/
  | unexpected
  /-- The decoded request. -/
  | data (d : α)
deriving DecidableEq, Repr

/-- The `expression` validator registered in `init` (lines 62-71). -/
def validExpression (lib : Lib) (expression : String) : Bool :=
  let err : Option Err := if lib.cronValid expression then none else some .cronParse
  let err := if err ≠ none then (ParseInt expression).2 else err
  err = none

/-- Result of `govalidator.ValidateStruct` on a `PostJobRequest`, after the
`valid` tags of the struct (every tagged field is required). -/
def validatePost (lib : Lib) (r : PostJobRequest) : Bool :=
  decide (1 ≤ r.Name.length ∧ r.Name.length ≤ 32)
    && decide (r.TriggerType ∈ ["cron", "interval", "once"])
    && validExpression lib r.Expression
    && decide (r.HttpMethod ∈ ["POST", "GET", "PUT", "DELETE"])
    && lib.isRequestURL r.HttpTargetUrl

/-- Result of `govalidator.ValidateStruct` on a `PutJobRequest`. -/
def validatePut (lib : Lib) (r : PutJobRequest) : Bool :=
  decide (1 ≤ r.Status ∧ r.Status ≤ 2)
    && decide (1 ≤ r.Name.length ∧ r.Name.length ≤ 32)
    && decide (r.TriggerType ∈ ["cron", "interval", "once"])
    && validExpression lib r.Expression
    && decide (r.HttpMethod ∈ ["POST", "GET", "PUT", "DELETE"])
    && lib.isRequestURL r.HttpTargetUrl

/-- The view of a row returned to the client. -/
def toResult (lib : Lib) (j : ScheduleJob) : GetJobResult :=
  { JobID := j.JobID, JobKey := j.JobKey, Status := j.Status, Name := j.Name,
    TriggerType := j.TriggerType, Expression := j.Expression, HttpMethod := j.HttpMethod,
    HttpTargetUrl := j.HttpTargetUrl, HttpRequestBody := j.HttpRequestBody,
    JsonWebToken := j.JsonWebToken, CreationTime := lib.formatTime j.CreationTime,
    UpdateTime := lib.formatTime j.UpdateTime }

/-- The zero value `orm.ScheduleJob{}`. -/
def ScheduleJob.zero : ScheduleJob :=
  ⟨"", 0, 0, "", "", "", "", "", "", "", 0, 0⟩

/-- The statement `SELECT * FROM schedule_jobs WHERE JobID=?`. -/
def selectByID (jobID : String) (db : List ScheduleJob) : List ScheduleJob :=
  db.filter (fun r => r.JobID = jobID)

/-- The call `scan.Row(&scheduleJob, rows)`: the first row, `sql.ErrNoRows` when
there is none. -/
def scanRow (scanErr : Bool) (rows : List ScheduleJob) : ScheduleJob × Option Err :=
  if scanErr then (ScheduleJob.zero, some .storage)
  else
    match rows with
    | [] => (ScheduleJob.zero, some .noRows)
    | r :: _ => (r, none)

/-- The handler `PostJob` (Create). -/
def PostJob (lib : Lib) (env : Env) (body : Body PostJobRequest) (s : State) :
    Outcome × State :=
  match body with
  | .unreadable => (responseError StatusBadRequest .readBody, s)
  | .malformed => (responseError StatusBadRequest .unmarshal, s)
  | .unexpected => (responseError StatusBadRequest .unexpectedData, s)
  | .data requestData =>
    if ¬ validatePost lib requestData = true then
      (responseError StatusBadRequest .validation, s)
    else
      let jobID := env.uuid
      let scheduleJob : ScheduleJob :=
        { JobID := jobID, JobKey := 0, Status := 1, Name := requestData.Name,
          TriggerType := requestData.TriggerType, Expression := requestData.Expression,
          HttpMethod := requestData.HttpMethod, HttpTargetUrl := requestData.HttpTargetUrl,
          HttpRequestBody := requestData.HttpRequestBody,
          JsonWebToken := requestData.JsonWebToken,
          CreationTime := env.now, UpdateTime := env.now }
      match NewJob lib env s scheduleJob.JobID scheduleJob.Name scheduleJob.TriggerType
          scheduleJob.Expression scheduleJob.HttpMethod scheduleJob.HttpTargetUrl
          scheduleJob.HttpRequestBody scheduleJob.JsonWebToken with
      | ((_, some err), s1) => (responseError StatusBadRequest (.invalidArguments err), s1)
      | ((none, none), s1) => (.panicked, s1)
      | ((some job, none), s1) =>
        let scheduleJob := { scheduleJob with JobKey := (job.key : Int) }
        -- insert job into database
        if env.prepare1Err then (responseError StatusInternalServerError .storage, s1)
        else if env.run1Err then (responseError StatusInternalServerError .storage, s1)
        else
          (.written ⟨[], none, .job (toResult lib scheduleJob)⟩,
            { s1 with db := s1.db ++ [scheduleJob],
                      log := s1.log ++ [.dbInsert scheduleJob.JobID] })

/-- The tail of `PostJob` from line 153, entered once `NewJob` has returned
the job: the key of the job is recorded in the row, the row is inserted and
its view is the answer. `PostJob` runs it in the state `NewJob` leaves; the
bridge may fire a due schedule in between, on its own worker. -/
def PostJob.insert (lib : Lib) (env : Env) (scheduleJob : ScheduleJob) (job : FunctionJob)
    (s1 : State) : Outcome × State :=
  let scheduleJob := { scheduleJob with JobKey := (job.key : Int) }
  -- insert job into database
  if env.prepare1Err then (responseError StatusInternalServerError .storage, s1)
  else if env.run1Err then (responseError StatusInternalServerError .storage, s1)
  else
    (.written ⟨[], none, .job (toResult lib scheduleJob)⟩,
      { s1 with db := s1.db ++ [scheduleJob],
                log := s1.log ++ [.dbInsert scheduleJob.JobID] })

/-- The rows a `SELECT * FROM schedule_jobs` with the optional `LIMIT ?,?`
returns; `none` when the statement is rejected (a negative argument). -/
def selectPage (withLimit : Bool) (frm size : Int) (db : List ScheduleJob) :
    Option (List ScheduleJob) :=
  if withLimit then
    if frm < 0 ∨ size < 0 then none
    else some ((db.drop frm.toNat).take size.toNat)
  else some db

/-- The handler `GetJobs` (list), with the query values `from` and `size`. -/
def GetJobs (lib : Lib) (env : Env) (frm size : Int) (s : State) : Outcome × State :=
  let withLimit : Bool := size ≠ 0
  if env.prepare1Err then (responseError StatusInternalServerError .storage, s)
  else if env.run1Err then (responseError StatusInternalServerError .storage, s)
  else if env.scan1Err then (responseError StatusInternalServerError .storage, s)
  else
    let totalCount : Int := s.db.length
    if env.prepare2Err then (responseError StatusInternalServerError .storage, s)
    else
      match (if env.run2Err then none else selectPage withLimit frm size s.db) with
      | none => (responseError StatusInternalServerError .storage, s)
      | some scheduleJobs =>
        if env.scan2Err then (responseError StatusInternalServerError .storage, s)
        else
          let entities := scheduleJobs.map (toResult lib)
          (.written ⟨[], some ⟨frm, entities.length, totalCount⟩, .jobs entities⟩, s)

/-- The handler `GetJob`. -/
def GetJob (lib : Lib) (env : Env) (jobID : String) (s : State) : Outcome × State :=
  if ¬ lib.isUUIDv4 jobID = true then
    (responseError StatusInternalServerError .invalidUUID, s)
  else if env.prepare1Err then (responseError StatusInternalServerError .storage, s)
  else if env.run1Err then (responseError StatusInternalServerError .storage, s)
  else
    match scanRow env.scan1Err (selectByID jobID s.db) with
    | (_, some err) => (responseError StatusInternalServerError err, s)
    | (scheduleJob, none) => (.written ⟨[], none, .job (toResult lib scheduleJob)⟩, s)

/-- The block "try to destory existing job" shared by `PutJob` (lines 503-513)
and `DeleteJob` (lines 707-717): the error that makes the handler return, and
the next state. -/
def destroyExisting (jobKey : Int) (s : State) : Option Err × State :=
  match GetScheduledJob jobKey s with
  | (_, none) => SchedulerDeleteJob jobKey s
  | (_, some _) => (none, s)

/-- The `UPDATE schedule_jobs SET JobKey=?, Status=?, ... WHERE JobID=?`
statement of `PutJob`. -/
def updateRow (j : ScheduleJob) (db : List ScheduleJob) : List ScheduleJob :=
  db.map (fun r =>
    if r.JobID = j.JobID then
      { r with JobKey := j.JobKey, Status := j.Status, Name := j.Name,
               TriggerType := j.TriggerType, Expression := j.Expression,
               HttpMethod := j.HttpMethod, HttpTargetUrl := j.HttpTargetUrl,
               HttpRequestBody := j.HttpRequestBody, JsonWebToken := j.JsonWebToken,
               UpdateTime := j.UpdateTime }
    else r)

/-- The tail of `PutJob` from line 539: copy the request into the row, run the
update statement and answer. -/
def PutJob.persist (lib : Lib) (env : Env) (requestData : PutJobRequest)
    (scheduleJob : ScheduleJob) (s : State) : Outcome × State :=
  let scheduleJob :=
    { scheduleJob with
      Status := requestData.Status, Name := requestData.Name,
      TriggerType := requestData.TriggerType, Expression := requestData.Expression,
      HttpMethod := requestData.HttpMethod, HttpTargetUrl := requestData.HttpTargetUrl,
      HttpRequestBody := requestData.HttpRequestBody,
      JsonWebToken := requestData.JsonWebToken, UpdateTime := env.now }
  if env.prepare2Err then (responseError StatusInternalServerError .storage, s)
  else if env.run2Err then (responseError StatusInternalServerError .storage, s)
  else
    (.written ⟨[], none, .job (toResult lib scheduleJob)⟩,
      { s with db := updateRow scheduleJob s.db, log := s.log ++ [.dbUpdate scheduleJob.JobID] })

/-- The handler `PutJob` (Replace) for the path variable `jobID`. -/
def PutJob (lib : Lib) (env : Env) (jobID : String) (body : Body PutJobRequest) (s : State) :
    Outcome × State :=
  match body with
  | .unreadable => (responseError StatusBadRequest .readBody, s)
  | .malformed => (responseError StatusBadRequest .unmarshal, s)
  | .unexpected => (responseError StatusBadRequest .unexpectedData, s)
  | .data requestData =>
    if ¬ lib.isUUIDv4 jobID = true then
      (responseError StatusInternalServerError .invalidUUID, s)
    else if ¬ validatePut lib requestData = true then
      (responseError StatusBadRequest .validation, s)
    -- query schedule job row
    else if env.prepare1Err then (responseError StatusInternalServerError .storage, s)
    else if env.run1Err then (responseError StatusInternalServerError .storage, s)
    else
      match scanRow env.scan1Err (selectByID jobID s.db) with
      | (_, some err) => (responseError StatusInternalServerError err, s)
      | (scheduleJob, none) =>
        -- try to destory existing job
        match destroyExisting scheduleJob.JobKey s with
        | (some err, s1) => (responseError StatusInternalServerError err, s1)
        | (none, s1) =>
          let scheduleJob := { scheduleJob with JobKey := -1 }
          if requestData.Status = 1 then
            -- restore the job
            match NewJob lib env s1 scheduleJob.JobID requestData.Name requestData.TriggerType
                requestData.Expression requestData.HttpMethod requestData.HttpTargetUrl
                requestData.HttpRequestBody requestData.JsonWebToken with
            | ((_, some err), s2) => (responseError StatusInternalServerError err, s2)
            | ((none, none), s2) => (.panicked, s2)
            | ((some job, none), s2) =>
              PutJob.persist lib env requestData { scheduleJob with JobKey := (job.key : Int) } s2
          else PutJob.persist lib env requestData scheduleJob s1

/-- The handler `DeleteJobs` (ClearAll). -/
def DeleteJobs (env : Env) (s : State) : Outcome × State :=
  -- delete row
  if env.prepare1Err then (responseError StatusInternalServerError .storage, s)
  else if env.run1Err then (responseError StatusInternalServerError .storage, s)
  else
    let s1 := { s with db := [], log := s.log ++ [.dbTruncate] }
    -- destory existing jobs
    let s2 := SchedulerClear s1
    (.written ⟨[], none, .empty⟩, s2)

/-- The handler `DeleteJob` (Delete) for the path variable `jobID`. -/
def DeleteJob (lib : Lib) (env : Env) (jobID : String) (s : State) : Outcome × State :=
  if ¬ lib.isUUIDv4 jobID = true then
    (responseError StatusInternalServerError .invalidUUID, s)
  -- query schedule job row
  else if env.prepare1Err then (responseError StatusInternalServerError .storage, s)
  else if env.run1Err then (responseError StatusInternalServerError .storage, s)
  else
    match scanRow env.scan1Err (selectByID jobID s.db) with
    | (_, some err) => (responseError StatusInternalServerError err, s)
    | (scheduleJob, none) =>
      -- try to destory existing job
      match destroyExisting scheduleJob.JobKey s with
      | (some err, s1) => (responseError StatusInternalServerError err, s1)
      | (none, s1) =>
        -- delete row
        if env.prepare2Err then (responseError StatusInternalServerError .storage, s1)
        else if env.run2Err then (responseError StatusInternalServerError .storage, s1)
        else
          (.written ⟨[], none, .empty⟩,
            { s1 with db := s1.db.filter (fun r => r.JobID ≠ scheduleJob.JobID),
                      log := s1.log ++ [.dbDelete scheduleJob.JobID] })

/-! ## `main.go` -/

/-- How `restoreScheduleJobs` ends: it returns an `error` (possibly nil), or it
panics on a nil job. -/
inductive Ending where
  | returned (err : Option Err)
  | panicked
deriving DecidableEq, Repr

/-- The statement `UPDATE schedule_jobs SET JobKey=? WHERE JobID=?`. -/
def updateKey (key : Int) (jobID : String) (db : List ScheduleJob) : List ScheduleJob :=
  db.map (fun r => if r.JobID = jobID then { r with JobKey := key } else r)

/-- The `for` loop of `restoreScheduleJobs` (lines 118-154) followed by the
final `return err` (line 156). `outer` is the function-level variable `err`;
the `err` assigned inside the body is a new variable of the loop body, declared
by `job, err := helper.NewJob(...)`. The environment of the iteration over the
`i`-th row read is `envs i`. -/
def restoreLoop (lib : Lib) (envs : Nat → Env) (outer : Option Err) :
    Nat → List ScheduleJob → State → Ending × State
  | _, [], s => (.returned outer, s)
  | i, scheduleJob :: rest, s =>
    if scheduleJob.Status ≠ JobStatusEnable then restoreLoop lib envs outer (i + 1) rest s
    else
      match NewJob lib (envs i) s scheduleJob.JobID scheduleJob.Name scheduleJob.TriggerType
          scheduleJob.Expression scheduleJob.HttpMethod scheduleJob.HttpTargetUrl
          scheduleJob.HttpRequestBody scheduleJob.JsonWebToken with
      | ((_, some _), s1) => (.returned outer, s1)   -- break
      | ((none, none), s1) => (.panicked, s1)
      | ((some job, none), s1) =>
        if (envs i).prepare2Err then (.returned (some .storage), s1)
        else if (envs i).run2Err then (.returned (some .storage), s1)
        else
          restoreLoop lib envs outer (i + 1) rest
            { s1 with db := updateKey (job.key : Int) scheduleJob.JobID s1.db,
                      log := s1.log ++ [.dbUpdateKey scheduleJob.JobID] }

/-- The function `restoreScheduleJobs` (Startup Recovery). -/
def restoreScheduleJobs (lib : Lib) (env : Env) (envs : Nat → Env) (s : State) :
    Ending × State :=
  if env.prepare1Err then (.returned (some .storage), s)
  else if env.run1Err then (.returned (some .storage), s)
  else
    let scheduleJobs := s.db
    let err : Option Err := if env.scan1Err then some .storage else none
    if err ≠ none then (.returned err, s)
    else restoreLoop lib envs err 0 scheduleJobs s

/-- The start of a process in `main` (lines 223-232): a new, empty scheduler,
then `restoreScheduleJobs`; when that returns an error the process exits
(`os.Exit(1)`), and when it panics the process dies: either way no live
schedule is left. -/
def startup (lib : Lib) (env : Env) (envs : Nat → Env) (s : State) : Ending × State :=
  match restoreScheduleJobs lib env envs { s with queue := [] } with
  | (.returned none, s1) => (.returned none, s1)
  | (ending, s1) => (ending, { s1 with queue := [] })

/-- The row `PutJob` persists: the loaded row with the given key and the
fields of the request. -/
def putRow (env : Env) (requestData : PutJobRequest) (row : ScheduleJob) (key : Int) :
    ScheduleJob :=
  { row with
    JobKey := key, Status := requestData.Status, Name := requestData.Name,
    TriggerType := requestData.TriggerType, Expression := requestData.Expression,
    HttpMethod := requestData.HttpMethod, HttpTargetUrl := requestData.HttpTargetUrl,
    HttpRequestBody := requestData.HttpRequestBody,
    JsonWebToken := requestData.JsonWebToken, UpdateTime := env.now }

/-- The row `PostJob` inserts: the fields of the request under the new job id,
with status 1 and the key of the new job. -/
def postRow (env : Env) (requestData : PostJobRequest) : ScheduleJob :=
  { JobID := env.uuid, JobKey := (env.key : Int), Status := 1, Name := requestData.Name,
    TriggerType := requestData.TriggerType, Expression := requestData.Expression,
    HttpMethod := requestData.HttpMethod, HttpTargetUrl := requestData.HttpTargetUrl,
    HttpRequestBody := requestData.HttpRequestBody, JsonWebToken := requestData.JsonWebToken,
    CreationTime := env.now, UpdateTime := env.now }

/-! ## Reachable states -/

/-- One operation of the system, started in state `s` and ending in state
`s2`, whether it succeeds or answers with an error. A Create draws a job id
that no row and no live job carries; every new job gets a key no live job
carries. With `strict` set, the update statement of a Replace does not fail. -/
inductive Step (lib : Lib) (strict : Bool) : State → State → Prop where
  | create (env : Env) (body : Body PostJobRequest) (s : State)
      (hid : env.uuid ∉ s.db.map (fun r => r.JobID))
      (hlive : env.uuid ∉ s.queue.map (fun it => it.Job.jobID))
      (hkey : env.key ∉ s.queue.map (fun it => it.Job.key)) :
      Step lib strict s (PostJob lib env body s).2
  | replace (env : Env) (jobID : String) (body : Body PutJobRequest) (s : State)
      (hkey : env.key ∉ s.queue.map (fun it => it.Job.key))
      (hupd : strict = true → env.prepare2Err = false ∧ env.run2Err = false) :
      Step lib strict s (PutJob lib env jobID body s).2
  | delete (env : Env) (jobID : String) (s : State) :
      Step lib strict s (DeleteJob lib env jobID s).2
  | clearAll (env : Env) (s : State) :
      Step lib strict s (DeleteJobs env s).2
  | startup (env : Env) (envs : Nat → Env) (s : State)
      (hkeys : Function.Injective (fun i => (envs i).key)) :
      Step lib strict s (startup lib env envs s).2

/-- States reachable from the empty system. -/
inductive Reachable (lib : Lib) (strict : Bool) : State → Prop where
  | empty : Reachable lib strict State.empty
  | step {s s2 : State} (h : Reachable lib strict s) (hs : Step lib strict s s2) :
      Reachable lib strict s2

/-- The scheduler holds at most one live schedule per JobID. -/
def OneSchedulePerJob (s : State) : Prop :=
  (s.queue.map (fun it => it.Job.jobID)).Nodup

/-- The invariant of the reconciler on a table and a scheduler queue: the keys
of the live jobs are pairwise distinct, the ids of the rows are pairwise
distinct, the ids of the live jobs are pairwise distinct, and a row of the id
of a live job stores the key of that job. -/
def Inv (db : List ScheduleJob) (q : List Item) : Prop :=
  (q.map (fun it => it.Job.key)).Nodup ∧
  (db.map (fun r => r.JobID)).Nodup ∧
  (q.map (fun it => it.Job.jobID)).Nodup ∧
  ∀ it ∈ q, ∀ r ∈ db, r.JobID = it.Job.jobID → r.JobKey = (it.Job.key : Int)

/-- The row of the table once Startup Recovery has registered the jobs
`news`: it carries the key of the first of them that has its id, and is
untouched when none has. -/
def applyKeys (news : List Item) (r : ScheduleJob) : ScheduleJob :=
  match news.find? (fun it => it.Job.jobID = r.JobID) with
  | some it => { r with JobKey := (it.Job.key : Int) }
  | none => r

/-- Every trigger build and storage statement succeeds in the iterations of
Startup Recovery over the rows `rest`, the first of which is the `i`-th row
read: for each Enabled row the switch of `NewJob` yields a trigger, the
scheduler accepts the job, and the key update is prepared and executed. -/
def RestoreSucceeds (lib : Lib) (envs : Nat → Env) (i : Nat) (rest : List ScheduleJob) : Prop :=
  ∀ (j : Nat) (r : ScheduleJob), rest[j]? = some r → r.Status = JobStatusEnable →
    (∃ t, buildTrigger lib r.TriggerType r.Expression = .trigger t) ∧
      (envs (i + j)).scheduleErr = false ∧ (envs (i + j)).prepare2Err = false ∧
      (envs (i + j)).run2Err = false

/-! ## Concrete inputs -/

/-- A library instance for the concrete evaluations: it accepts two cron
expressions, every non-empty URL and every job id of 36 characters. -/
def sampleLib : Lib :=
  { cronValid := fun e => e = "0 0 * * * *" ∨ e = "0 30 9 * * *"
    isRequestURL := fun u => u ≠ ""
    isUUIDv4 := fun u => u.length = 36
    formatTime := fun _ => ""
    urlParses := fun _ => true }

/-- A row of the table with the given id, key, status, trigger type and
expression. -/
def sampleRow (jobID : String) (key status : Int) (triggerType expression : String) :
    ScheduleJob :=
  ⟨jobID, key, status, "job", triggerType, expression, "POST", "https://example.com/hook",
    "", "", 0, 0⟩

/-- Environments of the iterations of a recovery in which nothing fails; the
`i`-th new job gets key `100 + i`. -/
def sampleEnvs : Nat → Env := fun i => Env.ok 0 "" (100 + i)

/-- A function job with the given key, id and trigger type. -/
def sampleJob (key : Nat) (jobID triggerType : String) : FunctionJob :=
  ⟨key, jobID, "job", triggerType, "POST", "https://example.com/hook", "", []⟩

/-- A firing in which nothing fails and the target answers with `code`. -/
def FireEnv.ok (code : Int) : FireEnv := ⟨false, false, false, some code⟩

/-- A Create request. -/
def samplePost (triggerType expression : String) : PostJobRequest :=
  ⟨"job", triggerType, expression, "POST", "https://example.com/hook", "", ""⟩

/-- A Replace request. -/
def samplePut (status : Int) (triggerType expression : String) : PutJobRequest :=
  ⟨status, "job", triggerType, expression, "POST", "https://example.com/hook", "", ""⟩

/-- A job id. -/
def sampleID : String := "123e4567-e89b-42d3-a456-426614174000"

/-- Another job id. -/
def otherID : String := "9b2f7c1e-5d3a-4e8b-a1c6-0f4d2e7b9a35"

/-- A system with one Enabled interval job, of id `sampleID`, live under key 7. -/
def sampleState : State :=
  ⟨[sampleRow sampleID 7 1 "interval" "3600"],
    [⟨sampleJob 7 sampleID "interval", .simple 3600000000000⟩], []⟩

/-- A table read at startup: an Enabled interval job, a Disabled cron job and a
Done once job, with stale keys, and an empty scheduler. -/
def mixedState : State :=
  ⟨[sampleRow "a" 5 1 "interval" "60", sampleRow "b" (-1) 2 "cron" "0 0 * * * *",
      sampleRow "c" 6 3 "once" "0"], [], []⟩

/-- The live schedule of a once job of id `sampleID` and key 7, of delay 0. -/
def onceItem : Item := ⟨sampleJob 7 sampleID "once", .runOnce 0⟩

/-- The state a process is in after this history: in an earlier process the
once job `sampleID` was live under key 101 and fired, which left its row Done
with that key; the process was restarted, and Startup Recovery (with the keys
of `sampleEnvs`) gave the same key 101 to the Enabled interval job `otherID`. -/
def reusedKeyState : State :=
  (startup sampleLib (Env.ok 0 "" 0) sampleEnvs
    ⟨[sampleRow sampleID 101 3 "once" "0", sampleRow otherID 5 1 "interval" "60"], [], []⟩).2

/-- The state after three operations on the empty system: a Create of an
interval job (key 7), a Replace of it with status 1 (key 8) whose update
statement fails at `Exec`, and a further Replace with status 1 (key 9) in
which nothing fails. -/
def dupState : State :=
  (PutJob sampleLib (Env.ok 20 "" 9) sampleID (.data (samplePut 1 "interval" "60"))
    (PutJob sampleLib (Env.failRun2 10 "" 8) sampleID
      (.data (samplePut 1 "interval" "60"))
      (PostJob sampleLib (Env.ok 0 sampleID 7) (.data (samplePost "interval" "3600"))
        State.empty).2).2).2

/-! ## Startup Recovery: a failed trigger build -/

/-- C1: evaluation of `restoreScheduleJobs` on a table whose first Enabled row
has the corrupted expression "abc" and whose second Enabled row is sound. The
loop stops at the first row and the second row is left unprocessed (nothing is
scheduled, no key is rewritten), but the value returned is the nil error: the
`err` set by `NewJob` is a variable of the loop body, and the final
`return err` returns the function-level one. -/
theorem C1_restore_returns_nil_on_failed_build :
    restoreScheduleJobs sampleLib (Env.ok 0 "" 0) sampleEnvs
        ⟨[sampleRow "a" 5 1 "interval" "abc", sampleRow "b" 6 1 "interval" "60"], [], []⟩
      = (.returned none,
          ⟨[sampleRow "a" 5 1 "interval" "abc", sampleRow "b" 6 1 "interval" "60"], [], []⟩) := by
  decide

/-- Whatever the table and the environment, the loop of Startup Recovery
returns the function-level error it was entered with or a storage error; the
error of a failed `NewJob` is never returned. -/
theorem restoreLoop_returned (lib : Lib) (envs : Nat → Env) (outer : Option Err) :
    ∀ (rest : List ScheduleJob) (i : Nat) (s : State) (e : Option Err),
      (restoreLoop lib envs outer i rest s).1 = .returned e → e = outer ∨ e = some .storage := by
  intro rest
  induction rest with
  | nil =>
    intro i s e h
    simp only [restoreLoop, Ending.returned.injEq] at h
    exact Or.inl h.symm
  | cons scheduleJob rest ih =>
    intro i s e h
    by_cases hst : scheduleJob.Status ≠ JobStatusEnable
    · rw [restoreLoop, if_pos hst] at h
      exact ih _ _ _ h
    · rw [restoreLoop, if_neg hst] at h
      rcases hnj : NewJob lib (envs i) s scheduleJob.JobID scheduleJob.Name
          scheduleJob.TriggerType scheduleJob.Expression scheduleJob.HttpMethod
          scheduleJob.HttpTargetUrl scheduleJob.HttpRequestBody scheduleJob.JsonWebToken with
        ⟨⟨job, err⟩, s1⟩
      rw [hnj] at h
      cases err with
      | some e1 =>
        simp only [Ending.returned.injEq] at h
        exact Or.inl h.symm
      | none =>
        cases job with
        | none => simp at h
        | some j =>
          simp only at h
          split_ifs at h with h4 h5
          · simp only [Ending.returned.injEq] at h
            exact Or.inr h.symm
          · simp only [Ending.returned.injEq] at h
            exact Or.inr h.symm
          · exact ih _ _ _ h

/-- The only error `restoreScheduleJobs` ever returns is a storage error: a
failed trigger build is not reported. -/
theorem restoreScheduleJobs_returned (lib : Lib) (env : Env) (envs : Nat → Env) (s : State)
    (e : Err) (h : (restoreScheduleJobs lib env envs s).1 = .returned (some e)) :
    e = .storage := by
  by_cases h1 : env.prepare1Err = true
  · simp [restoreScheduleJobs, h1] at h
    exact h.symm
  by_cases h2 : env.run1Err = true
  · simp [restoreScheduleJobs, h1, h2] at h
    exact h.symm
  by_cases h3 : env.scan1Err = true
  · simp [restoreScheduleJobs, h1, h2, h3] at h
    exact h.symm
  · have hP : restoreScheduleJobs lib env envs s = restoreLoop lib envs none 0 s.db s := by
      simp [restoreScheduleJobs, h1, h2, h3]
    rw [hP] at h
    rcases restoreLoop_returned lib envs _ _ _ _ _ h with h5 | h5
    · cases h5
    · simpa using h5

/-! ## `NewJob` -/

/-- C2: evaluation of `NewJob` at the trigger type "weekly", for every
expression, library, environment and state: the result pair is `(nil, nil)`,
that is no job and a nil error, and the state is unchanged. -/
theorem C2_NewJob_unsupported_type_returns_nil_error (lib : Lib) (env : Env) (s : State)
    (jobID name expression httpMethod httpTargetUrl httpRequestPayload jsonWebToken : String) :
    NewJob lib env s jobID name "weekly" expression httpMethod httpTargetUrl
      httpRequestPayload jsonWebToken = ((none, none), s) := by
  simp [NewJob, buildTrigger]

/-- For every trigger type other than "cron", "interval" and "once", `NewJob`
returns the pair `(nil, nil)` and leaves the state as it was. -/
theorem NewJob_other_type (lib : Lib) (env : Env) (s : State)
    (jobID name triggerType expression httpMethod httpTargetUrl httpRequestPayload
      jsonWebToken : String)
    (h1 : triggerType ≠ "cron") (h2 : triggerType ≠ "interval") (h3 : triggerType ≠ "once") :
    NewJob lib env s jobID name triggerType expression httpMethod httpTargetUrl
      httpRequestPayload jsonWebToken = ((none, none), s) := by
  simp [NewJob, buildTrigger, h1, h2, h3]

/-! ## The dispatch action of a `once` job -/

/-- C3: evaluation of the firing of a `once` job. The live schedule of key 7
of the job `a` fires on a table holding its row (status Enabled, JobKey 7).
The dispatch action leaves the row with status Done and still JobKey 7, not
the cleared value -1 that `PutJob` stores when it unschedules a job; yet after
the firing the scheduler holds no schedule, and lookup of key 7 returns
NotFound: the row keeps a handle that is no longer live. -/
theorem C3_once_firing_keeps_JobKey :
    (FunctionJob.run sampleLib (FireEnv.ok 200) (sampleJob 7 "a" "once")
        ⟨[sampleRow "a" 7 1 "once" "0"], [], []⟩).2.db
      = [sampleRow "a" 7 3 "once" "0"] ∧
    (sampleRow "a" 7 3 "once" "0").JobKey = 7 ∧
    (sampleRow "a" 7 3 "once" "0").JobKey ≠ -1 ∧
    (fire sampleLib (FireEnv.ok 200) ⟨sampleJob 7 "a" "once", .runOnce 0⟩
        ⟨[sampleRow "a" 7 1 "once" "0"], [⟨sampleJob 7 "a" "once", .runOnce 0⟩], []⟩).db
      = [sampleRow "a" 7 3 "once" "0"] ∧
    (fire sampleLib (FireEnv.ok 200) ⟨sampleJob 7 "a" "once", .runOnce 0⟩
        ⟨[sampleRow "a" 7 1 "once" "0"], [⟨sampleJob 7 "a" "once", .runOnce 0⟩], []⟩).queue
      = [] ∧
    GetScheduledJob 7
        (fire sampleLib (FireEnv.ok 200) ⟨sampleJob 7 "a" "once", .runOnce 0⟩
          ⟨[sampleRow "a" 7 1 "once" "0"], [⟨sampleJob 7 "a" "once", .runOnce 0⟩], []⟩)
      = (none, some .jobNotFound) := by
  decide

/-- What the stale key of a Done job does: in `reusedKeyState` the Done once
job `sampleID` still stores key 101, which after a restart is the key of the
live schedule of the Enabled job `otherID`. A Delete of the Done job succeeds
and removes that schedule: the scheduler is empty afterwards while the row of
`otherID` is still Enabled with key 101. -/
theorem stale_key_delete_removes_other_schedule :
    reusedKeyState.db
      = [sampleRow sampleID 101 3 "once" "0", sampleRow otherID 101 1 "interval" "60"] ∧
    reusedKeyState.queue = [⟨sampleJob 101 otherID "interval", .simple 60000000000⟩] ∧
    (DeleteJob sampleLib (Env.ok 0 "" 0) sampleID reusedKeyState).1
      = .written ⟨[], none, .empty⟩ ∧
    (DeleteJob sampleLib (Env.ok 0 "" 0) sampleID reusedKeyState).2.db
      = [sampleRow otherID 101 1 "interval" "60"] ∧
    (DeleteJob sampleLib (Env.ok 0 "" 0) sampleID reusedKeyState).2.queue = [] := by
  decide

/-- The status write of the dispatch action in general: when a job of trigger
type "once" fires and the status statement succeeds, the write comes before
any HTTP call, and it sets the status of every row of that job to Done (3)
while leaving the JobID and the JobKey of every row, and the status of every
other row, as they were. -/
theorem once_firing_sets_Done_only (lib : Lib) (env : FireEnv) (job : FunctionJob)
    (s : State) (honce : job.triggerType = "once") (hprep : env.prepareErr = false)
    (hexec : env.execErr = false) :
    List.Forall₂
        (fun r r2 => r2.JobID = r.JobID ∧ r2.JobKey = r.JobKey ∧
          r2.Status = if r.JobID = job.jobID then JobStatusDone else r.Status)
        s.db (FunctionJob.run lib env job s).2.db ∧
      JobStatusDone = 3 ∧
      ((FunctionJob.run lib env job s).2.log = s.log ++ [.dbUpdateStatus job.jobID] ∨
        (FunctionJob.run lib env job s).2.log =
          s.log ++ [.dbUpdateStatus job.jobID, .httpCall job.httpMethod job.httpTargetUrl]) := by
  have hdb : (FunctionJob.run lib env job s).2.db = updateStatus JobStatusDone job.jobID s.db := by
    simp only [FunctionJob.run, honce, hprep, hexec]
    simp only [if_true, Bool.false_eq_true, if_false]
    split_ifs <;> first | rfl | (split <;> rfl)
  refine ⟨?_, rfl, ?_⟩
  · rw [hdb, updateStatus, List.forall₂_map_right_iff]
    refine List.forall₂_same.mpr ?_
    intro r _
    by_cases h : r.JobID = job.jobID <;> simp [h]
  · simp only [FunctionJob.run, honce, hprep, hexec]
    simp only [if_true, Bool.false_eq_true, if_false]
    by_cases hurl : lib.urlParses job.httpTargetUrl = true
    · by_cases hcl : env.clientErr = true
      · left; simp [hurl, hcl]
      · right
        cases hr : env.response <;> simp [hurl, hcl]
    · left; simp [hurl]

/-- The theorem `once_firing_sets_Done_only` at a firing in which nothing
fails. -/
theorem once_firing_sets_Done_only_example :
    List.Forall₂
        (fun r r2 => r2.JobID = r.JobID ∧ r2.JobKey = r.JobKey ∧
          r2.Status = if r.JobID = (sampleJob 7 "a" "once").jobID then JobStatusDone
            else r.Status)
        [sampleRow "a" 7 1 "once" "0"]
        (FunctionJob.run sampleLib (FireEnv.ok 200) (sampleJob 7 "a" "once")
          ⟨[sampleRow "a" 7 1 "once" "0"], [], []⟩).2.db ∧
      JobStatusDone = 3 ∧
      ((FunctionJob.run sampleLib (FireEnv.ok 200) (sampleJob 7 "a" "once")
          ⟨[sampleRow "a" 7 1 "once" "0"], [], []⟩).2.log
          = [] ++ [.dbUpdateStatus (sampleJob 7 "a" "once").jobID] ∨
        (FunctionJob.run sampleLib (FireEnv.ok 200) (sampleJob 7 "a" "once")
          ⟨[sampleRow "a" 7 1 "once" "0"], [], []⟩).2.log
          = [] ++ [.dbUpdateStatus (sampleJob 7 "a" "once").jobID,
              .httpCall (sampleJob 7 "a" "once").httpMethod
                (sampleJob 7 "a" "once").httpTargetUrl]) :=
  once_firing_sets_Done_only sampleLib (FireEnv.ok 200) (sampleJob 7 "a" "once")
    ⟨[sampleRow "a" 7 1 "once" "0"], [], []⟩ (by decide) (by decide) (by decide)

/-! ## The trigger build for `interval` and `once` -/

/-- C4, the claim fails: for trigger type "interval" the negative expression
"-5" is accepted. The trigger build yields a simple trigger of -5 seconds, and
`NewJob` returns a job with a nil error and registers it on the scheduler. -/
theorem C4_negative_expression_accepted :
    buildTrigger sampleLib "interval" "-5" = .trigger (.simple (-5000000000)) ∧
    NewJob sampleLib (Env.ok 0 "" 7) State.empty "a" "job" "interval" "-5" "POST"
        "https://example.com/hook" "" ""
      = ((some (sampleJob 7 "a" "interval"), none),
          ⟨[], [⟨sampleJob 7 "a" "interval", .simple (-5000000000)⟩], [.schedSchedule 7]⟩) := by
  decide

/-- Unfolding of `ParseInt` on a string that starts with `+`. -/
theorem ParseInt_cons_plus (e : String) (rest : List Char) (hd : e.data = '+' :: rest) :
    ParseInt e = if rest = [] ∨ ¬ rest.all Char.isDigit = true then (0, some .notANumber)
      else if digitsValue rest ≥ 2 ^ 63 then (2 ^ 63 - 1, some .outOfRange)
      else ((digitsValue rest : Int), none) := by
  unfold ParseInt
  rw [hd]
  simp

/-- Unfolding of `ParseInt` on a string that starts with `-`. -/
theorem ParseInt_cons_minus (e : String) (rest : List Char) (hd : e.data = '-' :: rest) :
    ParseInt e = if rest = [] ∨ ¬ rest.all Char.isDigit = true then (0, some .notANumber)
      else if digitsValue rest > 2 ^ 63 then (-2 ^ 63, some .outOfRange)
      else (-(digitsValue rest : Int), none) := by
  unfold ParseInt
  rw [hd]
  simp

/-- Unfolding of `ParseInt` on a string that starts with no sign. -/
theorem ParseInt_cons_digit (e : String) (c : Char) (rest : List Char) (hd : e.data = c :: rest)
    (hp : c ≠ '+') (hm : c ≠ '-') :
    ParseInt e = if ¬ (c :: rest).all Char.isDigit = true then (0, some .notANumber)
      else if digitsValue (c :: rest) ≥ 2 ^ 63 then (2 ^ 63 - 1, some .outOfRange)
      else ((digitsValue (c :: rest) : Int), none) := by
  unfold ParseInt
  rw [hd]
  simp [hp, hm]

/-- The function `ParseInt` returns a nil error exactly on the signed 64-bit literals. -/
theorem ParseInt_ok_iff (e : String) : (ParseInt e).2 = none ↔ IsInt64Literal e := by
  unfold IsInt64Literal
  cases hd : e.data with
  | nil =>
    have h0 : ParseInt e = (0, some .notANumber) := by unfold ParseInt; rw [hd]
    rw [h0]
    simp only [reduceCtorEq, false_iff, not_exists]
    rintro ds ⟨hne, -, h | h⟩
    · rcases h with ⟨h | h, -⟩
      · exact hne h.symm
      · simp at h
    · simp at h
  | cons c rest =>
    by_cases hp : c = '+'
    · subst hp
      have hnd : ¬ ('+' : Char).isDigit = true := by decide
      rw [ParseInt_cons_plus e rest hd]
      constructor
      · intro h
        by_cases h1 : rest = [] ∨ ¬ rest.all Char.isDigit = true
        · rw [if_pos h1] at h; simp at h
        · rw [if_neg h1] at h
          by_cases h2 : digitsValue rest ≥ 2 ^ 63
          · rw [if_pos h2] at h; simp at h
          · refine ⟨rest, fun hr => h1 (Or.inl hr), fun c hc => ?_, Or.inl ⟨Or.inr rfl, ?_⟩⟩
            · by_contra hcon
              exact h1 (Or.inr (fun hall => hcon (List.all_eq_true.mp hall c hc)))
            · exact Nat.not_le.mp h2
      · rintro ⟨ds, hne, hall, h | h⟩
        · rcases h with ⟨h | h, hlt⟩
          · exfalso
            have : '+' ∈ ds := by rw [← h]; simp
            exact hnd (hall _ this)
          · simp only [List.cons.injEq, true_and] at h
            subst h
            have h1 : ¬ (rest = [] ∨ ¬ rest.all Char.isDigit = true) := by
              rintro (h | h)
              · exact hne h
              · exact h (List.all_eq_true.mpr hall)
            rw [if_neg h1, if_neg (Nat.not_le.mpr hlt)]
        · simp at h
    · by_cases hm : c = '-'
      · subst hm
        have hnd : ¬ ('-' : Char).isDigit = true := by decide
        rw [ParseInt_cons_minus e rest hd]
        constructor
        · intro h
          by_cases h1 : rest = [] ∨ ¬ rest.all Char.isDigit = true
          · rw [if_pos h1] at h; simp at h
          · rw [if_neg h1] at h
            by_cases h2 : digitsValue rest > 2 ^ 63
            · rw [if_pos h2] at h; simp at h
            · refine ⟨rest, fun hr => h1 (Or.inl hr), fun c hc => ?_, Or.inr ⟨rfl, ?_⟩⟩
              · by_contra hcon
                exact h1 (Or.inr (fun hall => hcon (List.all_eq_true.mp hall c hc)))
              · exact Nat.not_lt.mp h2
        · rintro ⟨ds, hne, hall, h | h⟩
          · rcases h with ⟨h | h, -⟩
            · exfalso
              have : '-' ∈ ds := by rw [← h]; simp
              exact hnd (hall _ this)
            · simp at h
          · rcases h with ⟨h, hle⟩
            simp only [List.cons.injEq, true_and] at h
            subst h
            have h1 : ¬ (rest = [] ∨ ¬ rest.all Char.isDigit = true) := by
              rintro (h | h)
              · exact hne h
              · exact h (List.all_eq_true.mpr hall)
            rw [if_neg h1, if_neg (Nat.not_lt.mpr hle)]
      · rw [ParseInt_cons_digit e c rest hd hp hm]
        constructor
        · intro h
          by_cases h1 : ¬ (c :: rest).all Char.isDigit = true
          · rw [if_pos h1] at h; simp at h
          · rw [if_neg h1] at h
            by_cases h2 : digitsValue (c :: rest) ≥ 2 ^ 63
            · rw [if_pos h2] at h; simp at h
            · refine ⟨c :: rest, by simp, fun x hx => ?_, Or.inl ⟨Or.inl rfl, ?_⟩⟩
              · exact List.all_eq_true.mp (not_not.mp h1) x hx
              · exact Nat.not_le.mp h2
        · rintro ⟨ds, hne, hall, h | h⟩
          · rcases h with ⟨h | h, hlt⟩
            · subst h
              rw [if_neg (not_not.mpr (List.all_eq_true.mpr hall)), if_neg (Nat.not_le.mpr hlt)]
            · simp only [List.cons.injEq] at h
              exact absurd h.1 hp
          · simp only [List.cons.injEq] at h
            exact absurd h.1.1 hm

/-- C4 as amended: for trigger type "interval" or "once" the trigger build of
`NewJob` succeeds if and only if the expression is a signed base-10 64-bit
integer literal (an optional `+` or `-`, then decimal digits, the value within
`int64`), a negative one included; for every other expression the switch
returns an error, and `NewJob` returns no job, a non-nil error, and leaves the
table and the scheduler as they were. -/
theorem C4_interval_once_build_iff_int64_literal (lib : Lib) (triggerType expression : String)
    (htype : triggerType = "interval" ∨ triggerType = "once") :
    ((∃ t, buildTrigger lib triggerType expression = .trigger t) ↔
        IsInt64Literal expression) ∧
      (¬ IsInt64Literal expression →
        ∀ (env : Env) (s : State)
          (jobID name httpMethod httpTargetUrl httpRequestPayload jsonWebToken : String),
          ∃ err, NewJob lib env s jobID name triggerType expression httpMethod httpTargetUrl
            httpRequestPayload jsonWebToken = ((none, some err), s)) := by
  rw [← ParseInt_ok_iff]
  rcases htype with h | h <;> subst h
  · refine ⟨?_, ?_⟩
    · simp only [buildTrigger, String.reduceEq, if_false, if_true]
      rcases hpi : ParseInt expression with ⟨n, _ | err⟩ <;> simp
    · intro hne env s jobID name m u p t
      simp only [NewJob, buildTrigger, String.reduceEq, if_false, if_true]
      rcases hpi : ParseInt expression with ⟨n, _ | err⟩
      · rw [hpi] at hne; simp at hne
      · exact ⟨err, rfl⟩
  · refine ⟨?_, ?_⟩
    · simp only [buildTrigger, String.reduceEq, if_false, if_true]
      rcases hpi : ParseInt expression with ⟨n, _ | err⟩ <;> simp
    · intro hne env s jobID name m u p t
      simp only [NewJob, buildTrigger, String.reduceEq, if_false, if_true]
      rcases hpi : ParseInt expression with ⟨n, _ | err⟩
      · rw [hpi] at hne; simp at hne
      · exact ⟨err, rfl⟩

/-- Witness of `C4_interval_once_build_iff_int64_literal`. -/
theorem C4_interval_once_build_iff_int64_literal_witness :
    ((∃ t, buildTrigger sampleLib "once" "-5" = .trigger t) ↔ IsInt64Literal "-5") ∧
      (¬ IsInt64Literal "-5" →
        ∀ (env : Env) (s : State)
          (jobID name httpMethod httpTargetUrl httpRequestPayload jsonWebToken : String),
          ∃ err, NewJob sampleLib env s jobID name "once" "-5" httpMethod httpTargetUrl
            httpRequestPayload jsonWebToken = ((none, some err), s)) :=
  C4_interval_once_build_iff_int64_literal sampleLib "once" "-5" (Or.inr rfl)

/-! ## Error statuses of Create, Replace and Delete -/

/-- C5, the claim fails: Delete of a well-formed job id that has no durable
record answers with the error status 500, which is not a 4xx code. -/
theorem C5_delete_unknown_id_answers_500 :
    (DeleteJob sampleLib (Env.ok 0 "" 0) sampleID State.empty).1
      = .written ⟨[⟨500, .noRows⟩], none, .empty⟩ ∧
    ¬ (400 ≤ (500 : Int) ∧ (500 : Int) ≤ 499) := by
  decide

/-- C5 as amended: a Create or a Replace (of a well-formed job id) whose
request has an invalid expression or an unsupported trigger type is answered
with status 400 by validation; a Create whose `NewJob` returns an error is
answered with status 400; a Replace or a Delete of a well-formed job id that
has no durable record, the storage statements succeeding, is answered with
status 500. -/
theorem C5_error_statuses (lib : Lib) (env : Env) (s : State) :
    (∀ req : PostJobRequest,
        (validExpression lib req.Expression = false ∨
          req.TriggerType ∉ ["cron", "interval", "once"]) →
        (PostJob lib env (.data req) s).1 = .written ⟨[⟨400, .validation⟩], none, .empty⟩) ∧
    (∀ (req : PostJobRequest) (err : Err), validatePost lib req = true →
        (NewJob lib env s env.uuid req.Name req.TriggerType req.Expression req.HttpMethod
          req.HttpTargetUrl req.HttpRequestBody req.JsonWebToken).1.2 = some err →
        (PostJob lib env (.data req) s).1
          = .written ⟨[⟨400, .invalidArguments err⟩], none, .empty⟩) ∧
    (∀ (jobID : String) (req : PutJobRequest), lib.isUUIDv4 jobID = true →
        (validExpression lib req.Expression = false ∨
          req.TriggerType ∉ ["cron", "interval", "once"]) →
        (PutJob lib env jobID (.data req) s).1
          = .written ⟨[⟨400, .validation⟩], none, .empty⟩) ∧
    (∀ (jobID : String) (req : PutJobRequest), lib.isUUIDv4 jobID = true →
        validatePut lib req = true →
        env.prepare1Err = false → env.run1Err = false → env.scan1Err = false →
        (∀ r ∈ s.db, r.JobID ≠ jobID) →
        (PutJob lib env jobID (.data req) s).1 = .written ⟨[⟨500, .noRows⟩], none, .empty⟩) ∧
    (∀ jobID : String, lib.isUUIDv4 jobID = true →
        env.prepare1Err = false → env.run1Err = false → env.scan1Err = false →
        (∀ r ∈ s.db, r.JobID ≠ jobID) →
        (DeleteJob lib env jobID s).1 = .written ⟨[⟨500, .noRows⟩], none, .empty⟩) := by
  have hsel : ∀ jobID : String, (∀ r ∈ s.db, r.JobID ≠ jobID) → selectByID jobID s.db = [] := by
    intro jobID h
    simp only [selectByID, List.filter_eq_nil_iff, decide_eq_true_eq]
    exact h
  refine ⟨?_, ?_, ?_, ?_, ?_⟩
  · intro req h
    have hv : ¬ validatePost lib req = true := by
      rcases h with h | h
      · simp [validatePost, h]
      · simp only [validatePost, Bool.and_eq_true, decide_eq_true_eq, not_and]
        intro h1; exact absurd h1.1.1.2 h
    simp [PostJob, hv, responseError, StatusBadRequest]
  · intro req err hv hnj
    simp only [PostJob, hv, not_true_eq_false, if_false]
    rcases hr : NewJob lib env s env.uuid req.Name req.TriggerType req.Expression req.HttpMethod
      req.HttpTargetUrl req.HttpRequestBody req.JsonWebToken with ⟨⟨job, e⟩, s1⟩
    rw [hr] at hnj
    simp only at hnj
    subst hnj
    simp [responseError, StatusBadRequest]
  · intro jobID req hu h
    have hv : ¬ validatePut lib req = true := by
      rcases h with h | h
      · simp [validatePut, h]
      · simp only [validatePut, Bool.and_eq_true, decide_eq_true_eq, not_and]
        intro h1; exact absurd h1.1.1.2 h
    simp [PutJob, hu, hv, responseError, StatusBadRequest]
  · intro jobID req hu hv h1 h2 h3 hno
    simp [PutJob, hu, hv, h1, h2, h3, hsel jobID hno, scanRow, responseError,
      StatusInternalServerError]
  · intro jobID hu h1 h2 h3 hno
    simp [DeleteJob, hu, h1, h2, h3, hsel jobID hno, scanRow, responseError,
      StatusInternalServerError]

/-- Witness of `C5_error_statuses`: a Create with the unsupported trigger type
"weekly", a Create of an interval job with a cron expression, a Replace with
the trigger type "weekly", and a Replace and a Delete on the empty table. -/
theorem C5_error_statuses_witness :
    (PostJob sampleLib (Env.ok 0 sampleID 7) (.data (samplePost "weekly" "60"))
        State.empty).1 = .written ⟨[⟨400, .validation⟩], none, .empty⟩ ∧
    (PostJob sampleLib (Env.ok 0 sampleID 7) (.data (samplePost "interval" "0 0 * * * *"))
        State.empty).1 = .written ⟨[⟨400, .invalidArguments .notANumber⟩], none, .empty⟩ ∧
    (PutJob sampleLib (Env.ok 0 sampleID 7) sampleID (.data (samplePut 1 "weekly" "60"))
        State.empty).1 = .written ⟨[⟨400, .validation⟩], none, .empty⟩ ∧
    (PutJob sampleLib (Env.ok 0 sampleID 7) sampleID (.data (samplePut 1 "interval" "60"))
        State.empty).1 = .written ⟨[⟨500, .noRows⟩], none, .empty⟩ ∧
    (DeleteJob sampleLib (Env.ok 0 sampleID 7) sampleID State.empty).1
      = .written ⟨[⟨500, .noRows⟩], none, .empty⟩ :=
  have h := C5_error_statuses sampleLib (Env.ok 0 sampleID 7) State.empty
  ⟨h.1 (samplePost "weekly" "60") (Or.inr (by decide)),
    h.2.1 (samplePost "interval" "0 0 * * * *") .notANumber (by decide) (by decide),
    h.2.2.1 sampleID (samplePut 1 "weekly" "60") (by decide) (Or.inr (by decide)),
    h.2.2.2.1 sampleID (samplePut 1 "interval" "60") (by decide) (by decide) (by decide)
      (by decide) (by decide) (by simp [State.empty]),
    h.2.2.2.2 sampleID (by decide) (by decide) (by decide) (by decide) (by simp [State.empty])⟩

/-! ## ClearAll -/

/-- C6, the claim fails: ClearAll on a system with one live schedule, the
truncate statement failing. The handler answers 500 and the schedule is still
on the scheduler: the scheduler has not been cleared, and no `Clear` call has
been made. -/
theorem C6_truncate_failure_leaves_scheduler :
    DeleteJobs (Env.failRun1 0 "" 0)
        ⟨[sampleRow "a" 7 1 "interval" "60"], [⟨sampleJob 7 "a" "interval", .simple 60000000000⟩],
          []⟩
      = (.written ⟨[⟨500, .storage⟩], none, .empty⟩,
          ⟨[sampleRow "a" 7 1 "interval" "60"],
            [⟨sampleJob 7 "a" "interval", .simple 60000000000⟩], []⟩) := by
  decide

/-- C6 as amended: `DeleteJobs` truncates the table first and only then
clears the scheduler. When the truncate statement fails (at `Prepare` or at
`Exec`) it answers 500 and neither the table nor the scheduler has been
touched; otherwise the table and the scheduler are both empty afterwards, the
effects made being the truncate followed by the clear. -/
theorem C6_DeleteJobs_truncates_then_clears (env : Env) (s : State) :
    if env.prepare1Err = true ∨ env.run1Err = true then
      DeleteJobs env s = (.written ⟨[⟨500, .storage⟩], none, .empty⟩, s)
    else
      DeleteJobs env s
        = (.written ⟨[], none, .empty⟩, ⟨[], [], s.log ++ [.dbTruncate, .schedClear]⟩) := by
  by_cases h1 : env.prepare1Err = true
  · simp [DeleteJobs, h1, responseError, StatusInternalServerError]
  · by_cases h2 : env.run1Err = true
    · simp [DeleteJobs, h1, h2, responseError, StatusInternalServerError]
    · simp [DeleteJobs, h1, h2, SchedulerClear]

/-! ## Effects of the operations on the table and the scheduler -/

/-- The function `removeKey` returns the queue itself when no item has the key. -/
theorem removeKey_of_not_mem (key : Int) (q : List Item)
    (h : ∀ it ∈ q, (it.Job.key : Int) ≠ key) : removeKey key q = q := by
  induction q with
  | nil => rfl
  | cons it rest ih =>
    have h1 : (it.Job.key : Int) ≠ key := h it (List.mem_cons_self _ _)
    simp only [removeKey, if_neg h1]
    rw [ih (fun x hx => h x (List.mem_cons_of_mem _ hx))]

/-- The function `removeKey` yields a sublist of the queue. -/
theorem removeKey_sublist (key : Int) (q : List Item) : (removeKey key q).Sublist q := by
  induction q with
  | nil => exact List.Sublist.refl _
  | cons it rest ih =>
    simp only [removeKey]
    split_ifs
    · exact List.sublist_cons_self _ _
    · exact ih.cons₂ _

/-- When the keys of the queue are pairwise distinct, no item of the key is
left after `removeKey`. -/
theorem removeKey_not_mem (key : Int) (q : List Item)
    (hnd : (q.map (fun it => it.Job.key)).Nodup) :
    ∀ it ∈ removeKey key q, (it.Job.key : Int) ≠ key := by
  induction q with
  | nil => simp [removeKey]
  | cons x rest ih =>
    simp only [List.map_cons, List.nodup_cons, List.mem_map, not_exists, not_and] at hnd
    simp only [removeKey]
    split_ifs with hx
    · intro it hit hk
      have : it.Job.key = x.Job.key := by
        have := hk.trans hx.symm
        exact_mod_cast this
      exact hnd.1 it hit this
    · intro it hit
      rcases List.mem_cons.mp hit with h | h
      · subst h; exact hx
      · exact ih hnd.2 it h

/-- The block that destroys the existing job never fails; it leaves the table
alone and removes from the scheduler the first item of the key, if any. -/
theorem destroyExisting_spec (key : Int) (s : State) :
    (destroyExisting key s).1 = none ∧ (destroyExisting key s).2.db = s.db ∧
      (destroyExisting key s).2.queue = removeKey key s.queue := by
  unfold destroyExisting GetScheduledJob
  cases hf : s.queue.find? (fun it => decide ((it.Job.key : Int) = key)) with
  | none =>
    have hno : ∀ it ∈ s.queue, (it.Job.key : Int) ≠ key := by
      intro it hit
      have := List.find?_eq_none.mp hf it hit
      simpa using this
    simp [removeKey_of_not_mem key s.queue hno]
  | some it =>
    have hmem := List.mem_of_find?_eq_some hf
    have hp := List.find?_some hf
    have hany : s.queue.any (fun it => decide ((it.Job.key : Int) = key)) = true :=
      List.any_eq_true.mpr ⟨it, hmem, hp⟩
    simp [SchedulerDeleteJob, hany]

/-- The two ways `NewJob` ends: without a job, the table and the scheduler
unchanged; or with a job of the given id and of the key of the environment,
appended with its trigger to the queue. -/
theorem NewJob_cases (lib : Lib) (env : Env) (s : State)
    (jobID name triggerType expression httpMethod httpTargetUrl httpRequestPayload
      jsonWebToken : String) :
    (∃ err s1, NewJob lib env s jobID name triggerType expression httpMethod httpTargetUrl
          httpRequestPayload jsonWebToken = ((none, err), s1) ∧
        s1.db = s.db ∧ s1.queue = s.queue) ∨
    (∃ job trigger, NewJob lib env s jobID name triggerType expression httpMethod httpTargetUrl
          httpRequestPayload jsonWebToken
          = ((some job, none),
              ⟨s.db, s.queue ++ [⟨job, trigger⟩], s.log ++ [.schedSchedule env.key]⟩) ∧
        job.key = env.key ∧ job.jobID = jobID ∧
        buildTrigger lib triggerType expression = .trigger trigger) := by
  unfold NewJob
  cases hb : buildTrigger lib triggerType expression with
  | ret err => exact Or.inl ⟨err, s, rfl, rfl, rfl⟩
  | trigger t =>
    by_cases hs : env.scheduleErr = true
    · left
      simp only [SchedulerScheduleJob, hs, if_true]
      exact ⟨_, _, rfl, rfl, rfl⟩
    · right
      simp only [SchedulerScheduleJob, hs, if_false]
      exact ⟨_, _, rfl, rfl, rfl, rfl⟩

/-- The ways `PostJob` ends: with an error or a panic and nothing registered
or written; with status 500 after the job was registered but the insert
failed; or with the view of the inserted row, whose key is the key of the job
appended to the queue. -/
theorem PostJob_cases (lib : Lib) (env : Env) (body : Body PostJobRequest) (s : State) :
    (((PostJob lib env body s).1 = .panicked ∨
        ∃ status err, (PostJob lib env body s).1 = responseError status err) ∧
      (PostJob lib env body s).2.db = s.db ∧ (PostJob lib env body s).2.queue = s.queue) ∨
    (∃ job trigger, (PostJob lib env body s).1 = responseError 500 .storage ∧
      job.key = env.key ∧ job.jobID = env.uuid ∧
      (PostJob lib env body s).2.db = s.db ∧
      (PostJob lib env body s).2.queue = s.queue ++ [⟨job, trigger⟩]) ∨
    (∃ job trigger row, (PostJob lib env body s).1 = .written ⟨[], none, .job (toResult lib row)⟩ ∧
      job.key = env.key ∧ job.jobID = env.uuid ∧
      row.JobID = env.uuid ∧ row.JobKey = (env.key : Int) ∧ row.Status = 1 ∧
      (PostJob lib env body s).2.db = s.db ++ [row] ∧
      (PostJob lib env body s).2.queue = s.queue ++ [⟨job, trigger⟩]) := by
  cases body with
  | unreadable => exact Or.inl ⟨Or.inr ⟨_, _, rfl⟩, rfl, rfl⟩
  | malformed => exact Or.inl ⟨Or.inr ⟨_, _, rfl⟩, rfl, rfl⟩
  | unexpected => exact Or.inl ⟨Or.inr ⟨_, _, rfl⟩, rfl, rfl⟩
  | data requestData =>
    by_cases hv : validatePost lib requestData = true
    · rcases NewJob_cases lib env s env.uuid requestData.Name requestData.TriggerType
          requestData.Expression requestData.HttpMethod requestData.HttpTargetUrl
          requestData.HttpRequestBody requestData.JsonWebToken with
        ⟨err, s1, hnj, hdb, hq⟩ | ⟨job, trigger, hnj, hk, hj, -⟩
      · cases err with
        | none =>
          have hP : PostJob lib env (.data requestData) s = (.panicked, s1) := by
            simp [PostJob, hv, hnj]
          rw [hP]
          exact Or.inl ⟨Or.inl rfl, hdb, hq⟩
        | some e =>
          have hP : PostJob lib env (.data requestData) s
              = (responseError StatusBadRequest (.invalidArguments e), s1) := by
            simp [PostJob, hv, hnj]
          rw [hP]
          exact Or.inl ⟨Or.inr ⟨_, _, rfl⟩, hdb, hq⟩
      · by_cases h1 : env.prepare1Err = true
        · have hP : PostJob lib env (.data requestData) s
              = (responseError 500 .storage,
                  ⟨s.db, s.queue ++ [⟨job, trigger⟩], s.log ++ [.schedSchedule env.key]⟩) := by
            simp [PostJob, hv, hnj, h1, StatusInternalServerError]
          rw [hP]
          exact Or.inr (Or.inl ⟨job, trigger, rfl, hk, hj, rfl, rfl⟩)
        · by_cases h2 : env.run1Err = true
          · have hP : PostJob lib env (.data requestData) s
                = (responseError 500 .storage,
                    ⟨s.db, s.queue ++ [⟨job, trigger⟩], s.log ++ [.schedSchedule env.key]⟩) := by
              simp [PostJob, hv, hnj, h1, h2, StatusInternalServerError]
            rw [hP]
            exact Or.inr (Or.inl ⟨job, trigger, rfl, hk, hj, rfl, rfl⟩)
          · have hP : PostJob lib env (.data requestData) s
                = (.written ⟨[], none, .job (toResult lib (postRow env requestData))⟩,
                    ⟨s.db ++ [postRow env requestData],
                      s.queue ++ [⟨job, trigger⟩],
                      s.log ++ [.schedSchedule env.key] ++ [.dbInsert env.uuid]⟩) := by
              simp [PostJob, hv, hnj, h1, h2, hk, postRow]
            rw [hP]
            exact Or.inr (Or.inr ⟨job, trigger, _, rfl, hk, hj, rfl, rfl, rfl, rfl, rfl⟩)
    · have hP : PostJob lib env (.data requestData) s
          = (responseError StatusBadRequest .validation, s) := by
        simp [PostJob, hv]
      rw [hP]
      exact Or.inl ⟨Or.inr ⟨_, _, rfl⟩, rfl, rfl⟩

/-- The two ways the tail of `PutJob` ends. -/
theorem PutJob_persist_cases (lib : Lib) (env : Env) (requestData : PutJobRequest)
    (row : ScheduleJob) (s : State) :
    ((env.prepare2Err = true ∨ env.run2Err = true) ∧
      PutJob.persist lib env requestData row s = (responseError 500 .storage, s)) ∨
    ((env.prepare2Err = false ∧ env.run2Err = false) ∧
      PutJob.persist lib env requestData row s
        = (.written ⟨[], none, .job (toResult lib (putRow env requestData row row.JobKey))⟩,
            ⟨updateRow (putRow env requestData row row.JobKey) s.db, s.queue,
              s.log ++ [.dbUpdate row.JobID]⟩)) := by
  by_cases h1 : env.prepare2Err = true
  · left; simp [PutJob.persist, h1, StatusInternalServerError]
  · by_cases h2 : env.run2Err = true
    · left; simp [PutJob.persist, h1, h2, StatusInternalServerError]
    · right
      simp only [Bool.not_eq_true] at h1 h2
      simp [PutJob.persist, h1, h2, putRow]

/-- The ways `PutJob` ends. Either nothing was touched; or the row of the job
was loaded and the first live item of its key removed, after which: nothing
else happened and an error or panic is the answer; or (status other than 1) the
row was rewritten with key -1; or (status 1) a new job of the environment's key
was appended to the queue, and the row was rewritten with that key unless the
update statement failed. -/
theorem PutJob_cases (lib : Lib) (env : Env) (jobID : String) (body : Body PutJobRequest)
    (s : State) :
    (((PutJob lib env jobID body s).1 = .panicked ∨
        ∃ status err, (PutJob lib env jobID body s).1 = responseError status err) ∧
      (PutJob lib env jobID body s).2.db = s.db ∧
      (PutJob lib env jobID body s).2.queue = s.queue) ∨
    (∃ requestData row, body = .data requestData ∧
      (selectByID jobID s.db).head? = some row ∧
      ((((PutJob lib env jobID body s).1 = .panicked ∨
            ∃ status err, (PutJob lib env jobID body s).1 = responseError status err) ∧
          (PutJob lib env jobID body s).2.db = s.db ∧
          (PutJob lib env jobID body s).2.queue = removeKey row.JobKey s.queue) ∨
        (requestData.Status ≠ 1 ∧
          (PutJob lib env jobID body s).1
            = .written ⟨[], none, .job (toResult lib (putRow env requestData row (-1)))⟩ ∧
          (PutJob lib env jobID body s).2.db = updateRow (putRow env requestData row (-1)) s.db ∧
          (PutJob lib env jobID body s).2.queue = removeKey row.JobKey s.queue) ∨
        (requestData.Status = 1 ∧ ∃ job trigger, job.key = env.key ∧ job.jobID = row.JobID ∧
          (PutJob lib env jobID body s).2.queue
            = removeKey row.JobKey s.queue ++ [⟨job, trigger⟩] ∧
          (((env.prepare2Err = true ∨ env.run2Err = true) ∧
              (PutJob lib env jobID body s).1 = responseError 500 .storage ∧
              (PutJob lib env jobID body s).2.db = s.db) ∨
            ((PutJob lib env jobID body s).1
                = .written ⟨[], none, .job (toResult lib (putRow env requestData row env.key))⟩ ∧
              (PutJob lib env jobID body s).2.db
                = updateRow (putRow env requestData row env.key) s.db))))) := by
  cases body with
  | unreadable => exact Or.inl ⟨Or.inr ⟨_, _, rfl⟩, rfl, rfl⟩
  | malformed => exact Or.inl ⟨Or.inr ⟨_, _, rfl⟩, rfl, rfl⟩
  | unexpected => exact Or.inl ⟨Or.inr ⟨_, _, rfl⟩, rfl, rfl⟩
  | data requestData =>
    by_cases hu : lib.isUUIDv4 jobID = true
    swap
    · have hP : PutJob lib env jobID (.data requestData) s
          = (responseError StatusInternalServerError .invalidUUID, s) := by
        simp [PutJob, hu]
      rw [hP]
      exact Or.inl ⟨Or.inr ⟨_, _, rfl⟩, rfl, rfl⟩
    by_cases hv : validatePut lib requestData = true
    swap
    · have hP : PutJob lib env jobID (.data requestData) s
          = (responseError StatusBadRequest .validation, s) := by
        simp [PutJob, hu, hv]
      rw [hP]
      exact Or.inl ⟨Or.inr ⟨_, _, rfl⟩, rfl, rfl⟩
    by_cases h1 : env.prepare1Err = true
    · have hP : PutJob lib env jobID (.data requestData) s
          = (responseError StatusInternalServerError .storage, s) := by
        simp [PutJob, hu, hv, h1]
      rw [hP]
      exact Or.inl ⟨Or.inr ⟨_, _, rfl⟩, rfl, rfl⟩
    by_cases h2 : env.run1Err = true
    · have hP : PutJob lib env jobID (.data requestData) s
          = (responseError StatusInternalServerError .storage, s) := by
        simp [PutJob, hu, hv, h1, h2]
      rw [hP]
      exact Or.inl ⟨Or.inr ⟨_, _, rfl⟩, rfl, rfl⟩
    by_cases h3 : env.scan1Err = true
    · have hP : PutJob lib env jobID (.data requestData) s
          = (responseError StatusInternalServerError .storage, s) := by
        simp [PutJob, hu, hv, h1, h2, h3, scanRow]
      rw [hP]
      exact Or.inl ⟨Or.inr ⟨_, _, rfl⟩, rfl, rfl⟩
    cases hsel : selectByID jobID s.db with
    | nil =>
      have hP : PutJob lib env jobID (.data requestData) s
          = (responseError StatusInternalServerError .noRows, s) := by
        simp [PutJob, hu, hv, h1, h2, h3, hsel, scanRow]
      rw [hP]
      exact Or.inl ⟨Or.inr ⟨_, _, rfl⟩, rfl, rfl⟩
    | cons row rest =>
      right
      refine ⟨requestData, row, rfl, rfl, ?_⟩
      obtain ⟨hd1, hd2, hd3⟩ := destroyExisting_spec row.JobKey s
      rcases hde : destroyExisting row.JobKey s with ⟨e, s1⟩
      rw [hde] at hd1 hd2 hd3
      simp only at hd1 hd2 hd3
      subst hd1
      by_cases hst : requestData.Status = 1
      · rcases NewJob_cases lib env s1 row.JobID requestData.Name requestData.TriggerType
            requestData.Expression requestData.HttpMethod requestData.HttpTargetUrl
            requestData.HttpRequestBody requestData.JsonWebToken with
          ⟨err, s2, hnj, hdb, hq⟩ | ⟨job, trigger, hnj, hk, hj, -⟩
        · left
          cases err with
          | none =>
            have hP : PutJob lib env jobID (.data requestData) s = (.panicked, s2) := by
              simp [PutJob, hu, hv, h1, h2, h3, hsel, scanRow, hde, hst, hnj]
            rw [hP]
            exact ⟨Or.inl rfl, hdb.trans hd2, hq.trans hd3⟩
          | some e =>
            have hP : PutJob lib env jobID (.data requestData) s
                = (responseError StatusInternalServerError e, s2) := by
              simp [PutJob, hu, hv, h1, h2, h3, hsel, scanRow, hde, hst, hnj]
            rw [hP]
            exact ⟨Or.inr ⟨_, _, rfl⟩, hdb.trans hd2, hq.trans hd3⟩
        · right; right
          refine ⟨hst, job, trigger, hk, hj, ?_⟩
          have hP : PutJob lib env jobID (.data requestData) s
              = PutJob.persist lib env requestData { row with JobKey := (job.key : Int) }
                  ⟨s1.db, s1.queue ++ [⟨job, trigger⟩], s1.log ++ [.schedSchedule env.key]⟩ := by
            simp [PutJob, hu, hv, h1, h2, h3, hsel, scanRow, hde, hst, hnj]
          rw [hP]
          rcases PutJob_persist_cases lib env requestData
              { row with JobKey := (job.key : Int) }
              ⟨s1.db, s1.queue ++ [⟨job, trigger⟩], s1.log ++ [.schedSchedule env.key]⟩ with
            ⟨hf, hp⟩ | ⟨-, hp⟩
          · rw [hp]
            exact ⟨by rw [hd3], Or.inl ⟨hf, rfl, hd2⟩⟩
          · rw [hp]
            refine ⟨by rw [hd3], Or.inr ⟨?_, ?_⟩⟩
            · simp [putRow, hk]
            · simp [putRow, hk, hd2]
      · have hP : PutJob lib env jobID (.data requestData) s
            = PutJob.persist lib env requestData { row with JobKey := -1 } s1 := by
          simp [PutJob, hu, hv, h1, h2, h3, hsel, scanRow, hde, hst]
        rw [hP]
        rcases PutJob_persist_cases lib env requestData { row with JobKey := -1 } s1 with
          ⟨-, hp⟩ | ⟨-, hp⟩
        · rw [hp]
          exact Or.inl ⟨Or.inr ⟨_, _, rfl⟩, hd2, hd3⟩
        · rw [hp]
          right; left
          refine ⟨hst, ?_, ?_, hd3⟩
          · simp [putRow]
          · simp [putRow, hd2]

/-- The row loaded by `SELECT ... WHERE JobID=?` is a row of the table and has
the id asked for. -/
theorem selectByID_head (jobID : String) (db : List ScheduleJob) (row : ScheduleJob)
    (h : (selectByID jobID db).head? = some row) : row ∈ db ∧ row.JobID = jobID := by
  have hmem : row ∈ selectByID jobID db := List.mem_of_mem_head? h
  simpa [selectByID] using hmem

/-- Lookup of a key succeeds when some item of the queue has it. -/
theorem GetScheduledJob_of_mem (key : Int) (s : State) (it : Item) (hit : it ∈ s.queue)
    (hk : (it.Job.key : Int) = key) : (GetScheduledJob key s).2 = none := by
  unfold GetScheduledJob
  cases hf : s.queue.find? (fun it => decide ((it.Job.key : Int) = key)) with
  | some x => rfl
  | none =>
    have := List.find?_eq_none.mp hf it hit
    simp [hk] at this

/-- Lookup of a key finds nothing when no item of the queue has it. -/
theorem GetScheduledJob_of_not_mem (key : Int) (s : State)
    (h : ∀ it ∈ s.queue, (it.Job.key : Int) ≠ key) :
    GetScheduledJob key s = (none, some .jobNotFound) := by
  unfold GetScheduledJob
  have hf : s.queue.find? (fun it => decide ((it.Job.key : Int) = key)) = none := by
    rw [List.find?_eq_none]
    intro it hit
    simpa using h it hit
  rw [hf]

/-- The update statement of `PutJob` keeps the ids of the rows. -/
theorem updateRow_map_id (j : ScheduleJob) (db : List ScheduleJob) :
    (updateRow j db).map (fun r => r.JobID) = db.map (fun r => r.JobID) := by
  unfold updateRow
  rw [List.map_map]
  refine List.map_congr_left ?_
  intro r _
  by_cases h : r.JobID = j.JobID <;> simp [h]

/-- Every row of the table after the update statement of `PutJob` comes from a
row of the same id; it has the new key and status when the id is the updated
one, and is that row otherwise. -/
theorem mem_updateRow (j : ScheduleJob) (db : List ScheduleJob) (r2 : ScheduleJob)
    (h : r2 ∈ updateRow j db) :
    ∃ r ∈ db, r2.JobID = r.JobID ∧
      (r.JobID = j.JobID → r2.JobKey = j.JobKey ∧ r2.Status = j.Status) ∧
      (r.JobID ≠ j.JobID → r2 = r) := by
  unfold updateRow at h
  rcases List.mem_map.mp h with ⟨r, hr, rfl⟩
  refine ⟨r, hr, ?_⟩
  by_cases hid : r.JobID = j.JobID <;> simp [hid]

/-- A row of the table has a row of the same id after the update statement. -/
theorem exists_mem_updateRow (j : ScheduleJob) (db : List ScheduleJob) (r : ScheduleJob)
    (h : r ∈ db) : ∃ r2 ∈ updateRow j db, r2.JobID = r.JobID := by
  have : r.JobID ∈ (updateRow j db).map (fun r => r.JobID) := by
    rw [updateRow_map_id]; exact List.mem_map.mpr ⟨r, h, rfl⟩
  rcases List.mem_map.mp this with ⟨r2, h2, h3⟩
  exact ⟨r2, h2, h3⟩

/-- Removing a key that is live shortens the queue by one. -/
theorem removeKey_length (key : Int) (q : List Item) (it : Item) (hit : it ∈ q)
    (hk : (it.Job.key : Int) = key) : (removeKey key q).length + 1 = q.length := by
  induction q with
  | nil => simp at hit
  | cons x rest ih =>
    simp only [removeKey]
    split_ifs with hx
    · simp
    · rcases List.mem_cons.mp hit with h | h
      · subst h; exact absurd hk hx
      · simp [ih h]

/-! ## Replace with status 2 -/

/-- C8: for a job whose row is in the table and whose stored key is live on
the scheduler (the keys of the scheduler being pairwise distinct), a Replace
with status 2 that returns successfully answers with status 2 and the cleared
key -1, persists status 2 and key -1 on the rows of the job, registers no new
schedule (the queue after is the queue before without the item of the old
key, one item shorter), and lookup of the old key then returns NotFound. -/
theorem C8_replace_disabled_clears_handle (lib : Lib) (env : Env) (s : State) (jobID : String)
    (requestData : PutJobRequest) (resp : Response) (row : ScheduleJob) (it : Item)
    (hrow : (selectByID jobID s.db).head? = some row)
    (hlive : it ∈ s.queue) (hkey : (it.Job.key : Int) = row.JobKey)
    (hnodup : (s.queue.map (fun it => it.Job.key)).Nodup)
    (hstatus : requestData.Status = 2)
    (hw : (PutJob lib env jobID (.data requestData) s).1 = .written resp)
    (he : resp.Errors = []) :
    (∃ result, resp.Data = .job result ∧ result.JobID = jobID ∧ result.Status = 2 ∧
        result.JobKey = -1) ∧
      (∃ r ∈ (PutJob lib env jobID (.data requestData) s).2.db, r.JobID = jobID) ∧
      (∀ r ∈ (PutJob lib env jobID (.data requestData) s).2.db, r.JobID = jobID →
        r.Status = 2 ∧ r.JobKey = -1) ∧
      (PutJob lib env jobID (.data requestData) s).2.queue = removeKey row.JobKey s.queue ∧
      ((PutJob lib env jobID (.data requestData) s).2.queue).Sublist s.queue ∧
      ((PutJob lib env jobID (.data requestData) s).2.queue).length + 1 = s.queue.length ∧
      GetScheduledJob row.JobKey (PutJob lib env jobID (.data requestData) s).2
        = (none, some .jobNotFound) := by
  obtain ⟨hmem, hrid⟩ := selectByID_head jobID s.db row hrow
  rcases PutJob_cases lib env jobID (.data requestData) s with
    ⟨hout, -, -⟩ | ⟨rd, row2, hbody, hsel, hrest⟩
  · rcases hout with h | ⟨st, e, h⟩
    · rw [h] at hw; cases hw
    · rw [h] at hw; cases hw; simp at he
  · cases hbody
    rw [hrow] at hsel
    cases hsel
    rcases hrest with ⟨hout, -, -⟩ | ⟨-, hout, hdb, hq⟩ | ⟨h1, -⟩
    · rcases hout with h | ⟨st, e, h⟩
      · rw [h] at hw; cases hw
      · rw [h] at hw; cases hw; simp at he
    · rw [hout] at hw
      cases hw
      refine ⟨⟨_, rfl, ?_, ?_, ?_⟩, ?_, ?_, hq, ?_, ?_, ?_⟩
      · simp [toResult, putRow, hrid]
      · simp [toResult, putRow, hstatus]
      · simp [toResult, putRow]
      · rw [hdb]
        rcases exists_mem_updateRow (putRow env requestData row (-1)) s.db row hmem with
          ⟨r2, h2, h3⟩
        exact ⟨r2, h2, h3.trans hrid⟩
      · intro r2 hr2 hid2
        rw [hdb] at hr2
        rcases mem_updateRow _ _ _ hr2 with ⟨r, -, hid, hupd, -⟩
        have hr : r.JobID = (putRow env requestData row (-1)).JobID := by
          rw [← hid, hid2]; simp [putRow, hrid]
        have := hupd hr
        simpa [putRow, hstatus, and_comm] using this
      · rw [hq]; exact removeKey_sublist _ _
      · rw [hq]; exact removeKey_length _ _ it hlive hkey
      · refine GetScheduledJob_of_not_mem _ _ ?_
        rw [hq]
        exact removeKey_not_mem _ _ hnodup
    · rw [hstatus] at h1
      exact absurd h1 (by decide)

/-- Witness of `C8_replace_disabled_clears_handle`: the job of `sampleState` is
replaced with status 2. -/
theorem C8_replace_disabled_clears_handle_witness :
    (∃ result, (Payload.job (toResult sampleLib
          (putRow (Env.ok 5 "" 8) (samplePut 2 "interval" "3600")
            (sampleRow sampleID 7 1 "interval" "3600") (-1)))) = .job result ∧
        result.JobID = sampleID ∧ result.Status = 2 ∧ result.JobKey = -1) ∧
      (∃ r ∈ (PutJob sampleLib (Env.ok 5 "" 8) sampleID (.data (samplePut 2 "interval" "3600"))
          sampleState).2.db, r.JobID = sampleID) ∧
      (∀ r ∈ (PutJob sampleLib (Env.ok 5 "" 8) sampleID (.data (samplePut 2 "interval" "3600"))
          sampleState).2.db, r.JobID = sampleID → r.Status = 2 ∧ r.JobKey = -1) ∧
      (PutJob sampleLib (Env.ok 5 "" 8) sampleID (.data (samplePut 2 "interval" "3600"))
          sampleState).2.queue
        = removeKey (sampleRow sampleID 7 1 "interval" "3600").JobKey sampleState.queue ∧
      ((PutJob sampleLib (Env.ok 5 "" 8) sampleID (.data (samplePut 2 "interval" "3600"))
          sampleState).2.queue).Sublist sampleState.queue ∧
      ((PutJob sampleLib (Env.ok 5 "" 8) sampleID (.data (samplePut 2 "interval" "3600"))
          sampleState).2.queue).length + 1 = sampleState.queue.length ∧
      GetScheduledJob (sampleRow sampleID 7 1 "interval" "3600").JobKey
          (PutJob sampleLib (Env.ok 5 "" 8) sampleID (.data (samplePut 2 "interval" "3600"))
            sampleState).2
        = (none, some .jobNotFound) :=
  C8_replace_disabled_clears_handle sampleLib (Env.ok 5 "" 8) sampleState sampleID
    (samplePut 2 "interval" "3600")
    ⟨[], none, .job (toResult sampleLib (putRow (Env.ok 5 "" 8) (samplePut 2 "interval" "3600")
      (sampleRow sampleID 7 1 "interval" "3600") (-1)))⟩
    (sampleRow sampleID 7 1 "interval" "3600")
    ⟨sampleJob 7 sampleID "interval", .simple 3600000000000⟩
    (by decide) (by decide) (by decide) (by decide) rfl (by decide) rfl

/-! ## Create: a failed trigger build or schedule step -/

/-- C9: when `NewJob` returns an error for the fields of a Create request,
`PostJob` answers with status 400 and makes no durable write and leaves no
schedule: the table and the scheduler queue are what they were. -/
theorem C9_create_failure_writes_nothing (lib : Lib) (env : Env) (s : State)
    (requestData : PostJobRequest)
    (hfail : (NewJob lib env s env.uuid requestData.Name requestData.TriggerType
      requestData.Expression requestData.HttpMethod requestData.HttpTargetUrl
      requestData.HttpRequestBody requestData.JsonWebToken).1.2 ≠ none) :
    (∃ err, (PostJob lib env (.data requestData) s).1
        = .written ⟨[⟨400, err⟩], none, .empty⟩) ∧
      (PostJob lib env (.data requestData) s).2.db = s.db ∧
      (PostJob lib env (.data requestData) s).2.queue = s.queue := by
  by_cases hv : validatePost lib requestData = true
  · rcases NewJob_cases lib env s env.uuid requestData.Name requestData.TriggerType
        requestData.Expression requestData.HttpMethod requestData.HttpTargetUrl
        requestData.HttpRequestBody requestData.JsonWebToken with
      ⟨err, s1, hnj, hdb, hq⟩ | ⟨job, trigger, hnj, -⟩
    · rw [hnj] at hfail
      cases err with
      | none => exact absurd rfl hfail
      | some e =>
        have hP : PostJob lib env (.data requestData) s
            = (responseError StatusBadRequest (.invalidArguments e), s1) := by
          simp [PostJob, hv, hnj]
        rw [hP]
        exact ⟨⟨_, rfl⟩, hdb, hq⟩
    · rw [hnj] at hfail
      exact absurd rfl hfail
  · have hP : PostJob lib env (.data requestData) s
        = (responseError StatusBadRequest .validation, s) := by
      simp [PostJob, hv]
    rw [hP]
    exact ⟨⟨_, rfl⟩, rfl, rfl⟩

/-- Witness of `C9_create_failure_writes_nothing`: a Create of an interval job
whose expression is a cron expression, which validation accepts and `NewJob`
rejects. -/
theorem C9_create_failure_writes_nothing_witness :
    (∃ err, (PostJob sampleLib (Env.ok 0 otherID 9)
          (.data (samplePost "interval" "0 0 * * * *")) sampleState).1
        = .written ⟨[⟨400, err⟩], none, .empty⟩) ∧
      (PostJob sampleLib (Env.ok 0 otherID 9) (.data (samplePost "interval" "0 0 * * * *"))
        sampleState).2.db = sampleState.db ∧
      (PostJob sampleLib (Env.ok 0 otherID 9) (.data (samplePost "interval" "0 0 * * * *"))
        sampleState).2.queue = sampleState.queue :=
  C9_create_failure_writes_nothing sampleLib (Env.ok 0 otherID 9) sampleState
    (samplePost "interval" "0 0 * * * *") (by decide)

/-! ## One live schedule per JobID -/

/-- C10, the claim fails: `dupState` is reachable from the empty system by a
Create and two Replaces, the update statement of the first Replace failing,
with fresh job id and fresh keys throughout; its scheduler holds two live
schedules (keys 8 and 9) for the one job id. -/
theorem C10_two_schedules_after_failed_update :
    Reachable sampleLib false dupState ∧
    dupState.queue.map (fun it => (it.Job.jobID, it.Job.key))
      = [(sampleID, 8), (sampleID, 9)] ∧
    ¬ OneSchedulePerJob dupState := by
  refine ⟨?_, by decide, by unfold OneSchedulePerJob; decide⟩
  have h1 : Reachable sampleLib false
      (PostJob sampleLib (Env.ok 0 sampleID 7) (.data (samplePost "interval" "3600"))
        State.empty).2 :=
    Reachable.step Reachable.empty
      (Step.create (Env.ok 0 sampleID 7) (.data (samplePost "interval" "3600")) State.empty
        (by decide) (by decide) (by decide))
  have h2 := Reachable.step h1
    (Step.replace (Env.failRun2 10 "" 8) sampleID (.data (samplePut 1 "interval" "60")) _
      (by decide) (by decide))
  exact Reachable.step h2
    (Step.replace (Env.ok 20 "" 9) sampleID (.data (samplePut 1 "interval" "60")) _
      (by decide) (by decide))

/-- The invariant holds on an empty scheduler over a table of distinct ids. -/
theorem Inv_nil (db : List ScheduleJob) (h : (db.map (fun r => r.JobID)).Nodup) :
    Inv db [] := by
  refine ⟨by simp, h, by simp, ?_⟩
  intro it hit
  simp at hit

/-- The invariant survives the removal of rows and of live jobs. -/
theorem Inv_sublist {db db2 : List ScheduleJob} {q q2 : List Item} (hdb : db2.Sublist db)
    (hq : q2.Sublist q) (h : Inv db q) : Inv db2 q2 := by
  obtain ⟨h1, h2, h3, h4⟩ := h
  refine ⟨h1.sublist (hq.map _), h2.sublist (hdb.map _), h3.sublist (hq.map _), ?_⟩
  intro it hit r hr
  exact h4 it (hq.subset hit) r (hdb.subset hr)

/-- The invariant survives the registration of a job of a fresh key and of an
id that is not live, when the rows of that id store the key. -/
theorem Inv_snoc {db : List ScheduleJob} {q : List Item} (job : FunctionJob) (trigger : Trigger)
    (h : Inv db q) (hkey : job.key ∉ q.map (fun it => it.Job.key))
    (hid : job.jobID ∉ q.map (fun it => it.Job.jobID))
    (hrow : ∀ r ∈ db, r.JobID = job.jobID → r.JobKey = (job.key : Int)) :
    Inv db (q ++ [⟨job, trigger⟩]) := by
  obtain ⟨h1, h2, h3, h4⟩ := h
  refine ⟨?_, h2, ?_, ?_⟩
  · rw [List.map_append, List.nodup_append]
    refine ⟨h1, by simp, ?_⟩
    intro k hk1 hk2
    simp only [List.map_cons, List.map_nil, List.mem_singleton] at hk2
    subst hk2
    exact hkey hk1
  · rw [List.map_append, List.nodup_append]
    refine ⟨h3, by simp, ?_⟩
    intro k hk1 hk2
    simp only [List.map_cons, List.map_nil, List.mem_singleton] at hk2
    subst hk2
    exact hid hk1
  · intro it hit r hr hrid
    rcases List.mem_append.mp hit with hit | hit
    · exact h4 it hit r hr hrid
    · simp only [List.mem_singleton] at hit
      subst hit
      exact hrow r hr hrid

/-- The invariant survives a rewriting of the rows of one id that keeps all
ids, when no live job has that id. -/
theorem Inv_update {db db2 : List ScheduleJob} {q : List Item} (jobID : String)
    (h : Inv db q)
    (hids : db2.map (fun r => r.JobID) = db.map (fun r => r.JobID))
    (hmem : ∀ r2 ∈ db2, ∃ r ∈ db, r2.JobID = r.JobID ∧ (r.JobID ≠ jobID → r2 = r))
    (hq : ∀ it ∈ q, it.Job.jobID ≠ jobID) : Inv db2 q := by
  obtain ⟨h1, h2, h3, h4⟩ := h
  refine ⟨h1, by rw [hids]; exact h2, h3, ?_⟩
  intro it hit r2 hr2 hrid
  rcases hmem r2 hr2 with ⟨r, hr, hid, hsame⟩
  by_cases hj : r.JobID = jobID
  · exfalso
    exact hq it hit (by rw [← hrid, hid, hj])
  · rw [hsame hj] at hrid ⊢
    exact h4 it hit r hr hrid

/-- The invariant survives the insertion of a row of a fresh id that is not
live. -/
theorem Inv_insert {db : List ScheduleJob} {q : List Item} (row : ScheduleJob)
    (h : Inv db q) (hid : row.JobID ∉ db.map (fun r => r.JobID))
    (hq : ∀ it ∈ q, it.Job.jobID ≠ row.JobID) : Inv (db ++ [row]) q := by
  obtain ⟨h1, h2, h3, h4⟩ := h
  refine ⟨h1, ?_, h3, ?_⟩
  · rw [List.map_append, List.nodup_append]
    refine ⟨h2, by simp, ?_⟩
    intro k hk1 hk2
    simp only [List.map_cons, List.map_nil, List.mem_singleton] at hk2
    subst hk2
    exact hid hk1
  · intro it hit r hr hrid
    rcases List.mem_append.mp hr with hr | hr
    · exact h4 it hit r hr hrid
    · simp only [List.mem_singleton] at hr
      subst hr
      exact absurd hrid.symm (hq it hit)

/-- Under the invariant, once the first live item of the stored key of a job
is removed, no live job has the id of that job. -/
theorem Inv_removeKey_no_job {db : List ScheduleJob} {q : List Item} (h : Inv db q)
    (jobID : String) (row : ScheduleJob) (hrow : (selectByID jobID db).head? = some row) :
    ∀ it ∈ removeKey row.JobKey q, it.Job.jobID ≠ jobID := by
  obtain ⟨hmem, hrid⟩ := selectByID_head jobID db row hrow
  intro it hit hj
  have hne := removeKey_not_mem row.JobKey q h.1 it hit
  have hin : it ∈ q := (removeKey_sublist row.JobKey q).subset hit
  exact hne (h.2.2.2 it hin row hmem (by rw [hrid, hj])).symm

/-- Create keeps the invariant. -/
theorem Inv_PostJob (lib : Lib) (env : Env) (body : Body PostJobRequest) (s : State)
    (h : Inv s.db s.queue)
    (hid : env.uuid ∉ s.db.map (fun r => r.JobID))
    (hlive : env.uuid ∉ s.queue.map (fun it => it.Job.jobID))
    (hkey : env.key ∉ s.queue.map (fun it => it.Job.key)) :
    Inv (PostJob lib env body s).2.db (PostJob lib env body s).2.queue := by
  have hq : ∀ it ∈ s.queue, it.Job.jobID ≠ env.uuid := by
    intro it hit hj
    exact hlive (List.mem_map.mpr ⟨it, hit, hj⟩)
  rcases PostJob_cases lib env body s with
    ⟨-, hdb, hqe⟩ | ⟨job, trigger, -, hk, hj, hdb, hqe⟩ |
      ⟨job, trigger, row, -, hk, hj, hrid, hrkey, -, hdb, hqe⟩
  · rw [hdb, hqe]; exact h
  · rw [hdb, hqe]
    refine Inv_snoc job trigger h (by rw [hk]; exact hkey) (by rw [hj]; exact hlive) ?_
    intro r hr hrj
    exact absurd (List.mem_map.mpr ⟨r, hr, hrj.trans hj⟩) hid
  · rw [hdb, hqe]
    refine Inv_snoc job trigger (Inv_insert row h (by rw [hrid]; exact hid)
      (by rw [hrid]; exact hq)) (by rw [hk]; exact hkey) (by rw [hj]; exact hlive) ?_
    intro r hr hrj
    rcases List.mem_append.mp hr with hr | hr
    · exact absurd (List.mem_map.mpr ⟨r, hr, hrj.trans hj⟩) hid
    · simp only [List.mem_singleton] at hr
      subst hr
      rw [hrkey, hk]

/-- Replace keeps the invariant when its update statement does not fail. -/
theorem Inv_PutJob (lib : Lib) (env : Env) (jobID : String) (body : Body PutJobRequest)
    (s : State) (h : Inv s.db s.queue)
    (hkey : env.key ∉ s.queue.map (fun it => it.Job.key))
    (hupd : env.prepare2Err = false ∧ env.run2Err = false) :
    Inv (PutJob lib env jobID body s).2.db (PutJob lib env jobID body s).2.queue := by
  rcases PutJob_cases lib env jobID body s with
    ⟨-, hdb, hqe⟩ | ⟨requestData, row, -, hsel, hrest⟩
  · rw [hdb, hqe]; exact h
  · obtain ⟨hmem, hrid⟩ := selectByID_head jobID s.db row hsel
    have hno := Inv_removeKey_no_job h jobID row hsel
    have hsub := removeKey_sublist row.JobKey s.queue
    have h0 : Inv s.db (removeKey row.JobKey s.queue) := Inv_sublist (List.Sublist.refl _) hsub h
    have hupdate : ∀ key : Int, Inv (updateRow (putRow env requestData row key) s.db)
        (removeKey row.JobKey s.queue) := by
      intro key
      refine Inv_update jobID h0 (updateRow_map_id _ _) ?_ hno
      intro r2 hr2
      rcases mem_updateRow _ _ _ hr2 with ⟨r, hr, hid, -, hsame⟩
      refine ⟨r, hr, hid, ?_⟩
      intro hne
      exact hsame (by simpa [putRow, hrid] using hne)
    rcases hrest with ⟨-, hdb, hqe⟩ | ⟨-, -, hdb, hqe⟩ | ⟨-, job, trigger, hk, hj, hqe, hlast⟩
    · rw [hdb, hqe]; exact h0
    · rw [hdb, hqe]; exact hupdate (-1)
    · rcases hlast with ⟨hf, -, -⟩ | ⟨-, hdb⟩
      · rcases hf with hf | hf
        · rw [hupd.1] at hf; cases hf
        · rw [hupd.2] at hf; cases hf
      · rw [hdb, hqe]
        refine Inv_snoc job trigger (hupdate env.key) ?_ ?_ ?_
        · rw [hk]
          intro hin
          exact hkey ((hsub.map _).subset hin)
        · intro hin
          rcases List.mem_map.mp hin with ⟨it, hit, hij⟩
          exact hno it hit (by rw [hij, hj, hrid])
        · intro r2 hr2 hid2
          rcases mem_updateRow _ _ _ hr2 with ⟨r, -, hid, hset, -⟩
          have hr : r.JobID = (putRow env requestData row env.key).JobID := by
            rw [← hid, hid2, hj]; simp [putRow]
          rw [(hset hr).1, hk]
          simp [putRow]

/-- The ways `DeleteJob` ends: with an error and nothing touched; or, the row
of the job loaded and the first live item of its key removed, with an error and
the table as it was, or with success and the rows of the job deleted. -/
theorem DeleteJob_cases (lib : Lib) (env : Env) (jobID : String) (s : State) :
    ((∃ status err, (DeleteJob lib env jobID s).1 = responseError status err) ∧
      (DeleteJob lib env jobID s).2.db = s.db ∧
      (DeleteJob lib env jobID s).2.queue = s.queue) ∨
    (∃ row, (selectByID jobID s.db).head? = some row ∧
      (DeleteJob lib env jobID s).2.queue = removeKey row.JobKey s.queue ∧
      (((DeleteJob lib env jobID s).1 = responseError 500 .storage ∧
          (DeleteJob lib env jobID s).2.db = s.db) ∨
        ((DeleteJob lib env jobID s).1 = .written ⟨[], none, .empty⟩ ∧
          (DeleteJob lib env jobID s).2.db
            = s.db.filter (fun r => r.JobID ≠ row.JobID)))) := by
  by_cases hu : lib.isUUIDv4 jobID = true
  swap
  · have hP : DeleteJob lib env jobID s
        = (responseError StatusInternalServerError .invalidUUID, s) := by
      simp [DeleteJob, hu]
    rw [hP]
    exact Or.inl ⟨⟨_, _, rfl⟩, rfl, rfl⟩
  by_cases h1 : env.prepare1Err = true
  · have hP : DeleteJob lib env jobID s
        = (responseError StatusInternalServerError .storage, s) := by
      simp [DeleteJob, hu, h1]
    rw [hP]
    exact Or.inl ⟨⟨_, _, rfl⟩, rfl, rfl⟩
  by_cases h2 : env.run1Err = true
  · have hP : DeleteJob lib env jobID s
        = (responseError StatusInternalServerError .storage, s) := by
      simp [DeleteJob, hu, h1, h2]
    rw [hP]
    exact Or.inl ⟨⟨_, _, rfl⟩, rfl, rfl⟩
  by_cases h3 : env.scan1Err = true
  · have hP : DeleteJob lib env jobID s
        = (responseError StatusInternalServerError .storage, s) := by
      simp [DeleteJob, hu, h1, h2, h3, scanRow]
    rw [hP]
    exact Or.inl ⟨⟨_, _, rfl⟩, rfl, rfl⟩
  cases hsel : selectByID jobID s.db with
  | nil =>
    have hP : DeleteJob lib env jobID s
        = (responseError StatusInternalServerError .noRows, s) := by
      simp [DeleteJob, hu, h1, h2, h3, hsel, scanRow]
    rw [hP]
    exact Or.inl ⟨⟨_, _, rfl⟩, rfl, rfl⟩
  | cons row rest =>
    right
    refine ⟨row, rfl, ?_⟩
    obtain ⟨hd1, hd2, hd3⟩ := destroyExisting_spec row.JobKey s
    rcases hde : destroyExisting row.JobKey s with ⟨e, s1⟩
    rw [hde] at hd1 hd2 hd3
    simp only at hd1 hd2 hd3
    subst hd1
    by_cases h4 : env.prepare2Err = true
    · have hP : DeleteJob lib env jobID s
          = (responseError StatusInternalServerError .storage, s1) := by
        simp [DeleteJob, hu, h1, h2, h3, hsel, scanRow, hde, h4]
      rw [hP]
      exact ⟨hd3, Or.inl ⟨rfl, hd2⟩⟩
    by_cases h5 : env.run2Err = true
    · have hP : DeleteJob lib env jobID s
          = (responseError StatusInternalServerError .storage, s1) := by
        simp [DeleteJob, hu, h1, h2, h3, hsel, scanRow, hde, h4, h5]
      rw [hP]
      exact ⟨hd3, Or.inl ⟨rfl, hd2⟩⟩
    have hP : DeleteJob lib env jobID s
        = (.written ⟨[], none, .empty⟩,
            ⟨s1.db.filter (fun r => r.JobID ≠ row.JobID), s1.queue,
              s1.log ++ [.dbDelete row.JobID]⟩) := by
      simp [DeleteJob, hu, h1, h2, h3, hsel, scanRow, hde, h4, h5]
    rw [hP]
    exact ⟨hd3, Or.inr ⟨rfl, by rw [hd2]⟩⟩

/-- Delete keeps the invariant. -/
theorem Inv_DeleteJob (lib : Lib) (env : Env) (jobID : String) (s : State)
    (h : Inv s.db s.queue) :
    Inv (DeleteJob lib env jobID s).2.db (DeleteJob lib env jobID s).2.queue := by
  rcases DeleteJob_cases lib env jobID s with ⟨-, hdb, hq⟩ | ⟨row, -, hq, hrest⟩
  · rw [hdb, hq]; exact h
  · rcases hrest with ⟨-, hdb⟩ | ⟨-, hdb⟩
    · rw [hdb, hq]
      exact Inv_sublist (List.Sublist.refl _) (removeKey_sublist _ _) h
    · rw [hdb, hq]
      exact Inv_sublist (List.filter_sublist _) (removeKey_sublist _ _) h

/-- ClearAll keeps the invariant. -/
theorem Inv_DeleteJobs (env : Env) (s : State) (h : Inv s.db s.queue) :
    Inv (DeleteJobs env s).2.db (DeleteJobs env s).2.queue := by
  by_cases h1 : env.prepare1Err = true
  · simpa [DeleteJobs, h1] using h
  · by_cases h2 : env.run1Err = true
    · simpa [DeleteJobs, h1, h2] using h
    · have hP : (DeleteJobs env s).2.db = [] ∧ (DeleteJobs env s).2.queue = [] := by
        simp [DeleteJobs, h1, h2, SchedulerClear]
      rw [hP.1, hP.2]
      exact Inv_nil [] (by simp)

/-- The key update of Startup Recovery keeps the ids of the rows. -/
theorem updateKey_map_id (key : Int) (jobID : String) (db : List ScheduleJob) :
    (updateKey key jobID db).map (fun r => r.JobID) = db.map (fun r => r.JobID) := by
  unfold updateKey
  rw [List.map_map]
  refine List.map_congr_left ?_
  intro r _
  by_cases h : r.JobID = jobID <;> simp [h]

/-- Every row of the table after the key update of Startup Recovery comes from
a row of the same id and status; it has the new key when the id is the updated
one, and is that row otherwise. -/
theorem mem_updateKey (key : Int) (jobID : String) (db : List ScheduleJob) (r2 : ScheduleJob)
    (h : r2 ∈ updateKey key jobID db) :
    ∃ r ∈ db, r2.JobID = r.JobID ∧ r2.Status = r.Status ∧
      (r.JobID = jobID → r2.JobKey = key) ∧ (r.JobID ≠ jobID → r2 = r) := by
  unfold updateKey at h
  rcases List.mem_map.mp h with ⟨r, hr, rfl⟩
  refine ⟨r, hr, ?_⟩
  by_cases hid : r.JobID = jobID <;> simp [hid]

/-- The loop of Startup Recovery keeps the ids of the rows, and when it ends
with a nil error it has kept the invariant, provided the rows still to visit
have pairwise distinct ids none of which is live, and the keys of the jobs
still to build are fresh and pairwise distinct. -/
theorem restoreLoop_Inv (lib : Lib) (envs : Nat → Env) (outer : Option Err)
    (hkeys : Function.Injective (fun i => (envs i).key)) :
    ∀ (rest : List ScheduleJob) (i : Nat) (s : State), Inv s.db s.queue →
      (rest.map (fun r => r.JobID)).Nodup →
      (∀ r ∈ rest, r.JobID ∉ s.queue.map (fun it => it.Job.jobID)) →
      (∀ j, i ≤ j → (envs j).key ∉ s.queue.map (fun it => it.Job.key)) →
      (restoreLoop lib envs outer i rest s).2.db.map (fun r => r.JobID)
          = s.db.map (fun r => r.JobID) ∧
        ((restoreLoop lib envs outer i rest s).1 = .returned none →
          Inv (restoreLoop lib envs outer i rest s).2.db
            (restoreLoop lib envs outer i rest s).2.queue) := by
  intro rest
  induction rest with
  | nil =>
    intro i s h _ _ _
    exact ⟨rfl, fun _ => h⟩
  | cons scheduleJob rest ih =>
    intro i s h hnd hlive hfresh
    simp only [List.map_cons, List.nodup_cons] at hnd
    have hlive2 : ∀ r ∈ rest, r.JobID ∉ s.queue.map (fun it => it.Job.jobID) :=
      fun r hr => hlive r (List.mem_cons_of_mem _ hr)
    have hfresh2 : ∀ j, i + 1 ≤ j → (envs j).key ∉ s.queue.map (fun it => it.Job.key) :=
      fun j hj => hfresh j (by omega)
    by_cases hst : scheduleJob.Status ≠ JobStatusEnable
    · have hP : restoreLoop lib envs outer i (scheduleJob :: rest) s
          = restoreLoop lib envs outer (i + 1) rest s := by
        simp [restoreLoop, hst]
      rw [hP]
      exact ih (i + 1) s h hnd.2 hlive2 hfresh2
    · rcases NewJob_cases lib (envs i) s scheduleJob.JobID scheduleJob.Name
          scheduleJob.TriggerType scheduleJob.Expression scheduleJob.HttpMethod
          scheduleJob.HttpTargetUrl scheduleJob.HttpRequestBody scheduleJob.JsonWebToken with
        ⟨err, s1, hnj, hdb, hq⟩ | ⟨job, trigger, hnj, hk, hj, -⟩
      · cases err with
        | none =>
          have hP : restoreLoop lib envs outer i (scheduleJob :: rest) s = (.panicked, s1) := by
            simp [restoreLoop, hst, hnj]
          rw [hP]
          exact ⟨by rw [hdb], fun hc => by cases hc⟩
        | some e =>
          have hP : restoreLoop lib envs outer i (scheduleJob :: rest) s
              = (.returned outer, s1) := by
            simp [restoreLoop, hst, hnj]
          rw [hP]
          exact ⟨by rw [hdb], fun _ => by rw [hdb, hq]; exact h⟩
      · by_cases h4 : (envs i).prepare2Err = true
        · have hP : restoreLoop lib envs outer i (scheduleJob :: rest) s
              = (.returned (some .storage),
                  ⟨s.db, s.queue ++ [⟨job, trigger⟩],
                    s.log ++ [.schedSchedule (envs i).key]⟩) := by
            simp [restoreLoop, hst, hnj, h4]
          rw [hP]
          exact ⟨rfl, fun hc => by cases hc⟩
        by_cases h5 : (envs i).run2Err = true
        · have hP : restoreLoop lib envs outer i (scheduleJob :: rest) s
              = (.returned (some .storage),
                  ⟨s.db, s.queue ++ [⟨job, trigger⟩],
                    s.log ++ [.schedSchedule (envs i).key]⟩) := by
            simp [restoreLoop, hst, hnj, h4, h5]
          rw [hP]
          exact ⟨rfl, fun hc => by cases hc⟩
        have hP : restoreLoop lib envs outer i (scheduleJob :: rest) s
            = restoreLoop lib envs outer (i + 1) rest
                ⟨updateKey (job.key : Int) scheduleJob.JobID s.db, s.queue ++ [⟨job, trigger⟩],
                  s.log ++ [.schedSchedule (envs i).key] ++ [.dbUpdateKey scheduleJob.JobID]⟩ := by
          simp [restoreLoop, hst, hnj, h4, h5]
        rw [hP]
        have hnolive : ∀ it ∈ s.queue, it.Job.jobID ≠ scheduleJob.JobID := by
          intro it hit hij
          exact hlive scheduleJob (List.mem_cons_self _ _) (List.mem_map.mpr ⟨it, hit, hij⟩)
        have hInv : Inv (updateKey (job.key : Int) scheduleJob.JobID s.db)
            (s.queue ++ [⟨job, trigger⟩]) := by
          refine Inv_snoc job trigger ?_ ?_ ?_ ?_
          · refine Inv_update scheduleJob.JobID h (updateKey_map_id _ _ _) ?_ hnolive
            intro r2 hr2
            rcases mem_updateKey _ _ _ _ hr2 with ⟨r, hr, hid, -, -, hsame⟩
            exact ⟨r, hr, hid, hsame⟩
          · rw [hk]; exact hfresh i (le_refl _)
          · rw [hj]; exact hlive scheduleJob (List.mem_cons_self _ _)
          · intro r2 hr2 hid2
            rcases mem_updateKey _ _ _ _ hr2 with ⟨r, -, hid, -, hset, -⟩
            exact hset (by rw [← hid, hid2, hj])
        have hrec := ih (i + 1)
          ⟨updateKey (job.key : Int) scheduleJob.JobID s.db, s.queue ++ [⟨job, trigger⟩],
            s.log ++ [.schedSchedule (envs i).key] ++ [.dbUpdateKey scheduleJob.JobID]⟩
          hInv hnd.2 ?_ ?_
        · refine ⟨?_, hrec.2⟩
          rw [hrec.1]
          exact updateKey_map_id _ _ _
        · intro r hr
          simp only [List.map_append, List.map_cons, List.map_nil, List.mem_append,
            List.mem_singleton, not_or]
          refine ⟨hlive2 r hr, ?_⟩
          rw [hj]
          intro heq
          exact hnd.1 (List.mem_map.mpr ⟨r, hr, heq⟩)
        · intro j hj2
          simp only [List.map_append, List.map_cons, List.map_nil, List.mem_append,
            List.mem_singleton, not_or]
          refine ⟨hfresh2 j hj2, ?_⟩
          rw [hk]
          intro heq
          have := hkeys heq
          omega

/-- Startup Recovery keeps the ids of the rows, and ends with a nil error only
in a state that satisfies the invariant, when started on an empty scheduler. -/
theorem restoreScheduleJobs_Inv (lib : Lib) (env : Env) (envs : Nat → Env) (s : State)
    (hkeys : Function.Injective (fun i => (envs i).key))
    (hids : (s.db.map (fun r => r.JobID)).Nodup) (hq : s.queue = []) :
    (restoreScheduleJobs lib env envs s).2.db.map (fun r => r.JobID)
        = s.db.map (fun r => r.JobID) ∧
      ((restoreScheduleJobs lib env envs s).1 = .returned none →
        Inv (restoreScheduleJobs lib env envs s).2.db
          (restoreScheduleJobs lib env envs s).2.queue) := by
  have h0 : Inv s.db s.queue := by rw [hq]; exact Inv_nil _ hids
  by_cases h1 : env.prepare1Err = true
  · have hP : restoreScheduleJobs lib env envs s = (.returned (some .storage), s) := by
      simp [restoreScheduleJobs, h1]
    rw [hP]
    exact ⟨rfl, fun _ => h0⟩
  by_cases h2 : env.run1Err = true
  · have hP : restoreScheduleJobs lib env envs s = (.returned (some .storage), s) := by
      simp [restoreScheduleJobs, h1, h2]
    rw [hP]
    exact ⟨rfl, fun _ => h0⟩
  by_cases h3 : env.scan1Err = true
  · have hP : restoreScheduleJobs lib env envs s = (.returned (some .storage), s) := by
      simp [restoreScheduleJobs, h1, h2, h3]
    rw [hP]
    exact ⟨rfl, fun _ => h0⟩
  have hP : restoreScheduleJobs lib env envs s = restoreLoop lib envs none 0 s.db s := by
    simp [restoreScheduleJobs, h1, h2, h3]
  rw [hP]
  refine restoreLoop_Inv lib envs none hkeys s.db 0 s h0 hids ?_ ?_
  · intro r _
    rw [hq]; simp
  · intro j _
    rw [hq]; simp

/-- The start of a process leaves a state that satisfies the invariant. -/
theorem Inv_startup (lib : Lib) (env : Env) (envs : Nat → Env) (s : State)
    (hkeys : Function.Injective (fun i => (envs i).key))
    (hids : (s.db.map (fun r => r.JobID)).Nodup) :
    Inv (startup lib env envs s).2.db (startup lib env envs s).2.queue := by
  obtain ⟨hdb, hinv⟩ := restoreScheduleJobs_Inv lib env envs { s with queue := [] } hkeys hids rfl
  unfold startup
  rcases hr : restoreScheduleJobs lib env envs { s with queue := [] } with ⟨ending, s1⟩
  rw [hr] at hdb hinv
  simp only at hdb hinv
  have hnil : Inv s1.db [] := Inv_nil _ (by rw [hdb]; exact hids)
  cases ending with
  | panicked => exact hnil
  | returned err =>
    cases err with
    | none => exact hinv rfl
    | some e => exact hnil

/-- Every state reachable while the update statement of Replace does not fail
satisfies the invariant. -/
theorem Reachable_Inv (lib : Lib) (s : State) (h : Reachable lib true s) :
    Inv s.db s.queue := by
  induction h with
  | empty => exact Inv_nil [] (by simp)
  | step _ hs ih =>
    cases hs with
    | create env body _ hid hlive hkey => exact Inv_PostJob lib env body _ ih hid hlive hkey
    | replace env jobID body _ hkey hupd => exact Inv_PutJob lib env jobID body _ ih hkey (hupd rfl)
    | delete env jobID _ => exact Inv_DeleteJob lib env jobID _ ih
    | clearAll env _ => exact Inv_DeleteJobs env _ ih
    | startup env envs _ hkeys => exact Inv_startup lib env envs _ hkeys ih.2.1

/-- C10 as amended: in every state reachable from the empty system by Create,
Replace, Delete, ClearAll and Startup Recovery steps, whether each step
succeeds or answers with an error, any storage statement being allowed to fail
except the update statement of Replace, the scheduler holds at most one live
schedule per JobID (job ids drawn by Create and keys given to new jobs being
fresh). -/
theorem C10_one_schedule_per_job (lib : Lib) (s : State) (h : Reachable lib true s) :
    OneSchedulePerJob s :=
  (Reachable_Inv lib s h).2.2.1

/-- Witness of `C10_one_schedule_per_job`: the state after a Create on the
empty system. -/
theorem C10_one_schedule_per_job_witness :
    OneSchedulePerJob
      (PostJob sampleLib (Env.ok 0 sampleID 7) (.data (samplePost "interval" "3600"))
        State.empty).2 :=
  C10_one_schedule_per_job sampleLib _
    (Reachable.step Reachable.empty
      (Step.create (Env.ok 0 sampleID 7) (.data (samplePost "interval" "3600")) State.empty
        (by decide) (by decide) (by decide)))

/-! ## Delete twice -/

/-- A Delete of a job id that has no row leaves the state as it is, answers
with status 500, and makes no call on the scheduler; when the id is well formed
and the select statement succeeds the error is `sql.ErrNoRows`. -/
theorem DeleteJob_of_no_row (lib : Lib) (env : Env) (jobID : String) (s : State)
    (hsel : selectByID jobID s.db = []) :
    (DeleteJob lib env jobID s).2 = s ∧
      (∃ err, (DeleteJob lib env jobID s).1 = .written ⟨[⟨500, err⟩], none, .empty⟩) ∧
      (lib.isUUIDv4 jobID = true → env.prepare1Err = false → env.run1Err = false →
        env.scan1Err = false →
        (DeleteJob lib env jobID s).1 = .written ⟨[⟨500, .noRows⟩], none, .empty⟩) := by
  by_cases hu : lib.isUUIDv4 jobID = true
  swap
  · have hP : DeleteJob lib env jobID s
        = (responseError StatusInternalServerError .invalidUUID, s) := by
      simp [DeleteJob, hu]
    rw [hP]
    exact ⟨rfl, ⟨_, rfl⟩, fun h => absurd h hu⟩
  by_cases h1 : env.prepare1Err = true
  · have hP : DeleteJob lib env jobID s
        = (responseError StatusInternalServerError .storage, s) := by
      simp [DeleteJob, hu, h1]
    rw [hP]
    exact ⟨rfl, ⟨_, rfl⟩, fun _ h => by rw [h] at h1; cases h1⟩
  by_cases h2 : env.run1Err = true
  · have hP : DeleteJob lib env jobID s
        = (responseError StatusInternalServerError .storage, s) := by
      simp [DeleteJob, hu, h1, h2]
    rw [hP]
    exact ⟨rfl, ⟨_, rfl⟩, fun _ _ h => by rw [h] at h2; cases h2⟩
  by_cases h3 : env.scan1Err = true
  · have hP : DeleteJob lib env jobID s
        = (responseError StatusInternalServerError .storage, s) := by
      simp [DeleteJob, hu, h1, h2, h3, scanRow]
    rw [hP]
    exact ⟨rfl, ⟨_, rfl⟩, fun _ _ _ h => by rw [h] at h3; cases h3⟩
  have hP : DeleteJob lib env jobID s
      = (responseError StatusInternalServerError .noRows, s) := by
    simp [DeleteJob, hu, h1, h2, h3, hsel, scanRow]
  rw [hP]
  exact ⟨rfl, ⟨_, rfl⟩, fun _ _ _ _ => rfl⟩

/-- After a successful Delete the table has no row of the job id, and the id
is well formed. -/
theorem DeleteJob_success_no_row (lib : Lib) (env : Env) (jobID : String) (s : State)
    (hfirst : (DeleteJob lib env jobID s).1 = .written ⟨[], none, .empty⟩) :
    selectByID jobID (DeleteJob lib env jobID s).2.db = [] ∧ lib.isUUIDv4 jobID = true := by
  constructor
  · rcases DeleteJob_cases lib env jobID s with ⟨⟨st, e, hout⟩, -, -⟩ | ⟨row, hrow, -, hrest⟩
    · rw [hout] at hfirst
      simp [responseError] at hfirst
    · obtain ⟨-, hrid⟩ := selectByID_head jobID s.db row hrow
      rcases hrest with ⟨hout, -⟩ | ⟨-, hdb⟩
      · rw [hout] at hfirst
        simp [responseError] at hfirst
      · rw [hdb, hrid]
        simp only [selectByID, List.filter_filter, List.filter_eq_nil_iff]
        intro r _
        simp
  · by_contra hu
    have hP : DeleteJob lib env jobID s
        = (responseError StatusInternalServerError .invalidUUID, s) := by
      simp [DeleteJob, hu]
    rw [hP] at hfirst
    simp [responseError] at hfirst

/-- C11: if a first Delete of a job id succeeds, a second Delete of the same
id (in any environment) leaves the table, the scheduler and the history of
calls exactly as the first left them, so it makes no unschedule call, and it
answers with an error; when its select statement succeeds that error is
NotFound (`sql.ErrNoRows`). -/
theorem C11_second_delete_not_found (lib : Lib) (env1 env2 : Env) (jobID : String) (s : State)
    (hfirst : (DeleteJob lib env1 jobID s).1 = .written ⟨[], none, .empty⟩) :
    (DeleteJob lib env2 jobID (DeleteJob lib env1 jobID s).2).2
        = (DeleteJob lib env1 jobID s).2 ∧
      (∀ key, Effect.schedDelete key ∈
          (DeleteJob lib env2 jobID (DeleteJob lib env1 jobID s).2).2.log →
        Effect.schedDelete key ∈ (DeleteJob lib env1 jobID s).2.log) ∧
      (∃ err, (DeleteJob lib env2 jobID (DeleteJob lib env1 jobID s).2).1
        = .written ⟨[⟨500, err⟩], none, .empty⟩) ∧
      (env2.prepare1Err = false → env2.run1Err = false → env2.scan1Err = false →
        (DeleteJob lib env2 jobID (DeleteJob lib env1 jobID s).2).1
          = .written ⟨[⟨500, .noRows⟩], none, .empty⟩) := by
  obtain ⟨hsel, hu⟩ := DeleteJob_success_no_row lib env1 jobID s hfirst
  obtain ⟨h1, h2, h3⟩ := DeleteJob_of_no_row lib env2 jobID (DeleteJob lib env1 jobID s).2 hsel
  refine ⟨h1, ?_, h2, h3 hu⟩
  intro key hk
  rw [h1] at hk
  exact hk

/-- Witness of `C11_second_delete_not_found`: the job of `sampleState` is
deleted twice. -/
theorem C11_second_delete_not_found_witness :
    (DeleteJob sampleLib (Env.ok 2 "" 0) sampleID
          (DeleteJob sampleLib (Env.ok 1 "" 0) sampleID sampleState).2).2
        = (DeleteJob sampleLib (Env.ok 1 "" 0) sampleID sampleState).2 ∧
      (∀ key, Effect.schedDelete key ∈
          (DeleteJob sampleLib (Env.ok 2 "" 0) sampleID
            (DeleteJob sampleLib (Env.ok 1 "" 0) sampleID sampleState).2).2.log →
        Effect.schedDelete key ∈ (DeleteJob sampleLib (Env.ok 1 "" 0) sampleID sampleState).2.log) ∧
      (∃ err, (DeleteJob sampleLib (Env.ok 2 "" 0) sampleID
          (DeleteJob sampleLib (Env.ok 1 "" 0) sampleID sampleState).2).1
        = .written ⟨[⟨500, err⟩], none, .empty⟩) ∧
      ((Env.ok 2 "" 0).prepare1Err = false → (Env.ok 2 "" 0).run1Err = false →
        (Env.ok 2 "" 0).scan1Err = false →
        (DeleteJob sampleLib (Env.ok 2 "" 0) sampleID
          (DeleteJob sampleLib (Env.ok 1 "" 0) sampleID sampleState).2).1
          = .written ⟨[⟨500, .noRows⟩], none, .empty⟩) :=
  C11_second_delete_not_found sampleLib (Env.ok 1 "" 0) (Env.ok 2 "" 0) sampleID sampleState
    (by decide)

/-! ## The dispatch action: result of a firing -/

/-- C12: a firing that gets as far as the HTTP call and receives a response
returns the status code of that response with a nil error, below 400 or not.
In general the action returns either a nil error together with the status code
of the response received, the HTTP call having been made, or the code -1 with
the error of the status write (a `once` job only), of the URL parse, of the
client setup or of the transport, and nothing else. -/
theorem C12_dispatch_result (lib : Lib) (env : FireEnv) (job : FunctionJob) (s : State) :
    (∀ code : Int,
        (job.triggerType = "once" → env.prepareErr = false ∧ env.execErr = false) →
        lib.urlParses job.httpTargetUrl = true → env.clientErr = false →
        env.response = some code →
        (FunctionJob.run lib env job s).1 = (code, none)) ∧
    ((∃ code, env.response = some code ∧ (FunctionJob.run lib env job s).1 = (code, none) ∧
        Effect.httpCall job.httpMethod job.httpTargetUrl ∈ (FunctionJob.run lib env job s).2.log) ∨
      ((FunctionJob.run lib env job s).1 = (-1, some .storage) ∧ job.triggerType = "once" ∧
        (env.prepareErr = true ∨ env.execErr = true)) ∨
      ((FunctionJob.run lib env job s).1 = (-1, some .urlParse) ∧
        lib.urlParses job.httpTargetUrl = false) ∨
      ((FunctionJob.run lib env job s).1 = (-1, some .clientInit) ∧ env.clientErr = true) ∨
      ((FunctionJob.run lib env job s).1 = (-1, some .transport) ∧ env.response = none)) := by
  constructor
  · intro code hw hu hc hr
    by_cases honce : job.triggerType = "once"
    · obtain ⟨h1, h2⟩ := hw honce
      simp [FunctionJob.run, honce, h1, h2, hu, hc, hr]
    · simp [FunctionJob.run, honce, hu, hc, hr]
  · by_cases honce : job.triggerType = "once"
    · by_cases h1 : env.prepareErr = true
      · right; left
        exact ⟨by simp [FunctionJob.run, honce, h1], honce, Or.inl h1⟩
      by_cases h2 : env.execErr = true
      · right; left
        exact ⟨by simp [FunctionJob.run, honce, h1, h2], honce, Or.inr h2⟩
      by_cases hu : lib.urlParses job.httpTargetUrl = true
      swap
      · right; right; left
        exact ⟨by simp [FunctionJob.run, honce, h1, h2, hu], by simpa using hu⟩
      by_cases hc : env.clientErr = true
      · right; right; right; left
        exact ⟨by simp [FunctionJob.run, honce, h1, h2, hu, hc], hc⟩
      cases hr : env.response with
      | none =>
        right; right; right; right
        exact ⟨by simp [FunctionJob.run, honce, h1, h2, hu, hc, hr], rfl⟩
      | some code =>
        left
        exact ⟨code, rfl, by simp [FunctionJob.run, honce, h1, h2, hu, hc, hr],
          by simp [FunctionJob.run, honce, h1, h2, hu, hc, hr]⟩
    · by_cases hu : lib.urlParses job.httpTargetUrl = true
      swap
      · right; right; left
        exact ⟨by simp [FunctionJob.run, honce, hu], by simpa using hu⟩
      by_cases hc : env.clientErr = true
      · right; right; right; left
        exact ⟨by simp [FunctionJob.run, honce, hu, hc], hc⟩
      cases hr : env.response with
      | none =>
        right; right; right; right
        exact ⟨by simp [FunctionJob.run, honce, hu, hc, hr], rfl⟩
      | some code =>
        left
        exact ⟨code, rfl, by simp [FunctionJob.run, honce, hu, hc, hr],
          by simp [FunctionJob.run, honce, hu, hc, hr]⟩

/-- Witness of `C12_dispatch_result`: an interval job whose target answers
with status 503. -/
theorem C12_dispatch_result_witness :
    (FunctionJob.run sampleLib (FireEnv.ok 503) (sampleJob 7 "a" "interval") sampleState).1
      = (503, none) :=
  (C12_dispatch_result sampleLib (FireEnv.ok 503) (sampleJob 7 "a" "interval") sampleState).1
    503 (fun h => absurd h (by decide)) rfl rfl rfl

/-! ## The dispatch action of a `once` job: a failed status write -/

/-- C14: when a job of trigger type "once" fires and the status statement
fails at `Prepare` or at `Exec`, the dispatch action returns -1 with that
error and leaves the state as it was: the table is not written and no HTTP
call is made. -/
theorem C14_once_status_write_failure_aborts (lib : Lib) (env : FireEnv) (job : FunctionJob)
    (s : State) (honce : job.triggerType = "once")
    (hfail : env.prepareErr = true ∨ env.execErr = true) :
    FunctionJob.run lib env job s = ((-1, some .storage), s) ∧
      (∀ method url, Effect.httpCall method url ∈ (FunctionJob.run lib env job s).2.log →
        Effect.httpCall method url ∈ s.log) := by
  have hP : FunctionJob.run lib env job s = ((-1, some .storage), s) := by
    by_cases h1 : env.prepareErr = true
    · simp [FunctionJob.run, honce, h1]
    · rcases hfail with h | h
      · exact absurd h h1
      · simp [FunctionJob.run, honce, h1, h]
  refine ⟨hP, ?_⟩
  intro method url h
  rw [hP] at h
  exact h

/-- Witness of `C14_once_status_write_failure_aborts`: the `Exec` of the status
statement fails. -/
theorem C14_once_status_write_failure_aborts_witness :
    FunctionJob.run sampleLib ⟨false, true, false, some 200⟩ (sampleJob 7 "a" "once")
        ⟨[sampleRow "a" 7 1 "once" "0"], [], []⟩
      = ((-1, some .storage), ⟨[sampleRow "a" 7 1 "once" "0"], [], []⟩) ∧
      (∀ method url, Effect.httpCall method url ∈
          (FunctionJob.run sampleLib ⟨false, true, false, some 200⟩ (sampleJob 7 "a" "once")
            ⟨[sampleRow "a" 7 1 "once" "0"], [], []⟩).2.log →
        Effect.httpCall method url ∈ (⟨[sampleRow "a" 7 1 "once" "0"], [], []⟩ : State).log) :=
  C14_once_status_write_failure_aborts sampleLib ⟨false, true, false, some 200⟩
    (sampleJob 7 "a" "once") ⟨[sampleRow "a" 7 1 "once" "0"], [], []⟩ rfl (Or.inr rfl)

/-! ## ClearAll, then list -/

/-- On an empty table `GetJobs` answers either with status 500 or with the
empty listing of total 0, and it answers with the latter when its statements
succeed and its paging values are not negative; the state is left as it is. -/
theorem GetJobs_of_empty (lib : Lib) (env : Env) (frm size : Int) (s : State)
    (hdb : s.db = []) :
    (GetJobs lib env frm size s = (responseError 500 .storage, s) ∨
        GetJobs lib env frm size s = (.written ⟨[], some ⟨frm, 0, 0⟩, .jobs []⟩, s)) ∧
      (env.prepare1Err = false → env.run1Err = false → env.scan1Err = false →
        env.prepare2Err = false → env.run2Err = false → env.scan2Err = false →
        0 ≤ frm → 0 ≤ size →
        GetJobs lib env frm size s = (.written ⟨[], some ⟨frm, 0, 0⟩, .jobs []⟩, s)) := by
  by_cases h1 : env.prepare1Err = true
  · have hP : GetJobs lib env frm size s = (responseError 500 .storage, s) := by
      simp [GetJobs, h1, StatusInternalServerError]
    exact ⟨Or.inl hP, fun h => by rw [h] at h1; cases h1⟩
  by_cases h2 : env.run1Err = true
  · have hP : GetJobs lib env frm size s = (responseError 500 .storage, s) := by
      simp [GetJobs, h1, h2, StatusInternalServerError]
    exact ⟨Or.inl hP, fun _ h => by rw [h] at h2; cases h2⟩
  by_cases h3 : env.scan1Err = true
  · have hP : GetJobs lib env frm size s = (responseError 500 .storage, s) := by
      simp [GetJobs, h1, h2, h3, StatusInternalServerError]
    exact ⟨Or.inl hP, fun _ _ h => by rw [h] at h3; cases h3⟩
  by_cases h4 : env.prepare2Err = true
  · have hP : GetJobs lib env frm size s = (responseError 500 .storage, s) := by
      simp [GetJobs, h1, h2, h3, h4, StatusInternalServerError]
    exact ⟨Or.inl hP, fun _ _ _ h => by rw [h] at h4; cases h4⟩
  by_cases h5 : env.run2Err = true
  · have hP : GetJobs lib env frm size s = (responseError 500 .storage, s) := by
      simp [GetJobs, h1, h2, h3, h4, h5, StatusInternalServerError]
    exact ⟨Or.inl hP, fun _ _ _ _ h => by rw [h] at h5; cases h5⟩
  by_cases h6 : env.scan2Err = true
  · have hP : GetJobs lib env frm size s = (responseError 500 .storage, s) := by
      by_cases hz : size = 0
      · simp [GetJobs, h1, h2, h3, h4, h5, h6, hz, selectPage, StatusInternalServerError]
      · by_cases hneg : frm < 0 ∨ size < 0
        · simp [GetJobs, h1, h2, h3, h4, h5, hz, hneg, selectPage, StatusInternalServerError]
        · simp [GetJobs, h1, h2, h3, h4, h5, h6, hz, hneg, selectPage,
            StatusInternalServerError]
    exact ⟨Or.inl hP, fun _ _ _ _ _ h => by rw [h] at h6; cases h6⟩
  by_cases hz : size = 0
  · have hP : GetJobs lib env frm size s
        = (.written ⟨[], some ⟨frm, 0, 0⟩, .jobs []⟩, s) := by
      simp [GetJobs, h1, h2, h3, h4, h5, h6, hz, selectPage, hdb]
    exact ⟨Or.inr hP, fun _ _ _ _ _ _ _ _ => hP⟩
  by_cases hneg : frm < 0 ∨ size < 0
  · have hP : GetJobs lib env frm size s = (responseError 500 .storage, s) := by
      simp [GetJobs, h1, h2, h3, h4, h5, hz, hneg, selectPage, StatusInternalServerError]
    refine ⟨Or.inl hP, fun _ _ _ _ _ _ hf hs => ?_⟩
    exfalso
    rcases hneg with h | h <;> omega
  · have hP : GetJobs lib env frm size s
        = (.written ⟨[], some ⟨frm, 0, 0⟩, .jobs []⟩, s) := by
      simp [GetJobs, h1, h2, h3, h4, h5, h6, hz, hneg, selectPage, hdb]
    exact ⟨Or.inr hP, fun _ _ _ _ _ _ _ _ => hP⟩

/-- C15: after a `DeleteJobs` that returns successfully, whatever the state
before, the table is empty and the scheduler holds no live schedule; a
`GetJobs` on the state it leaves, its statements succeeding and its paging
values not negative, answers with no entries, size 0 and total 0, and a
`GetJobs` that answers without error never answers anything else. -/
theorem C15_clear_all_then_list_empty (env : Env) (s : State)
    (hok : (DeleteJobs env s).1 = .written ⟨[], none, .empty⟩) :
    (DeleteJobs env s).2.db = [] ∧ (DeleteJobs env s).2.queue = [] ∧
      (∀ (lib : Lib) (env2 : Env) (frm size : Int),
        env2.prepare1Err = false → env2.run1Err = false → env2.scan1Err = false →
        env2.prepare2Err = false → env2.run2Err = false → env2.scan2Err = false →
        0 ≤ frm → 0 ≤ size →
        (GetJobs lib env2 frm size (DeleteJobs env s).2).1
          = .written ⟨[], some ⟨frm, 0, 0⟩, .jobs []⟩) ∧
      (∀ (lib : Lib) (env2 : Env) (frm size : Int) (resp : Response),
        (GetJobs lib env2 frm size (DeleteJobs env s).2).1 = .written resp →
        resp.Errors = [] → resp = ⟨[], some ⟨frm, 0, 0⟩, .jobs []⟩) := by
  have hstate : (DeleteJobs env s).2.db = [] ∧ (DeleteJobs env s).2.queue = [] := by
    by_cases h1 : env.prepare1Err = true
    · simp [DeleteJobs, h1, responseError] at hok
    · by_cases h2 : env.run1Err = true
      · simp [DeleteJobs, h1, h2, responseError] at hok
      · simp [DeleteJobs, h1, h2, SchedulerClear]
  refine ⟨hstate.1, hstate.2, ?_, ?_⟩
  · intro lib env2 frm size h1 h2 h3 h4 h5 h6 hf hs
    rw [(GetJobs_of_empty lib env2 frm size _ hstate.1).2 h1 h2 h3 h4 h5 h6 hf hs]
  · intro lib env2 frm size resp hw he
    rcases (GetJobs_of_empty lib env2 frm size _ hstate.1).1 with hP | hP
    · rw [hP] at hw
      simp only [responseError, Outcome.written.injEq] at hw
      subst hw
      simp at he
    · rw [hP] at hw
      simp only [Outcome.written.injEq] at hw
      exact hw.symm

/-- Witness of `C15_clear_all_then_list_empty`: ClearAll on `sampleState`. -/
theorem C15_clear_all_then_list_empty_witness :
    (DeleteJobs (Env.ok 0 "" 0) sampleState).2.db = [] ∧
      (DeleteJobs (Env.ok 0 "" 0) sampleState).2.queue = [] ∧
      (∀ (lib : Lib) (env2 : Env) (frm size : Int),
        env2.prepare1Err = false → env2.run1Err = false → env2.scan1Err = false →
        env2.prepare2Err = false → env2.run2Err = false → env2.scan2Err = false →
        0 ≤ frm → 0 ≤ size →
        (GetJobs lib env2 frm size (DeleteJobs (Env.ok 0 "" 0) sampleState).2).1
          = .written ⟨[], some ⟨frm, 0, 0⟩, .jobs []⟩) ∧
      (∀ (lib : Lib) (env2 : Env) (frm size : Int) (resp : Response),
        (GetJobs lib env2 frm size (DeleteJobs (Env.ok 0 "" 0) sampleState).2).1
          = .written resp →
        resp.Errors = [] → resp = ⟨[], some ⟨frm, 0, 0⟩, .jobs []⟩) :=
  C15_clear_all_then_list_empty (Env.ok 0 "" 0) sampleState (by decide)

/-! ## The period of an interval or once trigger -/

/-- C16, the claim fails: the expression "9223372037" is accepted for trigger
type "interval" with value 9223372037, and the trigger built has the interval
-9223372036709551616 ns, not 9223372037 * 10^9 ns: the `int64` product
`time.Second * time.Duration(seconds)` has wrapped around. -/
theorem C16_large_interval_wraps :
    ParseInt "9223372037" = (9223372037, none) ∧
    buildTrigger sampleLib "interval" "9223372037"
      = .trigger (.simple (-9223372036709551616)) ∧
    (-9223372036709551616 : Int) ≠ 9223372037 * 1000000000 := by
  decide

/-- The `int64` product `time.Second * seconds` is the exact product exactly
when the number of seconds is between -9223372036 and 9223372036. -/
theorem secondsToDuration_exact_iff (n : Int) :
    secondsToDuration n = n * 1000000000 ↔ -9223372036 ≤ n ∧ n ≤ 9223372036 := by
  unfold secondsToDuration wrapInt64 Second
  have h63 : (2 : Int) ^ 63 = 9223372036854775808 := by norm_num
  have h64 : (2 : Int) ^ 64 = 18446744073709551616 := by norm_num
  rw [h63, h64]
  omega

/-- C16 as amended: for every expression accepted for trigger type "interval"
(likewise "once") with integer value `n`, the trigger built has the period
(delay) `time.Second * n` computed in `int64`; that duration is exactly
`n * 10^9` nanoseconds, that is `n` seconds, if and only if
`-9223372036 ≤ n ≤ 9223372036`. -/
theorem C16_period_exact_within_bounds (lib : Lib) (expression : String) (n : Int)
    (hparse : ParseInt expression = (n, none)) :
    buildTrigger lib "interval" expression = .trigger (.simple (secondsToDuration n)) ∧
      buildTrigger lib "once" expression = .trigger (.runOnce (secondsToDuration n)) ∧
      (secondsToDuration n = n * 1000000000 ↔ -9223372036 ≤ n ∧ n ≤ 9223372036) := by
  refine ⟨?_, ?_, secondsToDuration_exact_iff n⟩
  · simp [buildTrigger, hparse]
  · simp [buildTrigger, hparse]

/-- Witness of `C16_period_exact_within_bounds`: the expression "3600". -/
theorem C16_period_exact_within_bounds_witness :
    buildTrigger sampleLib "interval" "3600" = .trigger (.simple (secondsToDuration 3600)) ∧
      buildTrigger sampleLib "once" "3600" = .trigger (.runOnce (secondsToDuration 3600)) ∧
      (secondsToDuration 3600 = 3600 * 1000000000 ↔
        -9223372036 ≤ (3600 : Int) ∧ (3600 : Int) ≤ 9223372036) :=
  C16_period_exact_within_bounds sampleLib "3600" 3600 (by decide)

/-! ## Replace: a failed trigger build or schedule step -/

/-- The result pair of `NewJob` does not depend on the state it is called in. -/
theorem NewJob_result_indep (lib : Lib) (env : Env) (s s2 : State)
    (jobID name triggerType expression httpMethod httpTargetUrl httpRequestPayload
      jsonWebToken : String) :
    (NewJob lib env s jobID name triggerType expression httpMethod httpTargetUrl
        httpRequestPayload jsonWebToken).1
      = (NewJob lib env s2 jobID name triggerType expression httpMethod httpTargetUrl
        httpRequestPayload jsonWebToken).1 := by
  unfold NewJob
  cases buildTrigger lib triggerType expression with
  | ret err => rfl
  | trigger t =>
    by_cases hs : env.scheduleErr = true
    · simp [SchedulerScheduleJob, hs]
    · simp [SchedulerScheduleJob, hs]

/-- C17: for a stored Enabled job whose key is live on the scheduler (the keys
of the scheduler being pairwise distinct), a Replace with status 1 that reaches
`NewJob` and gets an error from it answers with status 500, has removed the old
live schedule from the scheduler, and has left the table exactly as it was:
the row of the job still has status 1 and the old key, and lookup of that key
returns NotFound. -/
theorem C17_replace_failed_build_leaves_stale_handle (lib : Lib) (env : Env) (s : State)
    (jobID : String) (requestData : PutJobRequest) (row : ScheduleJob) (it : Item)
    (hrow : (selectByID jobID s.db).head? = some row) (henabled : row.Status = 1)
    (hlive : it ∈ s.queue) (hkey : (it.Job.key : Int) = row.JobKey)
    (hnodup : (s.queue.map (fun it => it.Job.key)).Nodup)
    (huuid : lib.isUUIDv4 jobID = true) (hvalid : validatePut lib requestData = true)
    (hp1 : env.prepare1Err = false) (hr1 : env.run1Err = false) (hs1 : env.scan1Err = false)
    (hstatus : requestData.Status = 1)
    (hfail : (NewJob lib env s jobID requestData.Name requestData.TriggerType
      requestData.Expression requestData.HttpMethod requestData.HttpTargetUrl
      requestData.HttpRequestBody requestData.JsonWebToken).1.2 ≠ none) :
    (∃ err, (PutJob lib env jobID (.data requestData) s).1
        = .written ⟨[⟨500, err⟩], none, .empty⟩) ∧
      (PutJob lib env jobID (.data requestData) s).2.db = s.db ∧
      (PutJob lib env jobID (.data requestData) s).2.queue = removeKey row.JobKey s.queue ∧
      it ∉ (PutJob lib env jobID (.data requestData) s).2.queue ∧
      ((PutJob lib env jobID (.data requestData) s).2.queue).length + 1 = s.queue.length ∧
      (selectByID jobID (PutJob lib env jobID (.data requestData) s).2.db).head? = some row ∧
      row.Status = 1 ∧ row.JobKey = (it.Job.key : Int) ∧
      GetScheduledJob row.JobKey (PutJob lib env jobID (.data requestData) s).2
        = (none, some .jobNotFound) := by
  obtain ⟨-, hrid⟩ := selectByID_head jobID s.db row hrow
  obtain ⟨hd1, hd2, hd3⟩ := destroyExisting_spec row.JobKey s
  rcases hde : destroyExisting row.JobKey s with ⟨e, s1⟩
  rw [hde] at hd1 hd2 hd3
  simp only at hd1 hd2 hd3
  subst hd1
  obtain ⟨rest, hsel⟩ : ∃ rest, selectByID jobID s.db = row :: rest := by
    cases hl : selectByID jobID s.db with
    | nil => rw [hl] at hrow; simp at hrow
    | cons r rest =>
      rw [hl] at hrow
      simp only [List.head?_cons, Option.some.injEq] at hrow
      exact ⟨rest, by rw [hrow]⟩
  have hfail1 : (NewJob lib env s1 row.JobID requestData.Name requestData.TriggerType
      requestData.Expression requestData.HttpMethod requestData.HttpTargetUrl
      requestData.HttpRequestBody requestData.JsonWebToken).1.2 ≠ none := by
    rw [hrid, NewJob_result_indep lib env s1 s]
    exact hfail
  rcases NewJob_cases lib env s1 row.JobID requestData.Name requestData.TriggerType
      requestData.Expression requestData.HttpMethod requestData.HttpTargetUrl
      requestData.HttpRequestBody requestData.JsonWebToken with
    ⟨err, s2, hnj, hdb, hq⟩ | ⟨job, trigger, hnj, -⟩
  · rw [hnj] at hfail1
    cases err with
    | none => exact absurd rfl hfail1
    | some e1 =>
      have hP : PutJob lib env jobID (.data requestData) s
          = (responseError StatusInternalServerError e1, s2) := by
        simp [PutJob, huuid, hvalid, hp1, hr1, hs1, hsel, scanRow, hde, hstatus, hnj]
      rw [hP]
      have hq2 : s2.queue = removeKey row.JobKey s.queue := hq.trans hd3
      have hno := removeKey_not_mem row.JobKey s.queue hnodup
      refine ⟨⟨e1, rfl⟩, hdb.trans hd2, hq2, ?_, ?_, ?_, henabled, hkey.symm, ?_⟩
      · intro hin
        rw [hq2] at hin
        exact hno it hin hkey
      · show s2.queue.length + 1 = s.queue.length
        rw [hq2]; exact removeKey_length _ _ it hlive hkey
      · show (selectByID jobID s2.db).head? = some row
        rw [hdb.trans hd2]; exact hrow
      · refine GetScheduledJob_of_not_mem _ _ ?_
        show ∀ x ∈ s2.queue, (x.Job.key : Int) ≠ row.JobKey
        rw [hq2]; exact hno
  · rw [hnj] at hfail1
    exact absurd rfl hfail1

/-- Witness of `C17_replace_failed_build_leaves_stale_handle`: the interval
job of `sampleState` is replaced with status 1 and a cron expression, which
validation accepts and the trigger build for "interval" rejects. -/
theorem C17_replace_failed_build_leaves_stale_handle_witness :
    (∃ err, (PutJob sampleLib (Env.ok 5 "" 8) sampleID
          (.data (samplePut 1 "interval" "0 0 * * * *")) sampleState).1
        = .written ⟨[⟨500, err⟩], none, .empty⟩) ∧
      (PutJob sampleLib (Env.ok 5 "" 8) sampleID (.data (samplePut 1 "interval" "0 0 * * * *"))
        sampleState).2.db = sampleState.db ∧
      (PutJob sampleLib (Env.ok 5 "" 8) sampleID (.data (samplePut 1 "interval" "0 0 * * * *"))
        sampleState).2.queue
        = removeKey (sampleRow sampleID 7 1 "interval" "3600").JobKey sampleState.queue ∧
      (⟨sampleJob 7 sampleID "interval", .simple 3600000000000⟩ : Item) ∉
        (PutJob sampleLib (Env.ok 5 "" 8) sampleID
          (.data (samplePut 1 "interval" "0 0 * * * *")) sampleState).2.queue ∧
      ((PutJob sampleLib (Env.ok 5 "" 8) sampleID
          (.data (samplePut 1 "interval" "0 0 * * * *")) sampleState).2.queue).length + 1
        = sampleState.queue.length ∧
      (selectByID sampleID (PutJob sampleLib (Env.ok 5 "" 8) sampleID
          (.data (samplePut 1 "interval" "0 0 * * * *")) sampleState).2.db).head?
        = some (sampleRow sampleID 7 1 "interval" "3600") ∧
      (sampleRow sampleID 7 1 "interval" "3600").Status = 1 ∧
      (sampleRow sampleID 7 1 "interval" "3600").JobKey
        = (((⟨sampleJob 7 sampleID "interval", .simple 3600000000000⟩ : Item).Job.key : Nat)
            : Int) ∧
      GetScheduledJob (sampleRow sampleID 7 1 "interval" "3600").JobKey
          (PutJob sampleLib (Env.ok 5 "" 8) sampleID
            (.data (samplePut 1 "interval" "0 0 * * * *")) sampleState).2
        = (none, some .jobNotFound) :=
  C17_replace_failed_build_leaves_stale_handle sampleLib (Env.ok 5 "" 8) sampleState sampleID
    (samplePut 1 "interval" "0 0 * * * *") (sampleRow sampleID 7 1 "interval" "3600")
    ⟨sampleJob 7 sampleID "interval", .simple 3600000000000⟩
    (by decide) (by decide) (by decide) (by decide) (by decide) (by decide) (by decide)
    rfl rfl rfl rfl (by decide)

/-! ## The expression validator -/

/-- C18: the `expression` validator accepts a string exactly when the cron
parser accepts it or it is a base-10 `int64` literal; whether a Create request
passes validation does not change when its trigger type is replaced by another
supported one; so a request that passes validation with trigger type
"interval" and an expression that is no integer literal (hence a cron
expression), or with trigger type "cron" and an expression the cron parser
rejects (hence an integer literal), makes `NewJob` return an error at the
trigger build, with nothing registered. -/
theorem C18_validator_ignores_trigger_type (lib : Lib) :
    (∀ e : String, validExpression lib e = true ↔ (lib.cronValid e = true ∨ IsInt64Literal e)) ∧
    (∀ (req : PostJobRequest) (triggerType : String),
        req.TriggerType ∈ ["cron", "interval", "once"] →
        triggerType ∈ ["cron", "interval", "once"] →
        validatePost lib { req with TriggerType := triggerType } = validatePost lib req) ∧
    (∀ (env : Env) (s : State) (req : PostJobRequest), validatePost lib req = true →
        req.TriggerType = "interval" → ¬ IsInt64Literal req.Expression →
        lib.cronValid req.Expression = true ∧
        ∃ err, NewJob lib env s env.uuid req.Name req.TriggerType req.Expression req.HttpMethod
          req.HttpTargetUrl req.HttpRequestBody req.JsonWebToken = ((none, some err), s)) ∧
    (∀ (env : Env) (s : State) (req : PostJobRequest), validatePost lib req = true →
        req.TriggerType = "cron" → lib.cronValid req.Expression = false →
        IsInt64Literal req.Expression ∧
        NewJob lib env s env.uuid req.Name req.TriggerType req.Expression req.HttpMethod
          req.HttpTargetUrl req.HttpRequestBody req.JsonWebToken
          = ((none, some .cronParse), s)) := by
  have hval : ∀ e : String,
      validExpression lib e = true ↔ (lib.cronValid e = true ∨ IsInt64Literal e) := by
    intro e
    rw [← ParseInt_ok_iff]
    by_cases hc : lib.cronValid e = true
    · simp [validExpression, hc]
    · simp [validExpression, hc]
  have hexpr : ∀ req : PostJobRequest, validatePost lib req = true →
      validExpression lib req.Expression = true := by
    intro req hv
    simp only [validatePost, Bool.and_eq_true] at hv
    exact hv.1.1.2
  refine ⟨hval, ?_, ?_, ?_⟩
  · intro req triggerType h1 h2
    simp only [validatePost, h1, h2, decide_True]
  · intro env s req hv ht hlit
    have hc : lib.cronValid req.Expression = true := by
      rcases (hval req.Expression).mp (hexpr req hv) with h | h
      · exact h
      · exact absurd h hlit
    refine ⟨hc, ?_⟩
    have hp : (ParseInt req.Expression).2 ≠ none := fun h => hlit ((ParseInt_ok_iff _).mp h)
    rcases hpi : ParseInt req.Expression with ⟨n, _ | err⟩
    · rw [hpi] at hp; exact absurd rfl hp
    · exact ⟨err, by simp [NewJob, buildTrigger, ht, hpi]⟩
  · intro env s req hv ht hc
    refine ⟨?_, ?_⟩
    · rcases (hval req.Expression).mp (hexpr req hv) with h | h
      · rw [hc] at h; cases h
      · exact h
    · simp [NewJob, buildTrigger, ht, hc]

/-- Witness of `C18_validator_ignores_trigger_type`: an interval request with
the cron expression "0 0 * * * *" and a cron request with the expression "5"
both pass validation, and `NewJob` fails on both. -/
theorem C18_validator_ignores_trigger_type_witness :
    (validatePost sampleLib (samplePost "interval" "0 0 * * * *") = true ∧
      sampleLib.cronValid (samplePost "interval" "0 0 * * * *").Expression = true ∧
      ∃ err, NewJob sampleLib (Env.ok 0 sampleID 7) State.empty (Env.ok 0 sampleID 7).uuid
        (samplePost "interval" "0 0 * * * *").Name
        (samplePost "interval" "0 0 * * * *").TriggerType
        (samplePost "interval" "0 0 * * * *").Expression
        (samplePost "interval" "0 0 * * * *").HttpMethod
        (samplePost "interval" "0 0 * * * *").HttpTargetUrl
        (samplePost "interval" "0 0 * * * *").HttpRequestBody
        (samplePost "interval" "0 0 * * * *").JsonWebToken = ((none, some err), State.empty)) ∧
    (validatePost sampleLib (samplePost "cron" "5") = true ∧
      IsInt64Literal (samplePost "cron" "5").Expression ∧
      NewJob sampleLib (Env.ok 0 sampleID 7) State.empty (Env.ok 0 sampleID 7).uuid
        (samplePost "cron" "5").Name (samplePost "cron" "5").TriggerType
        (samplePost "cron" "5").Expression (samplePost "cron" "5").HttpMethod
        (samplePost "cron" "5").HttpTargetUrl (samplePost "cron" "5").HttpRequestBody
        (samplePost "cron" "5").JsonWebToken = ((none, some .cronParse), State.empty)) :=
  have hlit : ¬ IsInt64Literal (samplePost "interval" "0 0 * * * *").Expression :=
    fun h => absurd ((ParseInt_ok_iff _).mpr h) (by decide)
  ⟨⟨by decide,
      (C18_validator_ignores_trigger_type sampleLib).2.2.1 (Env.ok 0 sampleID 7) State.empty
        (samplePost "interval" "0 0 * * * *") (by decide) rfl hlit⟩,
    ⟨by decide,
      (C18_validator_ignores_trigger_type sampleLib).2.2.2 (Env.ok 0 sampleID 7) State.empty
        (samplePost "cron" "5") (by decide) rfl (by decide)⟩⟩

/-! ## Startup Recovery: all builds and statements succeed -/

/-- With no job registered a row is untouched. -/
theorem applyKeys_nil (r : ScheduleJob) : applyKeys [] r = r := rfl

/-- The key update for the job `it0` followed by the rewriting for the jobs
`news`, none of which has the id of `it0`, is the rewriting for `it0 :: news`. -/
theorem map_applyKeys_updateKey (it0 : Item) (news : List Item) (db : List ScheduleJob)
    (hno : ∀ it ∈ news, it.Job.jobID ≠ it0.Job.jobID) :
    (updateKey (it0.Job.key : Int) it0.Job.jobID db).map (applyKeys news)
      = db.map (applyKeys (it0 :: news)) := by
  unfold updateKey
  rw [List.map_map]
  refine List.map_congr_left ?_
  intro r _
  have hnone : news.find? (fun it => decide (it.Job.jobID = it0.Job.jobID)) = none := by
    rw [List.find?_eq_none]
    intro it hit
    simpa using hno it hit
  by_cases hid : r.JobID = it0.Job.jobID
  · simp [applyKeys, hid, hnone]
  · have hid2 : ¬ it0.Job.jobID = r.JobID := fun h => hid h.symm
    simp [applyKeys, hid, hid2, List.find?_cons]

/-- When every trigger build and statement succeeds over rows of pairwise
distinct ids, the loop of Startup Recovery ends with the function-level error
it was entered with, after appending to the queue one job per Enabled row, in
table order, of the id of the row and with the trigger built from it, and
after writing the key of each of those jobs into the rows of its id. -/
theorem restoreLoop_success (lib : Lib) (envs : Nat → Env) (outer : Option Err) :
    ∀ (rest : List ScheduleJob) (i : Nat) (s : State),
      RestoreSucceeds lib envs i rest → (rest.map (fun r => r.JobID)).Nodup →
      ∃ news log,
        restoreLoop lib envs outer i rest s
          = (.returned outer, ⟨s.db.map (applyKeys news), s.queue ++ news, log⟩) ∧
        news.map (fun it => (it.Job.jobID, SwitchResult.trigger it.Trigger))
          = (rest.filter (fun r => r.Status = JobStatusEnable)).map
              (fun r => (r.JobID, buildTrigger lib r.TriggerType r.Expression)) := by
  intro rest
  induction rest with
  | nil =>
    intro i s _ _
    refine ⟨[], s.log, ?_, rfl⟩
    have hid : s.db.map (applyKeys []) = s.db := by
      rw [List.map_congr_left (fun r _ => applyKeys_nil r)]
      exact List.map_id' s.db
    rw [hid, List.append_nil]
    rfl
  | cons row rest ih =>
    intro i s hsucc hnd
    simp only [List.map_cons, List.nodup_cons] at hnd
    have hsucc2 : RestoreSucceeds lib envs (i + 1) rest := by
      intro j r hj hr
      have h := hsucc (j + 1) r (by simpa using hj) hr
      rwa [show i + (j + 1) = i + 1 + j by omega] at h
    by_cases hst : row.Status ≠ JobStatusEnable
    · have hP : restoreLoop lib envs outer i (row :: rest) s
          = restoreLoop lib envs outer (i + 1) rest s := by
        simp [restoreLoop, hst]
      obtain ⟨news, log, heq, hmap⟩ := ih (i + 1) s hsucc2 hnd.2
      refine ⟨news, log, by rw [hP, heq], ?_⟩
      rw [hmap, List.filter_cons_of_neg (by simpa using hst)]
    · have hen : row.Status = JobStatusEnable := not_not.mp hst
      obtain ⟨⟨t, hb⟩, h1, h2, h3⟩ := hsucc 0 row (by simp) hen
      rw [Nat.add_zero] at h1 h2 h3
      rcases NewJob_cases lib (envs i) s row.JobID row.Name row.TriggerType row.Expression
          row.HttpMethod row.HttpTargetUrl row.HttpRequestBody row.JsonWebToken with
        ⟨err, s1, hnj, -, -⟩ | ⟨job, trigger, hnj, hk, hj, hbt⟩
      · exfalso
        simp [NewJob, hb, SchedulerScheduleJob, h1] at hnj
      · have hP : restoreLoop lib envs outer i (row :: rest) s
            = restoreLoop lib envs outer (i + 1) rest
                ⟨updateKey (job.key : Int) row.JobID s.db, s.queue ++ [⟨job, trigger⟩],
                  s.log ++ [.schedSchedule (envs i).key] ++ [.dbUpdateKey row.JobID]⟩ := by
          simp [restoreLoop, hst, hnj, h2, h3]
        obtain ⟨news, log, heq, hmap⟩ := ih (i + 1)
          ⟨updateKey (job.key : Int) row.JobID s.db, s.queue ++ [⟨job, trigger⟩],
            s.log ++ [.schedSchedule (envs i).key] ++ [.dbUpdateKey row.JobID]⟩ hsucc2 hnd.2
        have hno : ∀ it ∈ news, it.Job.jobID ≠ (⟨job, trigger⟩ : Item).Job.jobID := by
          intro it hit hij
          have hm : (it.Job.jobID, SwitchResult.trigger it.Trigger) ∈
              news.map (fun it => (it.Job.jobID, SwitchResult.trigger it.Trigger)) :=
            List.mem_map.mpr ⟨it, hit, rfl⟩
          rw [hmap] at hm
          rcases List.mem_map.mp hm with ⟨r, hr, hreq⟩
          have hrid : r.JobID = it.Job.jobID := congrArg Prod.fst hreq
          apply hnd.1
          refine List.mem_map.mpr ⟨r, (List.mem_filter.mp hr).1, ?_⟩
          show r.JobID = row.JobID
          rw [hrid, hij, hj]
        refine ⟨⟨job, trigger⟩ :: news, log, ?_, ?_⟩
        · rw [hP, heq]
          have hdb : (updateKey (job.key : Int) row.JobID s.db).map (applyKeys news)
              = s.db.map (applyKeys (⟨job, trigger⟩ :: news)) := by
            rw [← hj]
            exact map_applyKeys_updateKey ⟨job, trigger⟩ news s.db hno
          simp only [hdb, List.append_assoc, List.singleton_append]
        · rw [List.filter_cons_of_pos (by simpa using hen), List.map_cons, List.map_cons, hmap,
            hj, hbt]

/-- C13: on a table whose rows have pairwise distinct ids and on which every
trigger build and storage statement succeeds, `restoreScheduleJobs` returns
nil after appending to the scheduler queue exactly one job for each Enabled
row, in table order, of that row's id and with the trigger built from its type
and expression; each Enabled row then stores the key of its job and is
otherwise unchanged; every row of another status is unchanged and no job of
its id is registered. -/
theorem C13_restore_schedules_each_enabled_row (lib : Lib) (env : Env) (envs : Nat → Env)
    (s : State) (hids : (s.db.map (fun r => r.JobID)).Nodup)
    (hp1 : env.prepare1Err = false) (hr1 : env.run1Err = false) (hs1 : env.scan1Err = false)
    (hsucc : RestoreSucceeds lib envs 0 s.db) :
    ∃ news : List Item,
      (restoreScheduleJobs lib env envs s).1 = .returned none ∧
      (restoreScheduleJobs lib env envs s).2.queue = s.queue ++ news ∧
      news.map (fun it => (it.Job.jobID, SwitchResult.trigger it.Trigger))
        = (s.db.filter (fun r => r.Status = JobStatusEnable)).map
            (fun r => (r.JobID, buildTrigger lib r.TriggerType r.Expression)) ∧
      (news.map (fun it => it.Job.jobID)).Nodup ∧
      List.Forall₂
        (fun r r2 =>
          if r.Status = JobStatusEnable then
            ∃ it ∈ news, it.Job.jobID = r.JobID ∧ r2 = { r with JobKey := (it.Job.key : Int) }
          else r2 = r)
        s.db (restoreScheduleJobs lib env envs s).2.db ∧
      (∀ r ∈ s.db, r.Status ≠ JobStatusEnable → ∀ it ∈ news, it.Job.jobID ≠ r.JobID) := by
  have hP : restoreScheduleJobs lib env envs s = restoreLoop lib envs none 0 s.db s := by
    simp [restoreScheduleJobs, hp1, hr1, hs1]
  obtain ⟨news, log, heq, hmap⟩ := restoreLoop_success lib envs none s.db 0 s hsucc hids
  have hidmap : news.map (fun it => it.Job.jobID)
      = (s.db.filter (fun r => r.Status = JobStatusEnable)).map (fun r => r.JobID) := by
    have h := congrArg (List.map Prod.fst) hmap
    simpa [List.map_map, Function.comp_def] using h
  have hother : ∀ r ∈ s.db, r.Status ≠ JobStatusEnable → ∀ it ∈ news, it.Job.jobID ≠ r.JobID := by
    intro r hr hst it hit hij
    have hm : it.Job.jobID ∈ news.map (fun it => it.Job.jobID) := List.mem_map.mpr ⟨it, hit, rfl⟩
    rw [hidmap] at hm
    rcases List.mem_map.mp hm with ⟨r2, hr2, hid2⟩
    obtain ⟨hr2mem, hr2st⟩ := List.mem_filter.mp hr2
    have hsame : r2 = r :=
      List.inj_on_of_nodup_map hids hr2mem hr (hid2.trans hij)
    rw [hsame] at hr2st
    exact hst (by simpa using hr2st)
  refine ⟨news, by rw [hP, heq], by rw [hP, heq], hmap, ?_, ?_, hother⟩
  · rw [hidmap]
    exact (hids.sublist ((List.filter_sublist _).map _))
  · rw [hP, heq]
    show List.Forall₂ _ s.db (s.db.map (applyKeys news))
    rw [List.forall₂_map_right_iff]
    refine List.forall₂_same.mpr ?_
    intro r hr
    by_cases hst : r.Status = JobStatusEnable
    · rw [if_pos hst]
      have hm : r.JobID ∈ news.map (fun it => it.Job.jobID) := by
        rw [hidmap]
        exact List.mem_map.mpr ⟨r, List.mem_filter.mpr ⟨hr, by simpa using hst⟩, rfl⟩
      rcases List.mem_map.mp hm with ⟨it0, hit0, hid0⟩
      cases hf : news.find? (fun it => decide (it.Job.jobID = r.JobID)) with
      | none =>
        have := List.find?_eq_none.mp hf it0 hit0
        simp [hid0] at this
      | some it =>
        have hmem := List.mem_of_find?_eq_some hf
        have hp := List.find?_some hf
        refine ⟨it, hmem, by simpa using hp, ?_⟩
        simp [applyKeys, hf]
    · rw [if_neg hst]
      have hf : news.find? (fun it => decide (it.Job.jobID = r.JobID)) = none := by
        rw [List.find?_eq_none]
        intro it hit
        simpa using hother r hr hst it hit
      simp [applyKeys, hf]

/-- Witness of `C13_restore_schedules_each_enabled_row`: Startup Recovery on
`mixedState`, where nothing fails. -/
theorem C13_restore_schedules_each_enabled_row_witness :
    ∃ news : List Item,
      (restoreScheduleJobs sampleLib (Env.ok 0 "" 0) sampleEnvs mixedState).1 = .returned none ∧
      (restoreScheduleJobs sampleLib (Env.ok 0 "" 0) sampleEnvs mixedState).2.queue
        = mixedState.queue ++ news ∧
      news.map (fun it => (it.Job.jobID, SwitchResult.trigger it.Trigger))
        = (mixedState.db.filter (fun r => r.Status = JobStatusEnable)).map
            (fun r => (r.JobID, buildTrigger sampleLib r.TriggerType r.Expression)) ∧
      (news.map (fun it => it.Job.jobID)).Nodup ∧
      List.Forall₂
        (fun r r2 =>
          if r.Status = JobStatusEnable then
            ∃ it ∈ news, it.Job.jobID = r.JobID ∧ r2 = { r with JobKey := (it.Job.key : Int) }
          else r2 = r)
        mixedState.db (restoreScheduleJobs sampleLib (Env.ok 0 "" 0) sampleEnvs mixedState).2.db ∧
      (∀ r ∈ mixedState.db, r.Status ≠ JobStatusEnable →
        ∀ it ∈ news, it.Job.jobID ≠ r.JobID) :=
  C13_restore_schedules_each_enabled_row sampleLib (Env.ok 0 "" 0) sampleEnvs mixedState
    (by decide) rfl rfl rfl
    (by
      intro j r hj hst
      refine ⟨?_, rfl, rfl, rfl⟩
      rcases j with _ | _ | _ | j
      · simp only [mixedState, List.getElem?_cons_zero, Option.some.injEq] at hj
        subst hj
        exact ⟨.simple 60000000000, by decide⟩
      · simp only [mixedState, List.getElem?_cons_succ, List.getElem?_cons_zero,
          Option.some.injEq] at hj
        subst hj
        exact absurd hst (by decide)
      · simp only [mixedState, List.getElem?_cons_succ, List.getElem?_cons_zero,
          Option.some.injEq] at hj
        subst hj
        exact absurd hst (by decide)
      · simp [mixedState] at hj)

/-! ## Firings -/

/-- The dispatch action never touches the scheduler queue. -/
theorem FunctionJob_run_queue (lib : Lib) (env : FireEnv) (job : FunctionJob) (s : State) :
    (FunctionJob.run lib env job s).2.queue = s.queue := by
  unfold FunctionJob.run
  by_cases honce : job.triggerType = "once" <;>
  by_cases h1 : env.prepareErr = true <;>
  by_cases h2 : env.execErr = true <;>
  by_cases hu : lib.urlParses job.httpTargetUrl = true <;>
  by_cases hc : env.clientErr = true <;>
  cases hr : env.response <;>
  simp [honce, h1, h2, hu, hc]

/-- The queue after a firing: a once schedule that was live is gone, and
nothing else changes. -/
theorem fire_queue (lib : Lib) (env : FireEnv) (it : Item) (s : State) :
    (fire lib env it s).queue = s.queue ∨
      (∃ d, it.Trigger = .runOnce d) ∧ it ∈ s.queue ∧
        (fire lib env it s).queue = s.queue.erase it := by
  unfold fire
  by_cases hin : it ∈ s.queue
  · rw [if_pos hin]
    cases ht : it.Trigger with
    | cron e => left; simp [FunctionJob_run_queue]
    | simple d => left; simp [FunctionJob_run_queue]
    | runOnce d => right; exact ⟨⟨d, rfl⟩, hin, by simp [FunctionJob_run_queue]⟩
  · rw [if_neg hin]
    exact Or.inl rfl

/-- Lookup of a key succeeds only when some item of the queue has it. -/
theorem GetScheduledJob_ok (key : Int) (s : State) (h : (GetScheduledJob key s).2 = none) :
    ∃ it ∈ s.queue, (it.Job.key : Int) = key := by
  unfold GetScheduledJob at h
  cases hf : s.queue.find? (fun it => decide ((it.Job.key : Int) = key)) with
  | some x =>
    exact ⟨x, List.mem_of_find?_eq_some hf, by simpa using List.find?_some hf⟩
  | none => rw [hf] at h; simp at h

/-- A firing keeps every handle findable, except the handle of the once
schedule that fires. -/
theorem fire_keeps_lookup (lib : Lib) (env : FireEnv) (it : Item) (s : State) (key : Int)
    (hfound : (GetScheduledJob key s).2 = none)
    (hother : (∀ d, it.Trigger ≠ .runOnce d) ∨ (it.Job.key : Int) ≠ key) :
    (GetScheduledJob key (fire lib env it s)).2 = none := by
  obtain ⟨x, hx, hk⟩ := GetScheduledJob_ok key s hfound
  rcases fire_queue lib env it s with hq | ⟨⟨d, hd⟩, -, hq⟩
  · exact GetScheduledJob_of_mem key _ x (by rw [hq]; exact hx) hk
  · rcases hother with h | h
    · exact absurd hd (h d)
    · have hne : x ≠ it := by
        intro hxi
        rw [hxi] at hk
        exact h hk
      exact GetScheduledJob_of_mem key _ x (by rw [hq]; exact (List.mem_erase_of_ne hne).mpr hx) hk

/-- After the firing of a live once schedule its handle is no longer found,
the keys of the scheduler being pairwise distinct. -/
theorem fire_once_drops_handle (lib : Lib) (env : FireEnv) (it : Item) (s : State) (d : Int)
    (hlive : it ∈ s.queue) (honce : it.Trigger = .runOnce d)
    (hnodup : (s.queue.map (fun it => it.Job.key)).Nodup) :
    GetScheduledJob (it.Job.key : Int) (fire lib env it s) = (none, some .jobNotFound) := by
  have hq : (fire lib env it s).queue = s.queue.erase it := by
    unfold fire
    rw [if_pos hlive, honce]
    simp [FunctionJob_run_queue]
  refine GetScheduledJob_of_not_mem _ _ ?_
  rw [hq]
  intro x hx hk
  have hxq : x ∈ s.queue := List.mem_of_mem_erase hx
  have hxi : x = it :=
    List.inj_on_of_nodup_map hnodup hxq hlive (by exact_mod_cast hk)
  have hnd : s.queue.Nodup := List.Nodup.of_map _ hnodup
  rw [hxi] at hx
  exact (hnd.not_mem_erase) hx

/-- The handler `PostJob` is its tail `PostJob.insert` run in the state `NewJob`
leaves, once validation has passed and `NewJob` has returned a job. -/
theorem PostJob_eq_insert (lib : Lib) (env : Env) (requestData : PostJobRequest) (s s1 : State)
    (job : FunctionJob) (hv : validatePost lib requestData = true)
    (hnj : NewJob lib env s env.uuid requestData.Name requestData.TriggerType
      requestData.Expression requestData.HttpMethod requestData.HttpTargetUrl
      requestData.HttpRequestBody requestData.JsonWebToken = ((some job, none), s1)) :
    PostJob lib env (.data requestData) s
      = PostJob.insert lib env (postRow env requestData) job s1 := by
  simp [PostJob, PostJob.insert, hv, hnj, postRow]

/-- A sequence of firings keeps a handle findable when none of them is the
firing of a once schedule of that handle. -/
theorem fires_keeps_lookup (lib : Lib) (key : Int) :
    ∀ (fs : List (FireEnv × Item)) (s : State), (GetScheduledJob key s).2 = none →
      (∀ f ∈ fs, (∀ d, f.2.Trigger ≠ .runOnce d) ∨ (f.2.Job.key : Int) ≠ key) →
      (GetScheduledJob key (fires lib fs s)).2 = none := by
  intro fs
  induction fs with
  | nil => intro s h _; exact h
  | cons f rest ih =>
    intro s h hall
    have h1 := fire_keeps_lookup lib f.1 f.2 s key h (hall f (List.mem_cons_self _ _))
    exact ih (fire lib f.1 f.2 s) h1 (fun g hg => hall g (List.mem_cons_of_mem _ hg))

/-- The tail of `PostJob` leaves the scheduler queue as it is. -/
theorem PostJob_insert_queue (lib : Lib) (env : Env) (row : ScheduleJob) (job : FunctionJob)
    (s : State) : (PostJob.insert lib env row job s).2.queue = s.queue := by
  unfold PostJob.insert
  by_cases h1 : env.prepare1Err = true
  · simp [h1]
  · by_cases h2 : env.run1Err = true
    · simp [h1, h2]
    · simp [h1, h2]

/-- The tail of `PutJob` leaves the scheduler queue as it is. -/
theorem PutJob_persist_queue (lib : Lib) (env : Env) (requestData : PutJobRequest)
    (row : ScheduleJob) (s : State) :
    (PutJob.persist lib env requestData row s).2.queue = s.queue := by
  rcases PutJob_persist_cases lib env requestData row s with ⟨-, hp⟩ | ⟨-, hp⟩ <;> rw [hp]

/-- Lookup of a key depends on the scheduler queue only. -/
theorem GetScheduledJob_congr (key : Int) (s s2 : State) (h : s2.queue = s.queue) :
    GetScheduledJob key s2 = GetScheduledJob key s := by
  unfold GetScheduledJob
  rw [h]

/-! ## Create and Replace: the handle of an Enabled job -/

/-- C7, the claim fails: a Create of a once job of delay 0 on the empty system.
`NewJob` registers the schedule under key 7; the schedule is due at once and
the bridge fires it on its own worker, after which it is gone; the handler then
inserts the row and returns successfully with JobKey 7 and status 1. At that
moment the table shows the job Enabled with key 7, the scheduler is empty and
lookup of key 7 returns NotFound. The same holds when the firing comes right
after the handler has returned. -/
theorem C7_once_schedule_gone_at_return :
    NewJob sampleLib (Env.ok 0 sampleID 7) State.empty sampleID "job" "once" "0" "POST"
        "https://example.com/hook" "" ""
      = ((some onceItem.Job, none), ⟨[], [onceItem], [.schedSchedule 7]⟩) ∧
    (PostJob.insert sampleLib (Env.ok 0 sampleID 7)
        (postRow (Env.ok 0 sampleID 7) (samplePost "once" "0")) onceItem.Job
        (fire sampleLib (FireEnv.ok 200) onceItem ⟨[], [onceItem], [.schedSchedule 7]⟩)).1
      = .written ⟨[], none, .job (toResult sampleLib (sampleRow sampleID 7 1 "once" "0"))⟩ ∧
    (PostJob.insert sampleLib (Env.ok 0 sampleID 7)
        (postRow (Env.ok 0 sampleID 7) (samplePost "once" "0")) onceItem.Job
        (fire sampleLib (FireEnv.ok 200) onceItem ⟨[], [onceItem], [.schedSchedule 7]⟩)).2.db
      = [sampleRow sampleID 7 1 "once" "0"] ∧
    (PostJob.insert sampleLib (Env.ok 0 sampleID 7)
        (postRow (Env.ok 0 sampleID 7) (samplePost "once" "0")) onceItem.Job
        (fire sampleLib (FireEnv.ok 200) onceItem ⟨[], [onceItem], [.schedSchedule 7]⟩)).2.queue
      = [] ∧
    GetScheduledJob 7
        (PostJob.insert sampleLib (Env.ok 0 sampleID 7)
          (postRow (Env.ok 0 sampleID 7) (samplePost "once" "0")) onceItem.Job
          (fire sampleLib (FireEnv.ok 200) onceItem ⟨[], [onceItem], [.schedSchedule 7]⟩)).2
      = (none, some .jobNotFound) ∧
    (PostJob sampleLib (Env.ok 0 sampleID 7) (.data (samplePost "once" "0")) State.empty).1
      = .written ⟨[], none, .job (toResult sampleLib (sampleRow sampleID 7 1 "once" "0"))⟩ ∧
    GetScheduledJob 7
        (fire sampleLib (FireEnv.ok 200) onceItem
          (PostJob sampleLib (Env.ok 0 sampleID 7) (.data (samplePost "once" "0"))
            State.empty).2)
      = (none, some .jobNotFound) := by
  decide

/-- C7 as amended: a Create that returns successfully, and a Replace with
status 1 that returns successfully, answer with the view of the job whose
JobKey is the key of the job newly appended to the scheduler queue; that key
is not the cleared value -1; the rows of the job in the table carry that key
with status 1; and lookup of the key succeeds in the state the steps of the
handler leave. Lookup keeps succeeding through any firings, before the row is
written or after the call has returned, none of which is the firing of a once
schedule of that key; after the firing of a live once schedule its key is no
longer found. -/
theorem C7_enabled_job_has_live_handle (lib : Lib) (env : Env) (s : State) :
    (∀ (body : Body PostJobRequest) (resp : Response),
        (PostJob lib env body s).1 = .written resp → resp.Errors = [] →
        ∃ result job trigger, resp.Data = .job result ∧ result.Status = 1 ∧
          result.JobKey = (job.key : Int) ∧ result.JobKey ≠ -1 ∧
          job.jobID = result.JobID ∧
          (PostJob lib env body s).2.queue = s.queue ++ [⟨job, trigger⟩] ∧
          (∃ row ∈ (PostJob lib env body s).2.db, row.JobID = result.JobID ∧
            row.JobKey = result.JobKey ∧ row.Status = 1) ∧
          (GetScheduledJob result.JobKey (PostJob lib env body s).2).2 = none) ∧
    (∀ (jobID : String) (requestData : PutJobRequest) (resp : Response),
        requestData.Status = 1 →
        (PutJob lib env jobID (.data requestData) s).1 = .written resp → resp.Errors = [] →
        ∃ result job trigger q0, resp.Data = .job result ∧ result.JobID = jobID ∧
          result.Status = 1 ∧ result.JobKey = (job.key : Int) ∧ result.JobKey ≠ -1 ∧
          job.jobID = jobID ∧ q0.Sublist s.queue ∧
          (PutJob lib env jobID (.data requestData) s).2.queue = q0 ++ [⟨job, trigger⟩] ∧
          (∃ row ∈ (PutJob lib env jobID (.data requestData) s).2.db, row.JobID = jobID) ∧
          (∀ row ∈ (PutJob lib env jobID (.data requestData) s).2.db, row.JobID = jobID →
            row.JobKey = result.JobKey ∧ row.Status = 1) ∧
          (GetScheduledJob result.JobKey
            (PutJob lib env jobID (.data requestData) s).2).2 = none) ∧
    (∀ (fs : List (FireEnv × Item)) (s2 : State) (key : Int),
        (GetScheduledJob key s2).2 = none →
        (∀ f ∈ fs, (∀ d, f.2.Trigger ≠ .runOnce d) ∨ (f.2.Job.key : Int) ≠ key) →
        (GetScheduledJob key (fires lib fs s2)).2 = none) ∧
    (∀ (fenv : FireEnv) (it : Item) (s2 : State) (d : Int),
        it ∈ s2.queue → it.Trigger = .runOnce d →
        (s2.queue.map (fun it => it.Job.key)).Nodup →
        GetScheduledJob (it.Job.key : Int) (fire lib fenv it s2) = (none, some .jobNotFound)) ∧
    (∀ (s0 s1 : State) (job : FunctionJob) (fs : List (FireEnv × Item))
        (jobID name triggerType expression httpMethod httpTargetUrl httpRequestPayload
          jsonWebToken : String),
        NewJob lib env s0 jobID name triggerType expression httpMethod httpTargetUrl
          httpRequestPayload jsonWebToken = ((some job, none), s1) →
        (∀ f ∈ fs, (∀ d, f.2.Trigger ≠ .runOnce d) ∨ (f.2.Job.key : Int) ≠ (job.key : Int)) →
        (∀ row : ScheduleJob,
          (GetScheduledJob (job.key : Int)
            (PostJob.insert lib env row job (fires lib fs s1)).2).2 = none) ∧
        (∀ (requestData : PutJobRequest) (row : ScheduleJob),
          (GetScheduledJob (job.key : Int)
            (PutJob.persist lib env requestData row (fires lib fs s1)).2).2 = none)) := by
  refine ⟨?_, ?_, fun fs s2 key h1 h2 => fires_keeps_lookup lib key fs s2 h1 h2,
    fun fenv it s2 d h1 h2 h3 => fire_once_drops_handle lib fenv it s2 d h1 h2 h3, ?_⟩
  · intro body resp hw he
    rcases PostJob_cases lib env body s with
      ⟨hout, -, -⟩ | ⟨job, trigger, hout, -⟩ | ⟨job, trigger, row, hout, hk, hj, hid, hkey, hst, hdb, hq⟩
    · rcases hout with h | ⟨st, e, h⟩
      · rw [h] at hw; cases hw
      · rw [h] at hw; cases hw; simp at he
    · rw [hout] at hw; cases hw; simp at he
    · rw [hout] at hw
      cases hw
      refine ⟨toResult lib row, job, trigger, rfl, hst, ?_, ?_, ?_, hq, ⟨row, ?_, rfl, rfl, hst⟩, ?_⟩
      · simp [toResult, hkey, hk]
      · simp only [toResult, hkey]; omega
      · simp [toResult, hid, hj]
      · rw [hdb]; simp
      · refine GetScheduledJob_of_mem _ _ ⟨job, trigger⟩ ?_ ?_
        · rw [hq]; simp
        · simp [toResult, hkey, hk]
  · intro jobID requestData resp hst1 hw he
    rcases PutJob_cases lib env jobID (.data requestData) s with
      ⟨hout, -, -⟩ | ⟨rd, row, hbody, hsel, hrest⟩
    · rcases hout with h | ⟨st, e, h⟩
      · rw [h] at hw; cases hw
      · rw [h] at hw; cases hw; simp at he
    · cases hbody
      obtain ⟨hrow, hrid⟩ := selectByID_head jobID s.db row hsel
      rcases hrest with ⟨hout, -, -⟩ | ⟨hne, -⟩ | ⟨-, job, trigger, hk, hj, hq, hlast⟩
      · rcases hout with h | ⟨st, e, h⟩
        · rw [h] at hw; cases hw
        · rw [h] at hw; cases hw; simp at he
      · exact absurd hst1 hne
      · rcases hlast with ⟨-, hout, -⟩ | ⟨hout, hdb⟩
        · rw [hout] at hw; cases hw; simp at he
        · rw [hout] at hw
          cases hw
          refine ⟨_, job, trigger, removeKey row.JobKey s.queue, rfl, ?_, ?_, ?_, ?_, ?_,
            removeKey_sublist _ _, hq, ?_, ?_, ?_⟩
          · simp [toResult, putRow, hrid]
          · simp [toResult, putRow, hst1]
          · simp [toResult, putRow, hk]
          · simp only [toResult, putRow]; omega
          · rw [hj, hrid]
          · rw [hdb]
            rcases exists_mem_updateRow (putRow env requestData row env.key) s.db row hrow with
              ⟨r2, h2, h3⟩
            exact ⟨r2, h2, h3.trans hrid⟩
          · intro r2 hr2 hid2
            rw [hdb] at hr2
            rcases mem_updateRow _ _ _ hr2 with ⟨r, -, hid, hupd, -⟩
            have : r.JobID = (putRow env requestData row env.key).JobID := by
              rw [← hid, hid2]; simp [putRow, hrid]
            have := hupd this
            simpa [toResult, putRow, hst1] using this
          · refine GetScheduledJob_of_mem _ _ ⟨job, trigger⟩ ?_ ?_
            · rw [hq]; simp
            · simp [toResult, putRow, hk]

  · intro s0 s1 job fs jobID name triggerType expression httpMethod httpTargetUrl
      httpRequestPayload jsonWebToken hnj hfs
    have hfound : (GetScheduledJob (job.key : Int) s1).2 = none := by
      rcases NewJob_cases lib env s0 jobID name triggerType expression httpMethod httpTargetUrl
          httpRequestPayload jsonWebToken with ⟨err, s3, hc, -, -⟩ | ⟨job2, trigger, hc, -⟩
      · rw [hc] at hnj; cases hnj
      · rw [hc] at hnj
        cases hnj
        exact GetScheduledJob_of_mem _ _ ⟨job, trigger⟩ (by simp) rfl
    have hfired := fires_keeps_lookup lib (job.key : Int) fs s1 hfound hfs
    refine ⟨fun row => ?_, fun requestData row => ?_⟩
    · rw [GetScheduledJob_congr _ _ _ (PostJob_insert_queue lib env row job _)]
      exact hfired
    · rw [GetScheduledJob_congr _ _ _ (PutJob_persist_queue lib env requestData row _)]
      exact hfired

/-- Witness of `C7_enabled_job_has_live_handle`: a Create of an interval job
on the empty system, a Replace with status 1 of the job of `sampleState`, a
firing of the interval schedule of `sampleState`, and the firing of a once
schedule. -/
theorem C7_enabled_job_has_live_handle_witness :
    (∃ result job trigger, (Payload.job (toResult sampleLib
          (postRow (Env.ok 0 sampleID 7) (samplePost "interval" "3600")))) = .job result ∧
      result.Status = 1 ∧ result.JobKey = (job.key : Int) ∧ result.JobKey ≠ -1 ∧
      job.jobID = result.JobID ∧
      (PostJob sampleLib (Env.ok 0 sampleID 7) (.data (samplePost "interval" "3600"))
        State.empty).2.queue = State.empty.queue ++ [⟨job, trigger⟩] ∧
      (∃ row ∈ (PostJob sampleLib (Env.ok 0 sampleID 7) (.data (samplePost "interval" "3600"))
          State.empty).2.db,
        row.JobID = result.JobID ∧ row.JobKey = result.JobKey ∧ row.Status = 1) ∧
      (GetScheduledJob result.JobKey
        (PostJob sampleLib (Env.ok 0 sampleID 7) (.data (samplePost "interval" "3600"))
          State.empty).2).2 = none) ∧
    (∃ result job trigger q0, (Payload.job (toResult sampleLib
          (putRow (Env.ok 5 "" 8) (samplePut 1 "interval" "60")
            (sampleRow sampleID 7 1 "interval" "3600") 8))) = .job result ∧
      result.JobID = sampleID ∧
      result.Status = 1 ∧ result.JobKey = (job.key : Int) ∧ result.JobKey ≠ -1 ∧
      job.jobID = sampleID ∧ q0.Sublist sampleState.queue ∧
      (PutJob sampleLib (Env.ok 5 "" 8) sampleID (.data (samplePut 1 "interval" "60"))
        sampleState).2.queue = q0 ++ [⟨job, trigger⟩] ∧
      (∃ row ∈ (PutJob sampleLib (Env.ok 5 "" 8) sampleID (.data (samplePut 1 "interval" "60"))
          sampleState).2.db, row.JobID = sampleID) ∧
      (∀ row ∈ (PutJob sampleLib (Env.ok 5 "" 8) sampleID (.data (samplePut 1 "interval" "60"))
          sampleState).2.db, row.JobID = sampleID →
        row.JobKey = result.JobKey ∧ row.Status = 1) ∧
      (GetScheduledJob result.JobKey
        (PutJob sampleLib (Env.ok 5 "" 8) sampleID (.data (samplePut 1 "interval" "60"))
          sampleState).2).2 = none) ∧
    (GetScheduledJob 7
      (fires sampleLib
        [(FireEnv.ok 200, ⟨sampleJob 7 sampleID "interval", .simple 3600000000000⟩)]
        sampleState)).2 = none ∧
    GetScheduledJob (onceItem.Job.key : Int)
        (fire sampleLib (FireEnv.ok 200) onceItem ⟨[], [onceItem], []⟩)
      = (none, some .jobNotFound) :=
  ⟨(C7_enabled_job_has_live_handle sampleLib (Env.ok 0 sampleID 7) State.empty).1
      (.data (samplePost "interval" "3600"))
      ⟨[], none, .job (toResult sampleLib (postRow (Env.ok 0 sampleID 7)
        (samplePost "interval" "3600")))⟩
      (by decide) rfl,
    (C7_enabled_job_has_live_handle sampleLib (Env.ok 5 "" 8) sampleState).2.1
      sampleID (samplePut 1 "interval" "60")
      ⟨[], none, .job (toResult sampleLib (putRow (Env.ok 5 "" 8) (samplePut 1 "interval" "60")
        (sampleRow sampleID 7 1 "interval" "3600") 8))⟩
      rfl (by decide) rfl,
    (C7_enabled_job_has_live_handle sampleLib (Env.ok 5 "" 8) sampleState).2.2.1
      [(FireEnv.ok 200, ⟨sampleJob 7 sampleID "interval", .simple 3600000000000⟩)]
      sampleState 7 (by decide)
      (by
        intro f hf
        simp only [List.mem_singleton] at hf
        subst hf
        exact Or.inl (fun d h => by cases h)),
    (C7_enabled_job_has_live_handle sampleLib (Env.ok 5 "" 8) sampleState).2.2.2.1
      (FireEnv.ok 200) onceItem ⟨[], [onceItem], []⟩ 0 (by decide) rfl (by decide)⟩


end Scheduler
